import Mathlib

/-! # Task execution worker (`workers/task_runner.go`)

A shallow embedding of the pipeline driver `TaskRunWorker` and of the three
stage executors `runModelTraining`, `runModelPrediction` and
`runModelEvaluationAndGetQuality`.

The worker is sequential code that talks to external collaborators (registry,
storage, module loader, container runtime, file system, logger).  A run is
modelled as a function that, given the answers of the collaborators, produces
the ordered list of calls it issued (its trace) and its outcome: it either
returns or panics.
-/

namespace model

/-- Modelled from the spec: the task status constants of package `model`
(`TaskScheduled`, `TaskRunning`, ...), the eight values listed in the data
model of the spec. -/
inductive TaskStatus
  | TaskScheduled
  | TaskRunning
  | TaskPausing
  | TaskPaused
  | TaskTerminating
  | TaskTerminated
  | TaskCompleted
  | TaskError
deriving DecidableEq, Repr

/-- Modelled from the spec: the task stage constants of package `model`
(`TaskStageBegin`, ...), the five values listed in the data model of the
spec. -/
inductive TaskStage
  | TaskStageBegin
  | TaskStageTraining
  | TaskStagePredicting
  | TaskStageEvaluating
  | TaskStageEnd
deriving DecidableEq, Repr

/-- Modelled from the spec: the job status constants used by the worker. -/
inductive JobStatus
  | JobRunning
  | JobCompleted
deriving DecidableEq, Repr

/-- Modelled from the spec: the process status constants used by the listener. -/
inductive ProcStatus
  | ProcIdle
  | ProcWorking
deriving DecidableEq, Repr

/-- Modelled from the spec: the two module kinds (`ModuleModel`,
`ModuleObjective`). -/
inductive ModuleType
  | ModuleModel
  | ModuleObjective
deriving DecidableEq, Repr

export TaskStatus (TaskScheduled TaskRunning TaskPausing TaskPaused TaskTerminating
  TaskTerminated TaskCompleted TaskError)
export TaskStage (TaskStageBegin TaskStageTraining TaskStagePredicting TaskStageEvaluating
  TaskStageEnd)
export JobStatus (JobRunning JobCompleted)
export ProcStatus (ProcIdle ProcWorking)
export ModuleType (ModuleModel ModuleObjective)

/-- Modelled from the spec: the fields of `model.Task` that the worker reads. -/
structure Task where
  ID : String
  Stage : TaskStage
  Status : TaskStatus
  Job : String
  User : String
  Model : String
  Objective : String
  Dataset : String
  Config : String
deriving DecidableEq, Repr

/-- Modelled from the spec: the field of `model.Job` that the worker reads;
`MaxTasks` is a `uint64`. -/
structure Job where
  MaxTasks : Nat
deriving DecidableEq, Repr

end model

namespace storage

/-- Modelled from the spec: the per-task directories of `storage.TaskPaths`. -/
structure TaskPaths where
  Config : String
  Parameters : String
  Predictions : String
  Evaluations : String
  Logs : String
deriving DecidableEq, Repr

end storage

namespace workers

open model

/-- A Go `float64`, kept as its 64-bit pattern: the worker only passes scores on. -/
structure Float64 where
  bits : Nat
deriving DecidableEq, Repr

/-- The zero value that the evaluator returns next to an error (`return 0, err`). -/
def Float64.zero : Float64 := ⟨0⟩

/-- The stdout reader handed back by the container runtime: the bytes it
delivers, followed by end of file (`err = none`) or by a read error. -/
structure Stdout where
  data : String
  err : Option String
deriving DecidableEq, Repr

/-- One call issued by the worker to a collaborator, in the order issued.
Registry writes are issued through `repeatUntilSuccess`; the trace holds the
accepted call.  `WriteInfo` and `WriteError` are calls of `context.Logger`,
`Printf` is `log.Printf`, `Sleep` is `time.Sleep(context.Period)`. -/
inductive Event
  | LockTask (status : TaskStatus) (pid : String)
  | SetProcessStatus (pid : String) (status : ProcStatus)
  | Sleep
  | UpdateTaskStatus (id : String) (status : TaskStatus) (msg : String)
  | UpdateTaskStage (id : String) (stage : TaskStage)
  | UpdateTask (id : String) (quality : Float64) (qualityTrain : Float64)
  | GetTaskByID (id : String)
  | GetJobByID (job : String)
  | CountTasks (job : String) (status : TaskStatus)
  | UpdateJob (job : String) (status : JobStatus)
  | TerminateRunningTasks (job : String)
  | UnlockTask (id : String) (pid : String)
  | GetDatasetPath (dataset : String)
  | GetAllTaskPaths (id : String)
  | LoadImage (path : String)
  | RunContainerAndCollectOutput (image : String) (command : List String)
  | Close
  | WriteFile (path : String) (data : String)
  | WriteInfo (msg : String)
  | WriteError (msg : String) (err : String)
  | Printf (msg : String)
deriving DecidableEq, Repr

/-- How many calls of each repeated kind have been answered so far; the
collaborators answer the n-th call of a kind, so the same call may be answered
differently at different times. -/
structure Calls where
  LoadImage : Nat
  GetTaskByID : Nat
  RunContainer : Nat
  WriteFile : Nat
deriving DecidableEq, Repr

/-- The receiver `context Context` of every worker method, together with the
answers of the collaborators the methods call.  `getModuleImagePath` is a
method of this package outside the file, `MntPrefix` a constant of package
`modules`, `Join` is `filepath.Join` and `ParseFloat s` is
`strconv.ParseFloat(s, 64)`; they are taken as given.  `LoadImage n`,
`GetTaskByID n`, `RunContainerAndCollectOutput n` and `WriteFile n` are the
answers to the n-th call of that kind (whatever its arguments are in the run):
the image name or the load error, the status the registry holds at that
moment, the stdout reader or the start error, the write error if any. -/
structure Context where
  ProcessID : String
  getModuleImagePath : String → ModuleType → String
  MntPrefix : String
  Join : String → String → String
  ParseFloat : String → Except String Float64
  GetDatasetPath : String → Except String String
  GetAllTaskPaths : String → Except String storage.TaskPaths
  LoadImage : Nat → Except String String
  GetTaskByID : Nat → TaskStatus
  GetJobByID : String → Job
  CountTasks : String → Int
  RunContainerAndCollectOutput : Nat → Except String Stdout
  WriteFile : Nat → Option String

/-- How a piece of worker code ends.  `next a`: it ran to its end with value
`a` (for a method called as an expression, `a` is what the method returned).
`returned`: a `return` statement of `TaskRunWorker` was executed, so the rest
of `TaskRunWorker` is skipped.  `panicked err`: the goroutine panicked. -/
inductive Outcome (α : Type)
  | next (a : α)
  | returned
  | panicked (err : String)
deriving DecidableEq, Repr

/-- The result of running a piece of worker code: its outcome, the counters
after it, and the calls it issued, oldest first. -/
structure Run (α : Type) where
  out : Outcome α
  calls : Calls
  trace : List Event

/-- Worker code: from the counters at its start to its run. -/
def Exec (α : Type) : Type := Calls → Run α

/-- Finish with a value without issuing a call. -/
def Exec.pure {α : Type} (a : α) : Exec α :=
  fun c => ⟨Outcome.next a, c, []⟩

/-- Sequencing: a `return` of the driver or a panic stops the run, otherwise
the second piece runs after the first and the traces are concatenated. -/
def Exec.bind {α β : Type} (m : Exec α) (f : α → Exec β) : Exec β :=
  fun c =>
    match m c with
    | ⟨Outcome.panicked e, c1, t1⟩ => ⟨Outcome.panicked e, c1, t1⟩
    | ⟨Outcome.returned, c1, t1⟩ => ⟨Outcome.returned, c1, t1⟩
    | ⟨Outcome.next a, c1, t1⟩ =>
      let r := f a c1
      ⟨r.out, r.calls, t1 ++ r.trace⟩

instance : Monad Exec where
  pure := Exec.pure
  bind := Exec.bind

/-- Issue one call. -/
def emit (e : Event) : Exec Unit :=
  fun c => ⟨Outcome.next (), c, [e]⟩

/-- Go `panic(err)`. -/
def goPanic {α : Type} (err : String) : Exec α :=
  fun c => ⟨Outcome.panicked err, c, []⟩

/-- Go `return` inside `TaskRunWorker`. -/
def goReturn {α : Type} : Exec α :=
  fun c => ⟨Outcome.returned, c, []⟩

/-- Modelled from the spec: `repeatUntilSuccess` retries a registry call until
it is accepted; the accepted call is what the trace records. -/
def repeatUntilSuccess (op : Event) : Exec Unit :=
  emit op

/-- The Go conversion `uint64(n)` of an `int`. -/
def uint64 (n : Int) : Nat :=
  (n % 2 ^ 64).toNat

/-- The call `modules.LoadImage(path)`: the image name or an error. -/
def LoadImage (context : Context) (path : String) : Exec (Except String String) :=
  fun c => ⟨Outcome.next (context.LoadImage c.LoadImage),
    { c with LoadImage := c.LoadImage + 1 }, [Event.LoadImage path]⟩

/-- The call `modules.RunContainerAndCollectOutput(image, nil, command)`. -/
def RunContainerAndCollectOutput (context : Context) (image : String) (command : List String) :
    Exec (Except String Stdout) :=
  fun c => ⟨Outcome.next (context.RunContainerAndCollectOutput c.RunContainer),
    { c with RunContainer := c.RunContainer + 1 },
    [Event.RunContainerAndCollectOutput image command]⟩

/-- The call `ioutil.WriteFile(path, data, perm)`: `none` or the write error. -/
def WriteFile (context : Context) (path : String) (data : String) : Exec (Option String) :=
  fun c => ⟨Outcome.next (context.WriteFile c.WriteFile),
    { c with WriteFile := c.WriteFile + 1 }, [Event.WriteFile path data]⟩

/-- The call `ioutil.ReadAll(outReader)`: all the bytes, or the read error. -/
def ReadAll (outReader : Stdout) : Except String String :=
  match outReader.err with
  | none => Except.ok outReader.data
  | some e => Except.error e

/-- The predicate `unicode.IsSpace` that `strings.TrimSpace` trims by. -/
def isSpace (c : Char) : Bool :=
  c = '\t' || c = '\n' || c.toNat = 0x0B || c.toNat = 0x0C || c = '\r' || c = ' ' ||
  c.toNat = 0x85 || c.toNat = 0xA0 || c.toNat = 0x1680 ||
  (0x2000 ≤ c.toNat && c.toNat ≤ 0x200A) || c.toNat = 0x2028 || c.toNat = 0x2029 ||
  c.toNat = 0x202F || c.toNat = 0x205F || c.toNat = 0x3000

/-- The function `strings.TrimSpace`: leading and trailing white space removed. -/
def TrimSpace (s : String) : String :=
  String.mk ((s.toList.dropWhile isSpace).reverse.dropWhile isSpace).reverse

/-- The helper `dropCR` of `bufio.ScanLines`: one trailing carriage return removed. -/
def dropCR (line : List Char) : List Char :=
  if line.getLast? = some '\r' then line.dropLast else line

/-- The tokens of `bufio.ScanLines` before `dropCR`: the text is cut after each
newline, and a last piece without a newline is a token when it is not empty.
`cur` holds the current piece, newest character first. -/
def splitLines : List Char → List Char → List (List Char)
  | [], cur => if cur = [] then [] else [cur.reverse]
  | c :: rest, cur =>
    if c = '\n' then cur.reverse :: splitLines rest [] else splitLines rest (c :: cur)

/-- The constant `bufio.MaxScanTokenSize`. -/
def MaxScanTokenSize : Nat := 64 * 1024

/-- The loop `for scanner.Scan() { lines = append(lines, scanner.Text()) }` over
a `bufio.NewScanner(outReader)`: the lines of the bytes the reader delivers.
Scanning stops at the end of the data, whether the reader ended with end of
file or with an error (the loop never looks at `scanner.Err()`), and at the
first line too long for the scanner's buffer. -/
def scanLines (outReader : Stdout) : List String :=
  ((splitLines outReader.data.toList []).takeWhile
    (fun l => decide ((String.mk l).utf8ByteSize < MaxScanTokenSize))).map
    (fun l => String.mk (dropCR l))

/-- The method `getTaskStatus`: the status of the task as the registry holds it now. -/
def getTaskStatus (context : Context) (id : String) : Exec TaskStatus :=
  fun c => ⟨Outcome.next (context.GetTaskByID c.GetTaskByID),
    { c with GetTaskByID := c.GetTaskByID + 1 }, [Event.GetTaskByID id]⟩

/-- The method `runModelTraining`; the result is the Go `error` (`none` is `nil`). -/
def runModelTraining (context : Context) (task : Task) (modelImageName : String)
    (paths : storage.TaskPaths) (datasetPath : String) : Exec (Option String) := do
  -- Dump the config.
  let configFilePath := context.Join paths.Config "config.json"
  let _ ← WriteFile context configFilePath task.Config
  -- Run the training.
  let trainDatasetPath := context.Join datasetPath "train"
  let command := ["train",
    "--data", context.MntPrefix ++ trainDatasetPath,
    "--conf", context.MntPrefix ++ configFilePath,
    "--output", context.MntPrefix ++ paths.Parameters]
  match ← RunContainerAndCollectOutput context modelImageName command with
  | Except.error err =>
    emit (Event.WriteError "MODEL CONTAINER START ERROR" err)
    repeatUntilSuccess (Event.UpdateTaskStatus task.ID TaskError err)
    return some err
  | Except.ok outReader =>
    -- Write the output to the train log.
    match ReadAll outReader with
    | Except.error err =>
      emit (Event.WriteError "MODEL CONTAINER OUTPUT READ ERROR" err)
      repeatUntilSuccess (Event.UpdateTaskStatus task.ID TaskError err)
      emit Event.Close
      return some err
    | Except.ok trainLogData =>
      let _ ← WriteFile context (context.Join paths.Logs "train.log") trainLogData
      emit Event.Close
      return none

/-- The method `runModelPrediction`; the result is the Go `error`. -/
def runModelPrediction (context : Context) (task : Task) (modelImageName : String)
    (paths : storage.TaskPaths) (datasetPath : String) (subdir : String) :
    Exec (Option String) := do
  -- Run the prediction.
  let valDatasetPath := context.Join datasetPath subdir
  let valOutputPath := context.Join paths.Predictions subdir
  let command := ["predict",
    "--data", context.MntPrefix ++ valDatasetPath,
    "--memory", context.MntPrefix ++ paths.Parameters,
    "--output", context.MntPrefix ++ valOutputPath]
  match ← RunContainerAndCollectOutput context modelImageName command with
  | Except.error err =>
    emit (Event.WriteError "MODEL CONTAINER START ERROR" err)
    repeatUntilSuccess (Event.UpdateTaskStatus task.ID TaskError err)
    return some err
  | Except.ok outReader =>
    -- Write the output to the predict log.
    match ReadAll outReader with
    | Except.error err =>
      emit (Event.WriteError "MODEL CONTAINER OUTPUT READ ERROR" err)
      repeatUntilSuccess (Event.UpdateTaskStatus task.ID TaskError err)
      emit Event.Close
      return some err
    | Except.ok predictLogData =>
      let _ ← WriteFile context (context.Join paths.Logs ("predict." ++ subdir ++ ".log"))
        predictLogData
      emit Event.Close
      return none

/-- The method `runModelEvaluationAndGetQuality`; the result is the Go pair
`(float64, error)`. -/
def runModelEvaluationAndGetQuality (context : Context) (task : Task)
    (objectiveImageName : String) (paths : storage.TaskPaths) (datasetPath : String)
    (subdir : String) : Exec (Float64 × Option String) := do
  -- Run the evaluation.
  let valDatasetPath := context.Join datasetPath subdir
  let valOutputPath := context.Join paths.Predictions subdir
  let command := ["eval",
    "--actual", context.MntPrefix ++ valDatasetPath,
    "--predicted", context.MntPrefix ++ valOutputPath]
  match ← RunContainerAndCollectOutput context objectiveImageName command with
  | Except.error err =>
    emit (Event.WriteError "OBJECTIVE CONTAINER START ERROR" err)
    repeatUntilSuccess (Event.UpdateTaskStatus task.ID TaskError err)
    return (Float64.zero, some err)
  | Except.ok outReader =>
    -- Parse evaluations.
    let lines := scanLines outReader
    -- The last line should contain the quality.
    match lines.getLast? with
    | none =>
      emit Event.Close
      goPanic "runtime error: index out of range [-1]"
    | some lastLine =>
      let qualityString := TrimSpace lastLine
      match context.ParseFloat qualityString with
      | Except.error err =>
        emit (Event.WriteError "OBJECTIVE QUALITY PARSE ERROR" err)
        repeatUntilSuccess (Event.UpdateTaskStatus task.ID TaskError err)
        emit Event.Close
        return (Float64.zero, some err)
      | Except.ok quality =>
        -- Dump evaluation lines.
        let lines := lines.dropLast
        let evalFileName := context.Join paths.Evaluations ("evals." ++ subdir ++ ".log")
        let evalLines := String.intercalate "\n" lines
        match ← WriteFile context evalFileName evalLines with
        | some err =>
          emit Event.Close
          goPanic err
        | none =>
          emit Event.Close
          return (quality, none)

/-- Lines 68-86 of `TaskRunWorker`: ensure the task model is loaded; the value
is `modelImageName`, which stays empty for a task in the evaluating stage. -/
def ensureModelLoaded (context : Context) (task : Task) : Exec String := do
  if task.Stage ≠ TaskStageEvaluating then
    let modelImageFilePath := context.getModuleImagePath task.Model ModuleModel
    match ← LoadImage context modelImageFilePath with
    | Except.error err =>
      emit (Event.WriteError "MODEL LOAD ERROR" err)
      repeatUntilSuccess (Event.UpdateTaskStatus task.ID TaskError err)
      goReturn
    | Except.ok modelImageName =>
      return modelImageName
  else
    return ""

/-- Lines 88-101 of `TaskRunWorker`: put the task in the training stage; the
value is the local variable `task` after the block. -/
def putInTrainingStage (task : Task) : Exec Task := do
  if task.Stage = TaskStageBegin then
    repeatUntilSuccess (Event.UpdateTaskStage task.ID TaskStageTraining)
    return { task with Stage := TaskStageTraining }
  else
    emit (Event.WriteInfo "TASK NOT IN BEGIN STAGE")
    return task

/-- Lines 103-142 of `TaskRunWorker`: re-read the status and run the training
stage if the task is still running; the value is `task` after the block. -/
def trainingStage (context : Context) (task : Task) (modelImageName : String)
    (paths : storage.TaskPaths) (datasetPath : String) : Exec Task := do
  -- Check the task status as it is maybe not running anymore.
  let task := { task with Status := ← getTaskStatus context task.ID }
  -- Run the training stage if the task is still running.
  if task.Status = TaskRunning then
    if task.Stage = TaskStageTraining then
      emit (Event.WriteInfo "MODEL TRAINING STARTED")
      match ← runModelTraining context task modelImageName paths datasetPath with
      | some _ => goReturn
      | none =>
        -- Put the task in the prediction stage.
        repeatUntilSuccess (Event.UpdateTaskStage task.ID TaskStagePredicting)
        emit (Event.WriteInfo "MODEL TRAINING COMPLETED")
        return { task with Stage := TaskStagePredicting }
    else
      emit (Event.WriteInfo "MODEL TRAINING SKIPPED")
      return task
  else
    return task

/-- Lines 144-190 of `TaskRunWorker`: re-read the status and run the
predicting stage if the task is still running. -/
def predictingStage (context : Context) (task : Task) (modelImageName : String)
    (paths : storage.TaskPaths) (datasetPath : String) : Exec Task := do
  -- Check the task status as it is maybe not running anymore.
  let task := { task with Status := ← getTaskStatus context task.ID }
  -- Run the predicting stage if the task is still running.
  if task.Status = TaskRunning then
    if task.Stage = TaskStagePredicting then
      emit (Event.WriteInfo "MODEL PREDICTING STARTED")
      -- Predict the training set.
      match ← runModelPrediction context task modelImageName paths datasetPath "train" with
      | some _ => goReturn
      | none =>
        -- Predict the validation set.
        match ← runModelPrediction context task modelImageName paths datasetPath "val" with
        | some _ => goReturn
        | none =>
          -- Put the task in the evaluation stage.
          repeatUntilSuccess (Event.UpdateTaskStage task.ID TaskStageEvaluating)
          emit (Event.WriteInfo "MODEL PREDICTING COMPLETED")
          return { task with Stage := TaskStageEvaluating }
    else
      emit (Event.WriteInfo "MODEL PREDICTING SKIPPED")
      return task
  else
    return task

/-- Lines 192-270 of `TaskRunWorker`: re-read the status and run the
evaluation stage if the task is still running. -/
def evaluatingStage (context : Context) (task : Task) (paths : storage.TaskPaths)
    (datasetPath : String) : Exec Task := do
  -- Check the task status as it is maybe not running anymore.
  let task := { task with Status := ← getTaskStatus context task.ID }
  -- Run the evaluation stage if the task is still running.
  if task.Status = TaskRunning then
    if task.Stage = TaskStageEvaluating then
      emit (Event.WriteInfo "MODEL EVALUATING STARTED")
      -- Ensure task objective is loaded.
      let objectiveImageFilePath := context.getModuleImagePath task.Objective ModuleObjective
      match ← LoadImage context objectiveImageFilePath with
      | Except.error err =>
        emit (Event.WriteError "OBJECTIVE LOAD ERROR" err)
        repeatUntilSuccess (Event.UpdateTaskStatus task.ID TaskError err)
        goReturn
      | Except.ok objectiveImageName =>
        -- Predict the training set.
        match ← runModelEvaluationAndGetQuality context task objectiveImageName paths
            datasetPath "train" with
        | (_, some _) => goReturn
        | (trainQuality, none) =>
          -- Predict the training set.
          match ← runModelEvaluationAndGetQuality context task objectiveImageName paths
              datasetPath "val" with
          | (_, some _) => goReturn
          | (valQuality, none) =>
            -- Update task quality.
            repeatUntilSuccess (Event.UpdateTask task.ID valQuality trainQuality)
            -- Put the task in the end stage.
            repeatUntilSuccess (Event.UpdateTaskStage task.ID TaskStageEnd)
            emit (Event.WriteInfo "MODEL EVALUATING COMPLETED")
            -- Put the task in the end stage.
            repeatUntilSuccess (Event.UpdateTaskStage task.ID TaskStageEnd)
            return { task with Stage := TaskStageEnd }
    else
      emit (Event.WriteInfo "MODEL EVALUATING SKIPPED")
      return task
  else
    return task

/-- Lines 272-334 of `TaskRunWorker`: re-read the status, complete the task if
it is still running, and let the completion trigger the job completion. -/
def completeTask (context : Context) (task : Task) : Exec Task := do
  -- Check the task status as it is maybe not running anymore.
  let task := { task with Status := ← getTaskStatus context task.ID }
  -- Complete the task if the task is still running.
  if task.Status = TaskRunning then
    if task.Stage = TaskStageEnd then
      -- Put the task in the completed state.
      repeatUntilSuccess (Event.UpdateTaskStatus task.ID TaskCompleted "")
      let task := { task with Status := TaskCompleted }
      -- Log task completion.
      emit (Event.WriteInfo "TASK COMPLETED")
      -- Task completion could trigger job completion.
      repeatUntilSuccess (Event.GetJobByID task.Job)
      let job := context.GetJobByID task.Job
      if job.MaxTasks > 0 then
        repeatUntilSuccess (Event.CountTasks task.Job TaskCompleted)
        let numCompletedTasks := context.CountTasks task.Job
        -- If the number of completed tasks is larger than the maximum number of tasks, we
        -- mark the job as completed and move all remaining tasks to the terminating state.
        if uint64 numCompletedTasks ≥ job.MaxTasks then
          -- Mark job as completed.
          repeatUntilSuccess (Event.UpdateJob task.Job JobCompleted)
          -- Mark all running tasks as terminating.
          repeatUntilSuccess (Event.TerminateRunningTasks task.Job)
          -- Log task completion.
          emit (Event.WriteInfo "JOB COMPLETED")
          return task
        else
          return task
      else
        return task
    else
      return task
  else
    return task

/-- Lines 336-349 of `TaskRunWorker`: if the task is not running anymore, then
we handle it. -/
def handleNotRunning (task : Task) : Exec Unit := do
  if task.Status ≠ TaskRunning then
    if task.Status = TaskTerminating then
      repeatUntilSuccess (Event.UpdateTaskStatus task.ID TaskTerminated "")
    else if task.Status = TaskPausing then
      repeatUntilSuccess (Event.UpdateTaskStatus task.ID TaskPaused "")

/-- The method `TaskRunWorker`: takes a task and runs it through all the
stages.  The body is the sequence of its blocks, in source order; a `return`
inside a block ends the run. -/
def TaskRunWorker (context : Context) (task : Task) : Exec Unit := do
  -- Mark the task as running.
  repeatUntilSuccess (Event.UpdateTaskStatus task.ID TaskRunning "")
  -- Dataset path.
  emit (Event.GetDatasetPath task.Dataset)
  let datasetPath ← match context.GetDatasetPath task.Dataset with
    | Except.error err => goPanic err
    | Except.ok p => pure p
  -- Parameters, predictions and evaluations path.
  emit (Event.GetAllTaskPaths task.ID)
  let paths ← match context.GetAllTaskPaths task.ID with
    | Except.error err => goPanic err
    | Except.ok p => pure p
  -- Ensure task model is loaded.
  let modelImageName ← ensureModelLoaded context task
  -- Put the task in the training stage.
  let task ← putInTrainingStage task
  -- Run the training stage if the task is still running.
  let task ← trainingStage context task modelImageName paths datasetPath
  -- Run the predicting stage if the task is still running.
  let task ← predictingStage context task modelImageName paths datasetPath
  -- Run the evaluation stage if the task is still running.
  let task ← evaluatingStage context task paths datasetPath
  -- Complete the task if the task is still running.
  let task ← completeTask context task
  -- If the task is not running anymore, then we handle it.
  handleNotRunning task
  -- Unlock the task.
  repeatUntilSuccess (Event.UnlockTask task.ID context.ProcessID)

/-! ## The traces of the executors and the rest of the driver from a block on -/

/-- The argv of the train container, as `runModelTraining` builds it. -/
def trainCommand (context : Context) (paths : storage.TaskPaths) (datasetPath : String) :
    List String :=
  ["train",
    "--data", context.MntPrefix ++ context.Join datasetPath "train",
    "--conf", context.MntPrefix ++ context.Join paths.Config "config.json",
    "--output", context.MntPrefix ++ paths.Parameters]

/-- The argv of the predict container, as `runModelPrediction` builds it. -/
def predictCommand (context : Context) (paths : storage.TaskPaths) (datasetPath : String)
    (subdir : String) : List String :=
  ["predict",
    "--data", context.MntPrefix ++ context.Join datasetPath subdir,
    "--memory", context.MntPrefix ++ paths.Parameters,
    "--output", context.MntPrefix ++ context.Join paths.Predictions subdir]

/-- The argv of the eval container, as `runModelEvaluationAndGetQuality` builds it. -/
def evalCommand (context : Context) (paths : storage.TaskPaths) (datasetPath : String)
    (subdir : String) : List String :=
  ["eval",
    "--actual", context.MntPrefix ++ context.Join datasetPath subdir,
    "--predicted", context.MntPrefix ++ context.Join paths.Predictions subdir]

/-- The calls of a `runModelTraining` that returns `nil`. -/
def trainOkTrace (context : Context) (config : String) (img : String)
    (paths : storage.TaskPaths) (datasetPath : String) (rd : Stdout) : List Event :=
  [Event.WriteFile (context.Join paths.Config "config.json") config,
   Event.RunContainerAndCollectOutput img (trainCommand context paths datasetPath),
   Event.WriteFile (context.Join paths.Logs "train.log") rd.data,
   Event.Close]

/-- The calls of a `runModelPrediction` that returns `nil`. -/
def predictOkTrace (context : Context) (img : String) (paths : storage.TaskPaths)
    (datasetPath : String) (subdir : String) (rd : Stdout) : List Event :=
  [Event.RunContainerAndCollectOutput img (predictCommand context paths datasetPath subdir),
   Event.WriteFile (context.Join paths.Logs ("predict." ++ subdir ++ ".log")) rd.data,
   Event.Close]

/-- The calls of a `runModelEvaluationAndGetQuality` that returns a score. -/
def evalOkTrace (context : Context) (img : String) (paths : storage.TaskPaths)
    (datasetPath : String) (subdir : String) (rd : Stdout) : List Event :=
  [Event.RunContainerAndCollectOutput img (evalCommand context paths datasetPath subdir),
   Event.WriteFile (context.Join paths.Evaluations ("evals." ++ subdir ++ ".log"))
     (String.intercalate "\n" (scanLines rd).dropLast),
   Event.Close]

/-- The rest of `TaskRunWorker` after the reaper block: the handler and the unlock. -/
def fromHandler (context : Context) (task : Task) : Exec Unit := do
  handleNotRunning task
  repeatUntilSuccess (Event.UnlockTask task.ID context.ProcessID)

/-- The rest of `TaskRunWorker` from the fourth status re-read on. -/
def fromCompleting (context : Context) (task : Task) : Exec Unit := do
  let task ← completeTask context task
  fromHandler context task

/-- The rest of `TaskRunWorker` from the third status re-read on. -/
def fromEvaluating (context : Context) (task : Task) (paths : storage.TaskPaths)
    (datasetPath : String) : Exec Unit := do
  let task ← evaluatingStage context task paths datasetPath
  fromCompleting context task

/-- The rest of `TaskRunWorker` from the second status re-read on. -/
def fromPredicting (context : Context) (task : Task) (modelImageName : String)
    (paths : storage.TaskPaths) (datasetPath : String) : Exec Unit := do
  let task ← predictingStage context task modelImageName paths datasetPath
  fromEvaluating context task paths datasetPath

/-- The rest of `TaskRunWorker` from the first status re-read on. -/
def fromTraining (context : Context) (task : Task) (modelImageName : String)
    (paths : storage.TaskPaths) (datasetPath : String) : Exec Unit := do
  let task ← trainingStage context task modelImageName paths datasetPath
  fromPredicting context task modelImageName paths datasetPath

/-- The rest of `TaskRunWorker` once the storage paths are known. -/
def fromModelLoad (context : Context) (task : Task) (paths : storage.TaskPaths)
    (datasetPath : String) : Exec Unit := do
  let modelImageName ← ensureModelLoaded context task
  let task ← putInTrainingStage task
  fromTraining context task modelImageName paths datasetPath

/-- The counters after one more status re-read. -/
def Calls.reread (c : Calls) : Calls :=
  { c with GetTaskByID := c.GetTaskByID + 1 }

/-- The status write of the handler at the tail of `TaskRunWorker`, by the
status the local `task` holds there. -/
def handlerTrace (id : String) (status : TaskStatus) : List Event :=
  if status = TaskTerminating then [Event.UpdateTaskStatus id TaskTerminated ""]
  else if status = TaskPausing then [Event.UpdateTaskStatus id TaskPaused ""]
  else []

/-- The runs of the block `trainingStage`, one constructor for each way through
it, with the answers of the collaborators that select it. -/
inductive TrainingStageRun (context : Context) (task : Task) (modelImageName : String)
    (paths : storage.TaskPaths) (datasetPath : String) (c : Calls) : Run Task → Prop
  | notRunning
      (hs : context.GetTaskByID c.GetTaskByID ≠ TaskRunning) :
      TrainingStageRun context task modelImageName paths datasetPath c
        ⟨Outcome.next { task with Status := context.GetTaskByID c.GetTaskByID },
         c.reread,
         [Event.GetTaskByID task.ID]⟩
  | skipped
      (hs : context.GetTaskByID c.GetTaskByID = TaskRunning)
      (hst : task.Stage ≠ TaskStageTraining) :
      TrainingStageRun context task modelImageName paths datasetPath c
        ⟨Outcome.next { task with Status := TaskRunning },
         c.reread,
         [Event.GetTaskByID task.ID, Event.WriteInfo "MODEL TRAINING SKIPPED"]⟩
  | startFailed (e : String)
      (hs : context.GetTaskByID c.GetTaskByID = TaskRunning)
      (hst : task.Stage = TaskStageTraining)
      (hr : context.RunContainerAndCollectOutput c.RunContainer = Except.error e) :
      TrainingStageRun context task modelImageName paths datasetPath c
        ⟨Outcome.returned,
         { c.reread with RunContainer := c.RunContainer + 1, WriteFile := c.WriteFile + 1 },
         [Event.GetTaskByID task.ID, Event.WriteInfo "MODEL TRAINING STARTED",
          Event.WriteFile (context.Join paths.Config "config.json") task.Config,
          Event.RunContainerAndCollectOutput modelImageName
            (trainCommand context paths datasetPath),
          Event.WriteError "MODEL CONTAINER START ERROR" e,
          Event.UpdateTaskStatus task.ID TaskError e]⟩
  | readFailed (rd : Stdout) (e : String)
      (hs : context.GetTaskByID c.GetTaskByID = TaskRunning)
      (hst : task.Stage = TaskStageTraining)
      (hr : context.RunContainerAndCollectOutput c.RunContainer = Except.ok rd)
      (he : rd.err = some e) :
      TrainingStageRun context task modelImageName paths datasetPath c
        ⟨Outcome.returned,
         { c.reread with RunContainer := c.RunContainer + 1, WriteFile := c.WriteFile + 1 },
         [Event.GetTaskByID task.ID, Event.WriteInfo "MODEL TRAINING STARTED",
          Event.WriteFile (context.Join paths.Config "config.json") task.Config,
          Event.RunContainerAndCollectOutput modelImageName
            (trainCommand context paths datasetPath),
          Event.WriteError "MODEL CONTAINER OUTPUT READ ERROR" e,
          Event.UpdateTaskStatus task.ID TaskError e,
          Event.Close]⟩
  | trained (rd : Stdout)
      (hs : context.GetTaskByID c.GetTaskByID = TaskRunning)
      (hst : task.Stage = TaskStageTraining)
      (hr : context.RunContainerAndCollectOutput c.RunContainer = Except.ok rd)
      (he : rd.err = none) :
      TrainingStageRun context task modelImageName paths datasetPath c
        ⟨Outcome.next { task with Status := TaskRunning, Stage := TaskStagePredicting },
         { c.reread with RunContainer := c.RunContainer + 1, WriteFile := c.WriteFile + 2 },
         [Event.GetTaskByID task.ID, Event.WriteInfo "MODEL TRAINING STARTED"] ++
          trainOkTrace context task.Config modelImageName paths datasetPath rd ++
          [Event.UpdateTaskStage task.ID TaskStagePredicting,
           Event.WriteInfo "MODEL TRAINING COMPLETED"]⟩

/-- The runs of the block `predictingStage`, one constructor for each way
through it, with the answers of the collaborators that select it. -/
inductive PredictingStageRun (context : Context) (task : Task) (modelImageName : String)
    (paths : storage.TaskPaths) (datasetPath : String) (c : Calls) : Run Task → Prop
  | notRunning
      (hs : context.GetTaskByID c.GetTaskByID ≠ TaskRunning) :
      PredictingStageRun context task modelImageName paths datasetPath c
        ⟨Outcome.next { task with Status := context.GetTaskByID c.GetTaskByID },
         c.reread,
         [Event.GetTaskByID task.ID]⟩
  | skipped
      (hs : context.GetTaskByID c.GetTaskByID = TaskRunning)
      (hst : task.Stage ≠ TaskStagePredicting) :
      PredictingStageRun context task modelImageName paths datasetPath c
        ⟨Outcome.next { task with Status := TaskRunning },
         c.reread,
         [Event.GetTaskByID task.ID, Event.WriteInfo "MODEL PREDICTING SKIPPED"]⟩
  | trainStartFailed (e : String)
      (hs : context.GetTaskByID c.GetTaskByID = TaskRunning)
      (hst : task.Stage = TaskStagePredicting)
      (hr : context.RunContainerAndCollectOutput c.RunContainer = Except.error e) :
      PredictingStageRun context task modelImageName paths datasetPath c
        ⟨Outcome.returned,
         { c.reread with RunContainer := c.RunContainer + 1 },
         [Event.GetTaskByID task.ID, Event.WriteInfo "MODEL PREDICTING STARTED"] ++
          [Event.RunContainerAndCollectOutput modelImageName
             (predictCommand context paths datasetPath "train"),
           Event.WriteError "MODEL CONTAINER START ERROR" e,
           Event.UpdateTaskStatus task.ID TaskError e]⟩
  | trainReadFailed (rd : Stdout) (e : String)
      (hs : context.GetTaskByID c.GetTaskByID = TaskRunning)
      (hst : task.Stage = TaskStagePredicting)
      (hr : context.RunContainerAndCollectOutput c.RunContainer = Except.ok rd)
      (he : rd.err = some e) :
      PredictingStageRun context task modelImageName paths datasetPath c
        ⟨Outcome.returned,
         { c.reread with RunContainer := c.RunContainer + 1 },
         [Event.GetTaskByID task.ID, Event.WriteInfo "MODEL PREDICTING STARTED"] ++
          [Event.RunContainerAndCollectOutput modelImageName
             (predictCommand context paths datasetPath "train"),
           Event.WriteError "MODEL CONTAINER OUTPUT READ ERROR" e,
           Event.UpdateTaskStatus task.ID TaskError e,
           Event.Close]⟩
  | valStartFailed (rd : Stdout) (e : String)
      (hs : context.GetTaskByID c.GetTaskByID = TaskRunning)
      (hst : task.Stage = TaskStagePredicting)
      (hr : context.RunContainerAndCollectOutput c.RunContainer = Except.ok rd)
      (he : rd.err = none)
      (hr2 : context.RunContainerAndCollectOutput (c.RunContainer + 1) = Except.error e) :
      PredictingStageRun context task modelImageName paths datasetPath c
        ⟨Outcome.returned,
         { c.reread with RunContainer := c.RunContainer + 2, WriteFile := c.WriteFile + 1 },
         [Event.GetTaskByID task.ID, Event.WriteInfo "MODEL PREDICTING STARTED"] ++
          predictOkTrace context modelImageName paths datasetPath "train" rd ++
          [Event.RunContainerAndCollectOutput modelImageName
             (predictCommand context paths datasetPath "val"),
           Event.WriteError "MODEL CONTAINER START ERROR" e,
           Event.UpdateTaskStatus task.ID TaskError e]⟩
  | valReadFailed (rd rd2 : Stdout) (e : String)
      (hs : context.GetTaskByID c.GetTaskByID = TaskRunning)
      (hst : task.Stage = TaskStagePredicting)
      (hr : context.RunContainerAndCollectOutput c.RunContainer = Except.ok rd)
      (he : rd.err = none)
      (hr2 : context.RunContainerAndCollectOutput (c.RunContainer + 1) = Except.ok rd2)
      (he2 : rd2.err = some e) :
      PredictingStageRun context task modelImageName paths datasetPath c
        ⟨Outcome.returned,
         { c.reread with RunContainer := c.RunContainer + 2, WriteFile := c.WriteFile + 1 },
         [Event.GetTaskByID task.ID, Event.WriteInfo "MODEL PREDICTING STARTED"] ++
          predictOkTrace context modelImageName paths datasetPath "train" rd ++
          [Event.RunContainerAndCollectOutput modelImageName
             (predictCommand context paths datasetPath "val"),
           Event.WriteError "MODEL CONTAINER OUTPUT READ ERROR" e,
           Event.UpdateTaskStatus task.ID TaskError e,
           Event.Close]⟩
  | predicted (rd rd2 : Stdout)
      (hs : context.GetTaskByID c.GetTaskByID = TaskRunning)
      (hst : task.Stage = TaskStagePredicting)
      (hr : context.RunContainerAndCollectOutput c.RunContainer = Except.ok rd)
      (he : rd.err = none)
      (hr2 : context.RunContainerAndCollectOutput (c.RunContainer + 1) = Except.ok rd2)
      (he2 : rd2.err = none) :
      PredictingStageRun context task modelImageName paths datasetPath c
        ⟨Outcome.next { task with Status := TaskRunning, Stage := TaskStageEvaluating },
         { c.reread with RunContainer := c.RunContainer + 2, WriteFile := c.WriteFile + 2 },
         [Event.GetTaskByID task.ID, Event.WriteInfo "MODEL PREDICTING STARTED"] ++
          predictOkTrace context modelImageName paths datasetPath "train" rd ++
          predictOkTrace context modelImageName paths datasetPath "val" rd2 ++
          [Event.UpdateTaskStage task.ID TaskStageEvaluating,
           Event.WriteInfo "MODEL PREDICTING COMPLETED"]⟩

/-- The runs of the block `evaluatingStage`, one constructor for each way
through it, with the answers of the collaborators that select it. -/
inductive EvaluatingStageRun (context : Context) (task : Task) (paths : storage.TaskPaths)
    (datasetPath : String) (c : Calls) : Run Task → Prop
  | notRunning
      (hs : context.GetTaskByID c.GetTaskByID ≠ TaskRunning) :
      EvaluatingStageRun context task paths datasetPath c
        ⟨Outcome.next { task with Status := context.GetTaskByID c.GetTaskByID },
         c.reread,
         [Event.GetTaskByID task.ID]⟩
  | skipped
      (hs : context.GetTaskByID c.GetTaskByID = TaskRunning)
      (hst : task.Stage ≠ TaskStageEvaluating) :
      EvaluatingStageRun context task paths datasetPath c
        ⟨Outcome.next { task with Status := TaskRunning },
         c.reread,
         [Event.GetTaskByID task.ID, Event.WriteInfo "MODEL EVALUATING SKIPPED"]⟩
  | loadFailed (e : String)
      (hs : context.GetTaskByID c.GetTaskByID = TaskRunning)
      (hst : task.Stage = TaskStageEvaluating)
      (hl : context.LoadImage c.LoadImage = Except.error e) :
      EvaluatingStageRun context task paths datasetPath c
        ⟨Outcome.returned,
         { c.reread with LoadImage := c.LoadImage + 1 },
         [Event.GetTaskByID task.ID, Event.WriteInfo "MODEL EVALUATING STARTED",
          Event.LoadImage (context.getModuleImagePath task.Objective ModuleObjective)] ++
          [Event.WriteError "OBJECTIVE LOAD ERROR" e,
           Event.UpdateTaskStatus task.ID TaskError e]⟩
  | trainStartFailed (name e : String)
      (hs : context.GetTaskByID c.GetTaskByID = TaskRunning)
      (hst : task.Stage = TaskStageEvaluating)
      (hl : context.LoadImage c.LoadImage = Except.ok name)
      (hr : context.RunContainerAndCollectOutput c.RunContainer = Except.error e) :
      EvaluatingStageRun context task paths datasetPath c
        ⟨Outcome.returned,
         { c.reread with LoadImage := c.LoadImage + 1, RunContainer := c.RunContainer + 1 },
         [Event.GetTaskByID task.ID, Event.WriteInfo "MODEL EVALUATING STARTED",
          Event.LoadImage (context.getModuleImagePath task.Objective ModuleObjective)] ++
          [Event.RunContainerAndCollectOutput name
             (evalCommand context paths datasetPath "train"),
           Event.WriteError "OBJECTIVE CONTAINER START ERROR" e,
           Event.UpdateTaskStatus task.ID TaskError e]⟩
  | trainNoLines (name : String) (rd : Stdout)
      (hs : context.GetTaskByID c.GetTaskByID = TaskRunning)
      (hst : task.Stage = TaskStageEvaluating)
      (hl : context.LoadImage c.LoadImage = Except.ok name)
      (hr : context.RunContainerAndCollectOutput c.RunContainer = Except.ok rd)
      (hlast : (scanLines rd).getLast? = none) :
      EvaluatingStageRun context task paths datasetPath c
        ⟨Outcome.panicked "runtime error: index out of range [-1]",
         { c.reread with LoadImage := c.LoadImage + 1, RunContainer := c.RunContainer + 1 },
         [Event.GetTaskByID task.ID, Event.WriteInfo "MODEL EVALUATING STARTED",
          Event.LoadImage (context.getModuleImagePath task.Objective ModuleObjective)] ++
          [Event.RunContainerAndCollectOutput name
             (evalCommand context paths datasetPath "train"),
           Event.Close]⟩
  | trainParseFailed (name : String) (rd : Stdout) (l e : String)
      (hs : context.GetTaskByID c.GetTaskByID = TaskRunning)
      (hst : task.Stage = TaskStageEvaluating)
      (hl : context.LoadImage c.LoadImage = Except.ok name)
      (hr : context.RunContainerAndCollectOutput c.RunContainer = Except.ok rd)
      (hlast : (scanLines rd).getLast? = some l)
      (hq : context.ParseFloat (TrimSpace l) = Except.error e) :
      EvaluatingStageRun context task paths datasetPath c
        ⟨Outcome.returned,
         { c.reread with LoadImage := c.LoadImage + 1, RunContainer := c.RunContainer + 1 },
         [Event.GetTaskByID task.ID, Event.WriteInfo "MODEL EVALUATING STARTED",
          Event.LoadImage (context.getModuleImagePath task.Objective ModuleObjective)] ++
          [Event.RunContainerAndCollectOutput name
             (evalCommand context paths datasetPath "train"),
           Event.WriteError "OBJECTIVE QUALITY PARSE ERROR" e,
           Event.UpdateTaskStatus task.ID TaskError e,
           Event.Close]⟩
  | trainWriteFailed (name : String) (rd : Stdout) (l : String) (q : Float64) (e : String)
      (hs : context.GetTaskByID c.GetTaskByID = TaskRunning)
      (hst : task.Stage = TaskStageEvaluating)
      (hl : context.LoadImage c.LoadImage = Except.ok name)
      (hr : context.RunContainerAndCollectOutput c.RunContainer = Except.ok rd)
      (hlast : (scanLines rd).getLast? = some l)
      (hq : context.ParseFloat (TrimSpace l) = Except.ok q)
      (hw : context.WriteFile c.WriteFile = some e) :
      EvaluatingStageRun context task paths datasetPath c
        ⟨Outcome.panicked e,
         { c.reread with LoadImage := c.LoadImage + 1, RunContainer := c.RunContainer + 1, WriteFile := c.WriteFile + 1 },
         [Event.GetTaskByID task.ID, Event.WriteInfo "MODEL EVALUATING STARTED",
          Event.LoadImage (context.getModuleImagePath task.Objective ModuleObjective)] ++
          evalOkTrace context name paths datasetPath "train" rd⟩
  | valStartFailed (name : String) (rd : Stdout) (l : String) (q : Float64) (e : String)
      (hs : context.GetTaskByID c.GetTaskByID = TaskRunning)
      (hst : task.Stage = TaskStageEvaluating)
      (hl : context.LoadImage c.LoadImage = Except.ok name)
      (hr : context.RunContainerAndCollectOutput c.RunContainer = Except.ok rd)
      (hlast : (scanLines rd).getLast? = some l)
      (hq : context.ParseFloat (TrimSpace l) = Except.ok q)
      (hw : context.WriteFile c.WriteFile = none)
      (hr2 : context.RunContainerAndCollectOutput (c.RunContainer + 1) = Except.error e) :
      EvaluatingStageRun context task paths datasetPath c
        ⟨Outcome.returned,
         { c.reread with LoadImage := c.LoadImage + 1, RunContainer := c.RunContainer + 2, WriteFile := c.WriteFile + 1 },
         [Event.GetTaskByID task.ID, Event.WriteInfo "MODEL EVALUATING STARTED",
          Event.LoadImage (context.getModuleImagePath task.Objective ModuleObjective)] ++
          evalOkTrace context name paths datasetPath "train" rd ++
          [Event.RunContainerAndCollectOutput name
             (evalCommand context paths datasetPath "val"),
           Event.WriteError "OBJECTIVE CONTAINER START ERROR" e,
           Event.UpdateTaskStatus task.ID TaskError e]⟩
  | valNoLines (name : String) (rd : Stdout) (l : String) (q : Float64) (rd2 : Stdout)
      (hs : context.GetTaskByID c.GetTaskByID = TaskRunning)
      (hst : task.Stage = TaskStageEvaluating)
      (hl : context.LoadImage c.LoadImage = Except.ok name)
      (hr : context.RunContainerAndCollectOutput c.RunContainer = Except.ok rd)
      (hlast : (scanLines rd).getLast? = some l)
      (hq : context.ParseFloat (TrimSpace l) = Except.ok q)
      (hw : context.WriteFile c.WriteFile = none)
      (hr2 : context.RunContainerAndCollectOutput (c.RunContainer + 1) = Except.ok rd2)
      (hlast2 : (scanLines rd2).getLast? = none) :
      EvaluatingStageRun context task paths datasetPath c
        ⟨Outcome.panicked "runtime error: index out of range [-1]",
         { c.reread with LoadImage := c.LoadImage + 1, RunContainer := c.RunContainer + 2, WriteFile := c.WriteFile + 1 },
         [Event.GetTaskByID task.ID, Event.WriteInfo "MODEL EVALUATING STARTED",
          Event.LoadImage (context.getModuleImagePath task.Objective ModuleObjective)] ++
          evalOkTrace context name paths datasetPath "train" rd ++
          [Event.RunContainerAndCollectOutput name
             (evalCommand context paths datasetPath "val"),
           Event.Close]⟩
  | valParseFailed (name : String) (rd : Stdout) (l : String) (q : Float64) (rd2 : Stdout) (l2 e : String)
      (hs : context.GetTaskByID c.GetTaskByID = TaskRunning)
      (hst : task.Stage = TaskStageEvaluating)
      (hl : context.LoadImage c.LoadImage = Except.ok name)
      (hr : context.RunContainerAndCollectOutput c.RunContainer = Except.ok rd)
      (hlast : (scanLines rd).getLast? = some l)
      (hq : context.ParseFloat (TrimSpace l) = Except.ok q)
      (hw : context.WriteFile c.WriteFile = none)
      (hr2 : context.RunContainerAndCollectOutput (c.RunContainer + 1) = Except.ok rd2)
      (hlast2 : (scanLines rd2).getLast? = some l2)
      (hq2 : context.ParseFloat (TrimSpace l2) = Except.error e) :
      EvaluatingStageRun context task paths datasetPath c
        ⟨Outcome.returned,
         { c.reread with LoadImage := c.LoadImage + 1, RunContainer := c.RunContainer + 2, WriteFile := c.WriteFile + 1 },
         [Event.GetTaskByID task.ID, Event.WriteInfo "MODEL EVALUATING STARTED",
          Event.LoadImage (context.getModuleImagePath task.Objective ModuleObjective)] ++
          evalOkTrace context name paths datasetPath "train" rd ++
          [Event.RunContainerAndCollectOutput name
             (evalCommand context paths datasetPath "val"),
           Event.WriteError "OBJECTIVE QUALITY PARSE ERROR" e,
           Event.UpdateTaskStatus task.ID TaskError e,
           Event.Close]⟩
  | valWriteFailed (name : String) (rd : Stdout) (l : String) (q : Float64) (rd2 : Stdout) (l2 : String) (q2 : Float64) (e : String)
      (hs : context.GetTaskByID c.GetTaskByID = TaskRunning)
      (hst : task.Stage = TaskStageEvaluating)
      (hl : context.LoadImage c.LoadImage = Except.ok name)
      (hr : context.RunContainerAndCollectOutput c.RunContainer = Except.ok rd)
      (hlast : (scanLines rd).getLast? = some l)
      (hq : context.ParseFloat (TrimSpace l) = Except.ok q)
      (hw : context.WriteFile c.WriteFile = none)
      (hr2 : context.RunContainerAndCollectOutput (c.RunContainer + 1) = Except.ok rd2)
      (hlast2 : (scanLines rd2).getLast? = some l2)
      (hq2 : context.ParseFloat (TrimSpace l2) = Except.ok q2)
      (hw2 : context.WriteFile (c.WriteFile + 1) = some e) :
      EvaluatingStageRun context task paths datasetPath c
        ⟨Outcome.panicked e,
         { c.reread with LoadImage := c.LoadImage + 1, RunContainer := c.RunContainer + 2, WriteFile := c.WriteFile + 2 },
         [Event.GetTaskByID task.ID, Event.WriteInfo "MODEL EVALUATING STARTED",
          Event.LoadImage (context.getModuleImagePath task.Objective ModuleObjective)] ++
          evalOkTrace context name paths datasetPath "train" rd ++
          evalOkTrace context name paths datasetPath "val" rd2⟩
  | evaluated (name : String) (rd : Stdout) (l : String) (q : Float64) (rd2 : Stdout) (l2 : String) (q2 : Float64)
      (hs : context.GetTaskByID c.GetTaskByID = TaskRunning)
      (hst : task.Stage = TaskStageEvaluating)
      (hl : context.LoadImage c.LoadImage = Except.ok name)
      (hr : context.RunContainerAndCollectOutput c.RunContainer = Except.ok rd)
      (hlast : (scanLines rd).getLast? = some l)
      (hq : context.ParseFloat (TrimSpace l) = Except.ok q)
      (hw : context.WriteFile c.WriteFile = none)
      (hr2 : context.RunContainerAndCollectOutput (c.RunContainer + 1) = Except.ok rd2)
      (hlast2 : (scanLines rd2).getLast? = some l2)
      (hq2 : context.ParseFloat (TrimSpace l2) = Except.ok q2)
      (hw2 : context.WriteFile (c.WriteFile + 1) = none) :
      EvaluatingStageRun context task paths datasetPath c
        ⟨Outcome.next { task with Status := TaskRunning, Stage := TaskStageEnd },
         { c.reread with LoadImage := c.LoadImage + 1, RunContainer := c.RunContainer + 2, WriteFile := c.WriteFile + 2 },
         [Event.GetTaskByID task.ID, Event.WriteInfo "MODEL EVALUATING STARTED",
          Event.LoadImage (context.getModuleImagePath task.Objective ModuleObjective)] ++
          evalOkTrace context name paths datasetPath "train" rd ++
          evalOkTrace context name paths datasetPath "val" rd2 ++
          [Event.UpdateTask task.ID q2 q,
           Event.UpdateTaskStage task.ID TaskStageEnd,
           Event.WriteInfo "MODEL EVALUATING COMPLETED",
           Event.UpdateTaskStage task.ID TaskStageEnd]⟩

/-- The runs of the block `completeTask`, one constructor for each way through
it, with the answers of the collaborators that select it. -/
inductive CompleteTaskRun (context : Context) (task : Task) (c : Calls) : Run Task → Prop
  | notRunning
      (hs : context.GetTaskByID c.GetTaskByID ≠ TaskRunning) :
      CompleteTaskRun context task c
        ⟨Outcome.next { task with Status := context.GetTaskByID c.GetTaskByID },
         c.reread,
         [Event.GetTaskByID task.ID]⟩
  | skipped
      (hs : context.GetTaskByID c.GetTaskByID = TaskRunning)
      (hst : task.Stage ≠ TaskStageEnd) :
      CompleteTaskRun context task c
        ⟨Outcome.next { task with Status := TaskRunning },
         c.reread,
         [Event.GetTaskByID task.ID]⟩
  | unbounded
      (hs : context.GetTaskByID c.GetTaskByID = TaskRunning)
      (hst : task.Stage = TaskStageEnd)
      (hm : ¬ (context.GetJobByID task.Job).MaxTasks > 0) :
      CompleteTaskRun context task c
        ⟨Outcome.next { task with Status := TaskCompleted },
         c.reread,
         [Event.GetTaskByID task.ID, Event.UpdateTaskStatus task.ID TaskCompleted "",
          Event.WriteInfo "TASK COMPLETED", Event.GetJobByID task.Job]⟩
  | belowThreshold
      (hs : context.GetTaskByID c.GetTaskByID = TaskRunning)
      (hst : task.Stage = TaskStageEnd)
      (hm : (context.GetJobByID task.Job).MaxTasks > 0)
      (hc : ¬ uint64 (context.CountTasks task.Job) ≥ (context.GetJobByID task.Job).MaxTasks) :
      CompleteTaskRun context task c
        ⟨Outcome.next { task with Status := TaskCompleted },
         c.reread,
         [Event.GetTaskByID task.ID, Event.UpdateTaskStatus task.ID TaskCompleted "",
          Event.WriteInfo "TASK COMPLETED", Event.GetJobByID task.Job,
          Event.CountTasks task.Job TaskCompleted]⟩
  | jobCompleted
      (hs : context.GetTaskByID c.GetTaskByID = TaskRunning)
      (hst : task.Stage = TaskStageEnd)
      (hm : (context.GetJobByID task.Job).MaxTasks > 0)
      (hc : uint64 (context.CountTasks task.Job) ≥ (context.GetJobByID task.Job).MaxTasks) :
      CompleteTaskRun context task c
        ⟨Outcome.next { task with Status := TaskCompleted },
         c.reread,
         [Event.GetTaskByID task.ID, Event.UpdateTaskStatus task.ID TaskCompleted "",
          Event.WriteInfo "TASK COMPLETED", Event.GetJobByID task.Job,
          Event.CountTasks task.Job TaskCompleted, Event.UpdateJob task.Job JobCompleted,
          Event.TerminateRunningTasks task.Job, Event.WriteInfo "JOB COMPLETED"]⟩

/-! ## Observations on a trace -/

/-- The stage values committed with `UpdateTaskStage`, in order. -/
def stageCommits : List Event → List TaskStage
  | [] => []
  | Event.UpdateTaskStage _ stage :: rest => stage :: stageCommits rest
  | _ :: rest => stageCommits rest

/-- The driver's current stage after a piece of its trace: the entry stage,
replaced by each stage committed since. -/
def currentStage : TaskStage → List Event → TaskStage
  | cur, [] => cur
  | _, Event.UpdateTaskStage _ stage :: rest => currentStage stage rest
  | cur, _ :: rest => currentStage cur rest

/-- The stage an executor belongs to, read off the first word of its argv. -/
def executorStage (command : List String) : Option TaskStage :=
  match command.head? with
  | some "train" => some TaskStageTraining
  | some "predict" => some TaskStagePredicting
  | some "eval" => some TaskStageEvaluating
  | _ => none

/-- Every container of the trace is started while the current stage, followed
from `cur` through the commits, is the stage of its executor. -/
def executorsInStage : TaskStage → List Event → Bool
  | _, [] => true
  | _, Event.UpdateTaskStage _ stage :: rest => executorsInStage stage rest
  | cur, Event.RunContainerAndCollectOutput _ command :: rest =>
    decide (executorStage command = some cur) && executorsInStage cur rest
  | cur, _ :: rest => executorsInStage cur rest

/-- The stages after `stage` in begin, training, predicting, evaluating, end. -/
def successors : TaskStage → List TaskStage
  | TaskStageBegin => [TaskStageTraining, TaskStagePredicting, TaskStageEvaluating, TaskStageEnd]
  | TaskStageTraining => [TaskStagePredicting, TaskStageEvaluating, TaskStageEnd]
  | TaskStagePredicting => [TaskStageEvaluating, TaskStageEnd]
  | TaskStageEvaluating => [TaskStageEnd]
  | TaskStageEnd => []

/-- A list of stages with each immediate repetition of end dropped. -/
def ignoreRepeatedEnd : List TaskStage → List TaskStage
  | [] => []
  | [s] => [s]
  | s :: s2 :: rest =>
    if s = TaskStageEnd ∧ s2 = TaskStageEnd then ignoreRepeatedEnd (s2 :: rest)
    else s :: ignoreRepeatedEnd (s2 :: rest)

/-- The commit sequences a run can produce from a stage: the successors are
committed in order up to some point, and end is committed twice. -/
def commitSequences : TaskStage → List (List TaskStage)
  | TaskStageEnd => [[]]
  | TaskStageEvaluating => [[], [TaskStageEnd, TaskStageEnd]]
  | TaskStagePredicting =>
    [[], [TaskStageEvaluating], [TaskStageEvaluating, TaskStageEnd, TaskStageEnd]]
  | TaskStageTraining =>
    [[], [TaskStagePredicting], [TaskStagePredicting, TaskStageEvaluating],
     [TaskStagePredicting, TaskStageEvaluating, TaskStageEnd, TaskStageEnd]]
  | TaskStageBegin =>
    [[], [TaskStageTraining], [TaskStageTraining, TaskStagePredicting],
     [TaskStageTraining, TaskStagePredicting, TaskStageEvaluating],
     [TaskStageTraining, TaskStagePredicting, TaskStageEvaluating, TaskStageEnd, TaskStageEnd]]

/-- The runs of `TaskRunWorker` up to the first status re-read, one constructor
for each way through its entry blocks; the rest of the run is `fromTraining`. -/
inductive TaskRunWorkerRun (context : Context) (task : Task) (c : Calls) : Run Unit → Prop
  | datasetPathFailed (e : String)
      (hd : context.GetDatasetPath task.Dataset = Except.error e) :
      TaskRunWorkerRun context task c
        ⟨Outcome.panicked e, c,
         [Event.UpdateTaskStatus task.ID TaskRunning "", Event.GetDatasetPath task.Dataset]⟩
  | taskPathsFailed (datasetPath e : String)
      (hd : context.GetDatasetPath task.Dataset = Except.ok datasetPath)
      (hp : context.GetAllTaskPaths task.ID = Except.error e) :
      TaskRunWorkerRun context task c
        ⟨Outcome.panicked e, c,
         [Event.UpdateTaskStatus task.ID TaskRunning "", Event.GetDatasetPath task.Dataset,
          Event.GetAllTaskPaths task.ID]⟩
  | modelLoadFailed (datasetPath : String) (paths : storage.TaskPaths) (e : String)
      (hd : context.GetDatasetPath task.Dataset = Except.ok datasetPath)
      (hp : context.GetAllTaskPaths task.ID = Except.ok paths)
      (hst : task.Stage ≠ TaskStageEvaluating)
      (hl : context.LoadImage c.LoadImage = Except.error e) :
      TaskRunWorkerRun context task c
        ⟨Outcome.returned, { c with LoadImage := c.LoadImage + 1 },
         [Event.UpdateTaskStatus task.ID TaskRunning "", Event.GetDatasetPath task.Dataset,
          Event.GetAllTaskPaths task.ID,
          Event.LoadImage (context.getModuleImagePath task.Model ModuleModel),
          Event.WriteError "MODEL LOAD ERROR" e,
          Event.UpdateTaskStatus task.ID TaskError e]⟩
  | fromBegin (datasetPath : String) (paths : storage.TaskPaths) (name : String)
      (hd : context.GetDatasetPath task.Dataset = Except.ok datasetPath)
      (hp : context.GetAllTaskPaths task.ID = Except.ok paths)
      (hst : task.Stage = TaskStageBegin)
      (hl : context.LoadImage c.LoadImage = Except.ok name) :
      TaskRunWorkerRun context task c
        ⟨(fromTraining context { task with Stage := TaskStageTraining } name paths datasetPath
            { c with LoadImage := c.LoadImage + 1 }).out,
         (fromTraining context { task with Stage := TaskStageTraining } name paths datasetPath
            { c with LoadImage := c.LoadImage + 1 }).calls,
         [Event.UpdateTaskStatus task.ID TaskRunning "", Event.GetDatasetPath task.Dataset,
          Event.GetAllTaskPaths task.ID,
          Event.LoadImage (context.getModuleImagePath task.Model ModuleModel),
          Event.UpdateTaskStage task.ID TaskStageTraining] ++
         (fromTraining context { task with Stage := TaskStageTraining } name paths datasetPath
            { c with LoadImage := c.LoadImage + 1 }).trace⟩
  | resumed (datasetPath : String) (paths : storage.TaskPaths) (name : String)
      (hd : context.GetDatasetPath task.Dataset = Except.ok datasetPath)
      (hp : context.GetAllTaskPaths task.ID = Except.ok paths)
      (hst : task.Stage ≠ TaskStageEvaluating) (hb : task.Stage ≠ TaskStageBegin)
      (hl : context.LoadImage c.LoadImage = Except.ok name) :
      TaskRunWorkerRun context task c
        ⟨(fromTraining context task name paths datasetPath
            { c with LoadImage := c.LoadImage + 1 }).out,
         (fromTraining context task name paths datasetPath
            { c with LoadImage := c.LoadImage + 1 }).calls,
         [Event.UpdateTaskStatus task.ID TaskRunning "", Event.GetDatasetPath task.Dataset,
          Event.GetAllTaskPaths task.ID,
          Event.LoadImage (context.getModuleImagePath task.Model ModuleModel),
          Event.WriteInfo "TASK NOT IN BEGIN STAGE"] ++
         (fromTraining context task name paths datasetPath
            { c with LoadImage := c.LoadImage + 1 }).trace⟩
  | resumedEvaluating (datasetPath : String) (paths : storage.TaskPaths)
      (hd : context.GetDatasetPath task.Dataset = Except.ok datasetPath)
      (hp : context.GetAllTaskPaths task.ID = Except.ok paths)
      (hst : task.Stage = TaskStageEvaluating) :
      TaskRunWorkerRun context task c
        ⟨(fromTraining context task "" paths datasetPath c).out,
         (fromTraining context task "" paths datasetPath c).calls,
         [Event.UpdateTaskStatus task.ID TaskRunning "", Event.GetDatasetPath task.Dataset,
          Event.GetAllTaskPaths task.ID,
          Event.WriteInfo "TASK NOT IN BEGIN STAGE"] ++
         (fromTraining context task "" paths datasetPath c).trace⟩

/-- The writes of a trace that are addressed to a task: its status, its stage,
its quality fields and its lock. -/
def taskWrites : List Event → List Event
  | [] => []
  | Event.UpdateTaskStatus id status msg :: rest =>
    Event.UpdateTaskStatus id status msg :: taskWrites rest
  | Event.UpdateTaskStage id stage :: rest => Event.UpdateTaskStage id stage :: taskWrites rest
  | Event.UpdateTask id q qt :: rest => Event.UpdateTask id q qt :: taskWrites rest
  | Event.UnlockTask id pid :: rest => Event.UnlockTask id pid :: taskWrites rest
  | _ :: rest => taskWrites rest

/-- The containers started in a trace: image and argv, in order. -/
def executorCalls : List Event → List (String × List String)
  | [] => []
  | Event.RunContainerAndCollectOutput image command :: rest =>
    (image, command) :: executorCalls rest
  | _ :: rest => executorCalls rest

/-- The answers that make a train or predict executor return `nil` when its
container is the `k`-th one started: the container starts and its stdout is
read to the end. -/
def stdoutRead (context : Context) (k : Nat) : Prop :=
  ∃ rd, context.RunContainerAndCollectOutput k = Except.ok rd ∧ rd.err = none

/-- The answers that make an evaluator return the score `q` with a `nil` error
when its container is the `k`-th one started and its log the `w`-th file
written: the container starts, the last line of its output parses to `q`, and
the log is written. -/
def evalScores (context : Context) (k w : Nat) (q : Float64) : Prop :=
  ∃ rd l, context.RunContainerAndCollectOutput k = Except.ok rd ∧
    (scanLines rd).getLast? = some l ∧ context.ParseFloat (TrimSpace l) = Except.ok q ∧
    context.WriteFile w = none

/-! ## Concrete collaborators, to run the worker on -/

/-- The score 0.9 as a `float64` bit pattern. -/
def score09 : Float64 := ⟨0x3FECCCCCCCCCCCCD⟩

/-- A world in which nothing fails: the storage paths exist, both images load,
every container starts and prints a log line and then `0.9`, every file is
written, the task stays running and its job is done after two tasks. -/
def healthyContext : Context where
  ProcessID := "worker-1"
  getModuleImagePath := fun id _ => "/images/" ++ id
  MntPrefix := "/mnt"
  Join := fun a b => a ++ "/" ++ b
  ParseFloat := fun s =>
    if s = "0.9" then Except.ok score09 else Except.error "strconv.ParseFloat: invalid syntax"
  GetDatasetPath := fun d => Except.ok ("/data/" ++ d)
  GetAllTaskPaths := fun _ =>
    Except.ok ⟨"/t/config", "/t/parameters", "/t/predictions", "/t/evaluations", "/t/logs"⟩
  LoadImage := fun _ => Except.ok "image"
  GetTaskByID := fun _ => TaskRunning
  GetJobByID := fun _ => ⟨2⟩
  CountTasks := fun _ => 2
  RunContainerAndCollectOutput := fun _ => Except.ok ⟨"epoch 1\n0.9\n", none⟩
  WriteFile := fun _ => none

/-- A task freshly claimed by the listener. -/
def freshTask : Task :=
  ⟨"t1", TaskStageBegin, TaskScheduled, "j1", "u1", "m1", "o1", "d1", "lr=0.1"⟩

/-- The counters of a worker that has not called any collaborator yet. -/
def Calls.start : Calls := ⟨0, 0, 0, 0⟩

/-- The healthy world, except that no module image can be loaded. -/
def missingImageContext : Context :=
  { healthyContext with LoadImage := fun _ => Except.error "no such image" }

/-- The healthy world, except that every container prints nothing. -/
def silentContext : Context :=
  { healthyContext with RunContainerAndCollectOutput := fun _ => Except.ok ⟨"", none⟩ }

/-- The healthy world, except that the stdout of every container breaks with a
read error after the line `0.9`. -/
def brokenPipeContext : Context :=
  { healthyContext with
    RunContainerAndCollectOutput := fun _ => Except.ok ⟨"0.9\n", some "read: broken pipe"⟩ }

/-- The task directories of the healthy world. -/
def healthyPaths : storage.TaskPaths :=
  ⟨"/t/config", "/t/parameters", "/t/predictions", "/t/evaluations", "/t/logs"⟩

/-- A task claimed again after a crash during training: status still running,
stage still training. -/
def reclaimedTask : Task :=
  ⟨"t1", TaskStageTraining, TaskRunning, "j1", "u1", "m1", "o1", "d1", "lr=0.1"⟩

/-- The healthy world, except that somebody sets the task to terminating while
it trains: the first re-read returns running, the later ones terminating. -/
def terminatingContext : Context :=
  { healthyContext with
    GetTaskByID := fun n => if n = 0 then TaskRunning else TaskTerminating }

/-- Whether a call is a status re-read (`GetTaskByID`). -/
def isReread : Event → Bool
  | Event.GetTaskByID _ => true
  | _ => false

/-- The number of status re-reads in a trace. -/
def rereads (trace : List Event) : Nat :=
  trace.countP isReread

/-- The part of a trace after its re-read number `k` (counted from 0), if the
trace holds that many re-reads. -/
def afterReread : Nat → List Event → Option (List Event)
  | _, [] => none
  | k, e :: rest =>
    if isReread e then
      match k with
      | 0 => some rest
      | k + 1 => afterReread k rest
    else afterReread k rest

/-- The statuses written to tasks in a trace, in order. -/
def statusWrites : List Event → List TaskStatus
  | [] => []
  | Event.UpdateTaskStatus _ status _ :: rest => status :: statusWrites rest
  | _ :: rest => statusWrites rest

/-- What the claims on skipped stages say of a trace that starts at re-read
number `g` of the oracle and holds `m` re-reads: whenever one of them returns
a status that is not running, the next re-read follows at once, and after the
last one only the handler and the unlock follow. -/
def SkipsProp (context : Context) (id : String) (g m : Nat) (trace : List Event) : Prop :=
  ∀ k post, afterReread k trace = some post →
    k < m ∧
    (context.GetTaskByID (g + k) ≠ TaskRunning →
      (k + 1 < m → ∃ post', post = Event.GetTaskByID id :: post') ∧
      (k + 1 = m →
        post = handlerTrace id (context.GetTaskByID (g + k)) ++
          [Event.UnlockTask id context.ProcessID]))

/-- Whether a call writes status=error to a task. -/
def isErrorWrite : Event → Bool
  | Event.UpdateTaskStatus _ TaskError _ => true
  | _ => false

/-- Whether a call is the deferred `outReader.Close()`. -/
def isClose : Event → Bool
  | Event.Close => true
  | _ => false

/-- Whether a call writes the quality fields of a task. -/
def isQualityWrite : Event → Bool
  | Event.UpdateTask _ _ _ => true
  | _ => false

/-- Whether a call is `modules.LoadImage`. -/
def isLoad : Event → Bool
  | Event.LoadImage _ => true
  | _ => false

/-- After the first write of status=error in the trace, nothing is called but
the deferred close of the container's stdout. -/
def quietAfterError : List Event → Bool
  | [] => true
  | e :: rest => if isErrorWrite e then rest.all isClose else quietAfterError rest

/-- The number of image loads in a trace. -/
def loads (trace : List Event) : Nat :=
  trace.countP isLoad

/-- Every image load of the trace that fails (the `n`-th load of the oracle
being the first of the trace) is followed by the error log, the write of
status=error with the load error as message, and nothing else. -/
def loadFailuresHandled (context : Context) (id : String) : Nat → List Event → Prop
  | _, [] => True
  | n, e :: rest =>
    if isLoad e then
      match context.LoadImage n with
      | Except.error err =>
        ∃ m, rest = [Event.WriteError m err, Event.UpdateTaskStatus id TaskError err]
      | Except.ok _ => loadFailuresHandled context id (n + 1) rest
    else loadFailuresHandled context id n rest

/-- What the claim on failures says of a run: nothing but the deferred close
follows a write of status=error, and a run that wrote status=error returned
early and wrote no quality. -/
def FailProp (r : Run Unit) : Prop :=
  quietAfterError r.trace = true ∧
  (r.trace.any isErrorWrite = true →
    r.out = Outcome.returned ∧ r.trace.all (fun e => !isQualityWrite e) = true)

/-- Whether a call belongs to the job-completion reaper: fetching the job,
counting its completed tasks, completing it, terminating its running tasks. -/
def isReaperCall : Event → Bool
  | Event.GetJobByID _ => true
  | Event.CountTasks _ _ => true
  | Event.UpdateJob _ _ => true
  | Event.TerminateRunningTasks _ => true
  | _ => false

/-- Whether a call writes status=completed to a task. -/
def isCompletedWrite : Event → Bool
  | Event.UpdateTaskStatus _ TaskCompleted _ => true
  | _ => false

/-- The calls of `completeTask` after the job is fetched, as the code decides
them: the count when `MaxTasks` is positive, then the job completion and the
bulk terminate when `uint64(numCompletedTasks) >= job.MaxTasks`. -/
def reaperTail (context : Context) (job : String) : List Event :=
  if (context.GetJobByID job).MaxTasks > 0 then
    Event.CountTasks job TaskCompleted ::
      (if uint64 (context.CountTasks job) ≥ (context.GetJobByID job).MaxTasks then
        [Event.UpdateJob job JobCompleted, Event.TerminateRunningTasks job,
         Event.WriteInfo "JOB COMPLETED"]
      else [])
  else []

/-- What the claim on the reaper says of a trace: either it holds no write of
status=completed and no reaper call, or it holds one write of
status=completed, no reaper call before it, and after it the completion log,
the fetch of the job, the calls of `reaperTail` and the unlock. -/
def ReaperProp (context : Context) (id job : String) (trace : List Event) : Prop :=
  (trace.all (fun e => !isCompletedWrite e) = true ∧
    trace.all (fun e => !isReaperCall e) = true) ∨
  ∃ pre, trace = pre ++ Event.UpdateTaskStatus id TaskCompleted "" ::
      ([Event.WriteInfo "TASK COMPLETED", Event.GetJobByID job] ++ reaperTail context job ++
        [Event.UnlockTask id context.ProcessID]) ∧
    pre.all (fun e => !isCompletedWrite e) = true ∧
    pre.all (fun e => !isReaperCall e) = true

/-- Every write of status=completed in the trace happens while the current
stage, followed from `cur` through the commits, is end. -/
def completedInEnd : TaskStage → List Event → Bool
  | _, [] => true
  | _, Event.UpdateTaskStage _ stage :: rest => completedInEnd stage rest
  | cur, Event.UpdateTaskStatus _ TaskCompleted _ :: rest =>
    decide (cur = TaskStageEnd) && completedInEnd cur rest
  | cur, _ :: rest => completedInEnd cur rest

/-- Every write of status=completed in the trace comes after a quality write
of the trace, unless `written` holds from the start. -/
def qualityBeforeCompleted : Bool → List Event → Bool
  | _, [] => true
  | _, Event.UpdateTask _ _ _ :: rest => qualityBeforeCompleted true rest
  | written, Event.UpdateTaskStatus _ TaskCompleted _ :: rest =>
    written && qualityBeforeCompleted written rest
  | written, _ :: rest => qualityBeforeCompleted written rest

/-- What the claim on the quality write says of a trace: either it holds no
quality write and no commit of stage end, or it holds exactly one quality
write, which comes right after the calls of the evaluator for split train and
of the evaluator for split val, both returning a score and a `nil` error,
carries the score for val as quality and the score for train as
quality-train, and is followed at once by the first commit of stage end: the
events before it hold no quality write and no commit of stage end, the events
after it no quality write. -/
def QualityShape (context : Context) (id : String) (trace : List Event) : Prop :=
  ((∀ ev ∈ trace, isQualityWrite ev = false) ∧ TaskStageEnd ∉ stageCommits trace) ∨
  ∃ (pre post : List Event) (t : Task) (name : String) (paths : storage.TaskPaths)
    (dp : String) (c1 : Calls) (q qt : Float64),
    t.ID = id ∧
    (runModelEvaluationAndGetQuality context t name paths dp "train" c1).out =
      Outcome.next (qt, none) ∧
    (runModelEvaluationAndGetQuality context t name paths dp "val"
      (runModelEvaluationAndGetQuality context t name paths dp "train" c1).calls).out =
      Outcome.next (q, none) ∧
    trace = pre ++
      ((runModelEvaluationAndGetQuality context t name paths dp "train" c1).trace ++
       (runModelEvaluationAndGetQuality context t name paths dp "val"
         (runModelEvaluationAndGetQuality context t name paths dp "train" c1).calls).trace) ++
      Event.UpdateTask id q qt :: Event.UpdateTaskStage id TaskStageEnd :: post ∧
    (∀ ev ∈ pre ++
      ((runModelEvaluationAndGetQuality context t name paths dp "train" c1).trace ++
       (runModelEvaluationAndGetQuality context t name paths dp "val"
         (runModelEvaluationAndGetQuality context t name paths dp "train" c1).calls).trace),
      isQualityWrite ev = false) ∧
    TaskStageEnd ∉ stageCommits (pre ++
      ((runModelEvaluationAndGetQuality context t name paths dp "train" c1).trace ++
       (runModelEvaluationAndGetQuality context t name paths dp "val"
         (runModelEvaluationAndGetQuality context t name paths dp "train" c1).calls).trace)) ∧
    (∀ ev ∈ post, isQualityWrite ev = false)

/-! ## Observations on the evaluator -/

/-- The files written in a trace: path and content, in order. -/
def fileWrites : List Event → List (String × String)
  | [] => []
  | Event.WriteFile path data :: rest => (path, data) :: fileWrites rest
  | _ :: rest => fileWrites rest

/-- The line the specification takes the score from: the last output line
that is not empty. -/
def lastNonEmptyLine (lines : List String) : Option String :=
  (lines.filter (fun l => decide (l ≠ ""))).getLast?

/-- The healthy world, except that every container prints `0.9` followed by
an empty line. -/
def trailingBlankContext : Context :=
  { healthyContext with
    RunContainerAndCollectOutput := fun _ => Except.ok ⟨"0.9\n\n", none⟩ }

/-- A task claimed again after all its stages were committed: stage end,
status scheduled. -/
def finishedTask : Task :=
  ⟨"t1", TaskStageEnd, TaskScheduled, "j1", "u1", "m1", "o1", "d1", "lr=0.1"⟩

/-- The healthy world, except that no file can be written. -/
def fullDiskContext : Context :=
  { healthyContext with WriteFile := fun _ => some "no space left on device" }

/-! ## The listener -/

/-- Modelled from the spec: the `error` that `LockTask` may return, as far as
the listener looks at it; the declarations of package `model` are not part of
the file.  `msg` is its message, and `causeIsErrNotFound` tells whether
`errors.Cause(err) == model.ErrNotFound`, the registry's answer when no task
is ready. -/
structure LockError where
  msg : String
  causeIsErrNotFound : Bool
deriving DecidableEq, Repr

/-- The call of a method as a statement: a `return` executed inside the method
ends the method only, and the caller goes on; a panic goes on to the caller. -/
def callMethod (method : Exec Unit) : Exec Unit :=
  fun c =>
    match method c with
    | ⟨Outcome.returned, c1, t1⟩ => ⟨Outcome.next (), c1, t1⟩
    | ⟨Outcome.next a, c1, t1⟩ => ⟨Outcome.next a, c1, t1⟩
    | ⟨Outcome.panicked e, c1, t1⟩ => ⟨Outcome.panicked e, c1, t1⟩

/-- One iteration of the `for` loop of `TaskRunListener`; `locked` is the
answer of `LockTask` in this iteration. -/
def TaskRunListenerIteration (context : Context) (locked : Except LockError Task) :
    Exec Unit := do
  emit (Event.LockTask TaskScheduled context.ProcessID)
  match locked with
  | Except.ok task =>
    -- Mark the process as working.
    repeatUntilSuccess (Event.SetProcessStatus context.ProcessID ProcWorking)
    emit (Event.Printf "TASK FOUND FOR EXECUTION")
    callMethod (TaskRunWorker context task)
    -- Mark the process as idle.
    repeatUntilSuccess (Event.SetProcessStatus context.ProcessID ProcIdle)
  | Except.error err =>
    if err.causeIsErrNotFound then
      emit Event.Sleep
    else
      goPanic err.msg

/-- The method `TaskRunListener`.  Its loop has no exit; it is run here for as
many iterations as there are answers of `LockTask`, and a panic ends it. -/
def TaskRunListener (context : Context) : List (Except LockError Task) → Exec Unit
  | [] => pure ()
  | locked :: rest => do
    TaskRunListenerIteration context locked
    TaskRunListener context rest

/-! ## The image of the model executors -/

/-- Whether an argv is that of the train or of the predict executor. -/
def isModelCommand (command : List String) : Bool :=
  match command.head? with
  | some "train" => true
  | some "predict" => true
  | _ => false

/-- Every train or predict container of the trace is started on the image
`name`; with `none` for `name`, the trace starts no such container. -/
def modelCallsUse : Option String → List Event → Bool
  | _, [] => true
  | name, Event.RunContainerAndCollectOutput image command :: rest =>
    (!isModelCommand command || decide (some image = name)) && modelCallsUse name rest
  | name, _ :: rest => modelCallsUse name rest

/-- Whether a call starts a container. -/
def isContainerStart : Event → Bool
  | Event.RunContainerAndCollectOutput _ _ => true
  | _ => false

/-! ## Outputs given by their lines -/

/-- The text of an output given by its lines: each of `lines` followed by a
newline, then `rest`, the text after the last newline (empty when the output
ends with a newline). -/
def outputText : List String → String → String
  | [], rest => rest
  | line :: lines, rest => line ++ "\n" ++ outputText lines rest

/-- The lines of the output `outputText lines rest`: `lines`, and `rest` as a
last line when it is not empty. -/
def outputLines (lines : List String) (rest : String) : List String :=
  if rest = "" then lines else lines ++ [rest]

/-- A line of 65536 bytes, one more than the scanner's buffer can hold next
to its newline. -/
def longLine : String := String.mk (List.replicate 65536 'a')

/-- An output of three lines: `0.5`, a line of 65536 bytes, and `0.9`. -/
def longLineOutput : String := outputText ["0.5", longLine, "0.9"] ""

/-- The score 0.5 as a `float64` bit pattern. -/
def score05 : Float64 := ⟨0x3FE0000000000000⟩

/-- The healthy world, except that every container prints `longLineOutput`;
`0.5` parses as well as `0.9`. -/
def longLineContext : Context :=
  { healthyContext with
    ParseFloat := fun s =>
      if s = "0.9" then Except.ok score09
      else if s = "0.5" then Except.ok score05
      else Except.error "strconv.ParseFloat: invalid syntax"
    RunContainerAndCollectOutput := fun _ => Except.ok ⟨longLineOutput, none⟩ }

/-! ## Running sequenced code -/

theorem Exec.bind_next {α β : Type} {m : Exec α} {f : α → Exec β} {c c1 : Calls} {a : α}
    {t1 : List Event} (h : m c = ⟨Outcome.next a, c1, t1⟩) :
    (m >>= f) c = ⟨(f a c1).out, (f a c1).calls, t1 ++ (f a c1).trace⟩ := by
  show Exec.bind m f c = _
  unfold Exec.bind
  rw [h]

theorem Exec.bind_returned {α β : Type} {m : Exec α} {f : α → Exec β} {c c1 : Calls}
    {t1 : List Event} (h : m c = ⟨Outcome.returned, c1, t1⟩) :
    (m >>= f) c = ⟨Outcome.returned, c1, t1⟩ := by
  show Exec.bind m f c = _
  unfold Exec.bind
  rw [h]

theorem Exec.bind_panicked {α β : Type} {m : Exec α} {f : α → Exec β} {c c1 : Calls}
    {t1 : List Event} {e : String} (h : m c = ⟨Outcome.panicked e, c1, t1⟩) :
    (m >>= f) c = ⟨Outcome.panicked e, c1, t1⟩ := by
  show Exec.bind m f c = _
  unfold Exec.bind
  rw [h]

theorem TaskRunWorker_eq (ctx : Context) (task : Task) :
    TaskRunWorker ctx task = (do
      repeatUntilSuccess (Event.UpdateTaskStatus task.ID TaskRunning "")
      emit (Event.GetDatasetPath task.Dataset)
      let datasetPath ← match ctx.GetDatasetPath task.Dataset with
        | Except.error err => goPanic err
        | Except.ok p => pure p
      emit (Event.GetAllTaskPaths task.ID)
      let paths ← match ctx.GetAllTaskPaths task.ID with
        | Except.error err => goPanic err
        | Except.ok p => pure p
      fromModelLoad ctx task paths datasetPath) := rfl

/-! ## The runs of the executors, case by case -/

theorem runModelTraining_cases (ctx : Context) (task : Task) (img : String)
    (paths : storage.TaskPaths) (dp : String) (c : Calls) :
    (∃ e, ctx.RunContainerAndCollectOutput c.RunContainer = Except.error e ∧
      runModelTraining ctx task img paths dp c =
        ⟨Outcome.next (some e),
         { c with RunContainer := c.RunContainer + 1, WriteFile := c.WriteFile + 1 },
         [Event.WriteFile (ctx.Join paths.Config "config.json") task.Config,
          Event.RunContainerAndCollectOutput img (trainCommand ctx paths dp),
          Event.WriteError "MODEL CONTAINER START ERROR" e,
          Event.UpdateTaskStatus task.ID TaskError e]⟩) ∨
    (∃ rd e, ctx.RunContainerAndCollectOutput c.RunContainer = Except.ok rd ∧ rd.err = some e ∧
      runModelTraining ctx task img paths dp c =
        ⟨Outcome.next (some e),
         { c with RunContainer := c.RunContainer + 1, WriteFile := c.WriteFile + 1 },
         [Event.WriteFile (ctx.Join paths.Config "config.json") task.Config,
          Event.RunContainerAndCollectOutput img (trainCommand ctx paths dp),
          Event.WriteError "MODEL CONTAINER OUTPUT READ ERROR" e,
          Event.UpdateTaskStatus task.ID TaskError e,
          Event.Close]⟩) ∨
    (∃ rd, ctx.RunContainerAndCollectOutput c.RunContainer = Except.ok rd ∧ rd.err = none ∧
      runModelTraining ctx task img paths dp c =
        ⟨Outcome.next none,
         { c with RunContainer := c.RunContainer + 1, WriteFile := c.WriteFile + 2 },
         trainOkTrace ctx task.Config img paths dp rd⟩) := by
  cases hrun : ctx.RunContainerAndCollectOutput c.RunContainer with
  | error e =>
    left
    refine ⟨e, rfl, ?_⟩
    simp [runModelTraining, bind, Exec.bind, pure, Exec.pure, emit, repeatUntilSuccess,
      WriteFile, RunContainerAndCollectOutput, hrun, trainCommand]
  | ok rd =>
    right
    cases herr : rd.err with
    | some e =>
      left
      refine ⟨rd, e, rfl, herr, ?_⟩
      simp [runModelTraining, bind, Exec.bind, pure, Exec.pure, emit, repeatUntilSuccess,
        WriteFile, RunContainerAndCollectOutput, hrun, trainCommand, ReadAll, herr]
    | none =>
      right
      refine ⟨rd, rfl, herr, ?_⟩
      simp [runModelTraining, bind, Exec.bind, pure, Exec.pure, emit, repeatUntilSuccess,
        WriteFile, RunContainerAndCollectOutput, hrun, trainCommand, ReadAll, herr,
        trainOkTrace]

theorem runModelPrediction_cases (ctx : Context) (task : Task) (img : String)
    (paths : storage.TaskPaths) (dp : String) (subdir : String) (c : Calls) :
    (∃ e, ctx.RunContainerAndCollectOutput c.RunContainer = Except.error e ∧
      runModelPrediction ctx task img paths dp subdir c =
        ⟨Outcome.next (some e), { c with RunContainer := c.RunContainer + 1 },
         [Event.RunContainerAndCollectOutput img (predictCommand ctx paths dp subdir),
          Event.WriteError "MODEL CONTAINER START ERROR" e,
          Event.UpdateTaskStatus task.ID TaskError e]⟩) ∨
    (∃ rd e, ctx.RunContainerAndCollectOutput c.RunContainer = Except.ok rd ∧ rd.err = some e ∧
      runModelPrediction ctx task img paths dp subdir c =
        ⟨Outcome.next (some e), { c with RunContainer := c.RunContainer + 1 },
         [Event.RunContainerAndCollectOutput img (predictCommand ctx paths dp subdir),
          Event.WriteError "MODEL CONTAINER OUTPUT READ ERROR" e,
          Event.UpdateTaskStatus task.ID TaskError e,
          Event.Close]⟩) ∨
    (∃ rd, ctx.RunContainerAndCollectOutput c.RunContainer = Except.ok rd ∧ rd.err = none ∧
      runModelPrediction ctx task img paths dp subdir c =
        ⟨Outcome.next none,
         { c with RunContainer := c.RunContainer + 1, WriteFile := c.WriteFile + 1 },
         predictOkTrace ctx img paths dp subdir rd⟩) := by
  cases hrun : ctx.RunContainerAndCollectOutput c.RunContainer with
  | error e =>
    left
    refine ⟨e, rfl, ?_⟩
    simp [runModelPrediction, bind, Exec.bind, pure, Exec.pure, emit, repeatUntilSuccess,
      RunContainerAndCollectOutput, hrun, predictCommand]
  | ok rd =>
    right
    cases herr : rd.err with
    | some e =>
      left
      refine ⟨rd, e, rfl, herr, ?_⟩
      simp [runModelPrediction, bind, Exec.bind, pure, Exec.pure, emit, repeatUntilSuccess,
        RunContainerAndCollectOutput, hrun, predictCommand, ReadAll, herr]
    | none =>
      right
      refine ⟨rd, rfl, herr, ?_⟩
      simp [runModelPrediction, bind, Exec.bind, pure, Exec.pure, emit, repeatUntilSuccess,
        WriteFile, RunContainerAndCollectOutput, hrun, predictCommand, ReadAll, herr,
        predictOkTrace]

theorem runModelEvaluationAndGetQuality_cases (ctx : Context) (task : Task) (img : String)
    (paths : storage.TaskPaths) (dp : String) (subdir : String) (c : Calls) :
    (∃ e, ctx.RunContainerAndCollectOutput c.RunContainer = Except.error e ∧
      runModelEvaluationAndGetQuality ctx task img paths dp subdir c =
        ⟨Outcome.next (Float64.zero, some e), { c with RunContainer := c.RunContainer + 1 },
         [Event.RunContainerAndCollectOutput img (evalCommand ctx paths dp subdir),
          Event.WriteError "OBJECTIVE CONTAINER START ERROR" e,
          Event.UpdateTaskStatus task.ID TaskError e]⟩) ∨
    (∃ rd, ctx.RunContainerAndCollectOutput c.RunContainer = Except.ok rd ∧
      (scanLines rd).getLast? = none ∧
      runModelEvaluationAndGetQuality ctx task img paths dp subdir c =
        ⟨Outcome.panicked "runtime error: index out of range [-1]",
         { c with RunContainer := c.RunContainer + 1 },
         [Event.RunContainerAndCollectOutput img (evalCommand ctx paths dp subdir),
          Event.Close]⟩) ∨
    (∃ rd l e, ctx.RunContainerAndCollectOutput c.RunContainer = Except.ok rd ∧
      (scanLines rd).getLast? = some l ∧ ctx.ParseFloat (TrimSpace l) = Except.error e ∧
      runModelEvaluationAndGetQuality ctx task img paths dp subdir c =
        ⟨Outcome.next (Float64.zero, some e), { c with RunContainer := c.RunContainer + 1 },
         [Event.RunContainerAndCollectOutput img (evalCommand ctx paths dp subdir),
          Event.WriteError "OBJECTIVE QUALITY PARSE ERROR" e,
          Event.UpdateTaskStatus task.ID TaskError e,
          Event.Close]⟩) ∨
    (∃ rd l q e, ctx.RunContainerAndCollectOutput c.RunContainer = Except.ok rd ∧
      (scanLines rd).getLast? = some l ∧ ctx.ParseFloat (TrimSpace l) = Except.ok q ∧
      ctx.WriteFile c.WriteFile = some e ∧
      runModelEvaluationAndGetQuality ctx task img paths dp subdir c =
        ⟨Outcome.panicked e,
         { c with RunContainer := c.RunContainer + 1, WriteFile := c.WriteFile + 1 },
         evalOkTrace ctx img paths dp subdir rd⟩) ∨
    (∃ rd l q, ctx.RunContainerAndCollectOutput c.RunContainer = Except.ok rd ∧
      (scanLines rd).getLast? = some l ∧ ctx.ParseFloat (TrimSpace l) = Except.ok q ∧
      ctx.WriteFile c.WriteFile = none ∧
      runModelEvaluationAndGetQuality ctx task img paths dp subdir c =
        ⟨Outcome.next (q, none),
         { c with RunContainer := c.RunContainer + 1, WriteFile := c.WriteFile + 1 },
         evalOkTrace ctx img paths dp subdir rd⟩) := by
  cases hrun : ctx.RunContainerAndCollectOutput c.RunContainer with
  | error e =>
    left
    refine ⟨e, rfl, ?_⟩
    simp [runModelEvaluationAndGetQuality, bind, Exec.bind, pure, Exec.pure, emit,
      repeatUntilSuccess, RunContainerAndCollectOutput, hrun, evalCommand]
  | ok rd =>
    right
    cases hlast : (scanLines rd).getLast? with
    | none =>
      left
      refine ⟨rd, rfl, hlast, ?_⟩
      simp [runModelEvaluationAndGetQuality, bind, Exec.bind, pure, Exec.pure, emit, goPanic,
        repeatUntilSuccess, RunContainerAndCollectOutput, hrun, evalCommand, hlast]
    | some l =>
      right
      cases hq : ctx.ParseFloat (TrimSpace l) with
      | error e =>
        left
        refine ⟨rd, l, e, rfl, hlast, hq, ?_⟩
        simp [runModelEvaluationAndGetQuality, bind, Exec.bind, pure, Exec.pure, emit, goPanic,
          repeatUntilSuccess, RunContainerAndCollectOutput, hrun, evalCommand, hlast, hq]
      | ok q =>
        right
        cases hw : ctx.WriteFile c.WriteFile with
        | some e =>
          left
          refine ⟨rd, l, q, e, rfl, hlast, hq, rfl, ?_⟩
          simp [runModelEvaluationAndGetQuality, bind, Exec.bind, pure, Exec.pure, emit,
            goPanic, repeatUntilSuccess, RunContainerAndCollectOutput, WriteFile, hrun,
            evalCommand, hlast, hq, hw, evalOkTrace]
        | none =>
          right
          refine ⟨rd, l, q, rfl, hlast, hq, rfl, ?_⟩
          simp [runModelEvaluationAndGetQuality, bind, Exec.bind, pure, Exec.pure, emit,
            goPanic, repeatUntilSuccess, RunContainerAndCollectOutput, WriteFile, hrun,
            evalCommand, hlast, hq, hw, evalOkTrace]

/-! ## The runs of the entry blocks of `TaskRunWorker`, case by case -/

theorem ensureModelLoaded_cases (ctx : Context) (task : Task) (c : Calls) :
    (task.Stage = TaskStageEvaluating ∧
      ensureModelLoaded ctx task c = ⟨Outcome.next "", c, []⟩) ∨
    (task.Stage ≠ TaskStageEvaluating ∧ ∃ e, ctx.LoadImage c.LoadImage = Except.error e ∧
      ensureModelLoaded ctx task c =
        ⟨Outcome.returned, { c with LoadImage := c.LoadImage + 1 },
         [Event.LoadImage (ctx.getModuleImagePath task.Model ModuleModel),
          Event.WriteError "MODEL LOAD ERROR" e,
          Event.UpdateTaskStatus task.ID TaskError e]⟩) ∨
    (task.Stage ≠ TaskStageEvaluating ∧ ∃ name, ctx.LoadImage c.LoadImage = Except.ok name ∧
      ensureModelLoaded ctx task c =
        ⟨Outcome.next name, { c with LoadImage := c.LoadImage + 1 },
         [Event.LoadImage (ctx.getModuleImagePath task.Model ModuleModel)]⟩) := by
  by_cases hs : task.Stage = TaskStageEvaluating
  · left
    simp [ensureModelLoaded, hs, pure, Exec.pure]
  · right
    cases hl : ctx.LoadImage c.LoadImage with
    | error e =>
      left
      refine ⟨hs, e, rfl, ?_⟩
      simp [ensureModelLoaded, hs, bind, Exec.bind, pure, Exec.pure, emit, goReturn,
        repeatUntilSuccess, LoadImage, hl]
    | ok name =>
      right
      refine ⟨hs, name, rfl, ?_⟩
      simp [ensureModelLoaded, hs, bind, Exec.bind, pure, Exec.pure, emit, goReturn,
        repeatUntilSuccess, LoadImage, hl]

theorem putInTrainingStage_cases (task : Task) (c : Calls) :
    (task.Stage = TaskStageBegin ∧
      putInTrainingStage task c =
        ⟨Outcome.next { task with Stage := TaskStageTraining }, c,
         [Event.UpdateTaskStage task.ID TaskStageTraining]⟩) ∨
    (task.Stage ≠ TaskStageBegin ∧
      putInTrainingStage task c =
        ⟨Outcome.next task, c, [Event.WriteInfo "TASK NOT IN BEGIN STAGE"]⟩) := by
  by_cases hs : task.Stage = TaskStageBegin
  · left
    simp [putInTrainingStage, hs, bind, Exec.bind, pure, Exec.pure, emit, repeatUntilSuccess]
  · right
    simp [putInTrainingStage, hs, bind, Exec.bind, pure, Exec.pure, emit, repeatUntilSuccess]

theorem fromHandler_run (ctx : Context) (task : Task) (c : Calls) :
    fromHandler ctx task c =
      ⟨Outcome.next (), c,
       handlerTrace task.ID task.Status ++ [Event.UnlockTask task.ID ctx.ProcessID]⟩ := by
  unfold fromHandler handleNotRunning handlerTrace
  by_cases h1 : task.Status = TaskRunning
  · simp [h1, bind, Exec.bind, pure, Exec.pure, emit, repeatUntilSuccess]
  · by_cases h2 : task.Status = TaskTerminating
    · simp [h2, bind, Exec.bind, pure, Exec.pure, emit, repeatUntilSuccess]
    · by_cases h3 : task.Status = TaskPausing
      · simp [h3, bind, Exec.bind, pure, Exec.pure, emit, repeatUntilSuccess]
      · simp [h1, h2, h3, bind, Exec.bind, pure, Exec.pure, emit, repeatUntilSuccess]

/-! ## The runs of the stage blocks of `TaskRunWorker` -/

theorem trainingStage_run (ctx : Context) (task : Task) (img : String)
    (paths : storage.TaskPaths) (dp : String) (c : Calls) :
    TrainingStageRun ctx task img paths dp c (trainingStage ctx task img paths dp c) := by
  by_cases hs : ctx.GetTaskByID c.GetTaskByID = TaskRunning
  swap
  · have h := @TrainingStageRun.notRunning ctx task img paths dp c hs
    simpa [trainingStage, runModelTraining, bind, Exec.bind, pure, Exec.pure, emit, goReturn, goPanic, repeatUntilSuccess,
      getTaskStatus, WriteFile, LoadImage, RunContainerAndCollectOutput, ReadAll, Calls.reread,
      trainCommand, predictCommand, evalCommand, trainOkTrace, predictOkTrace, evalOkTrace,
      hs] using h
  by_cases hst : task.Stage = TaskStageTraining
  swap
  · have h := @TrainingStageRun.skipped ctx task img paths dp c hs hst
    simpa [trainingStage, runModelTraining, bind, Exec.bind, pure, Exec.pure, emit, goReturn, goPanic, repeatUntilSuccess,
      getTaskStatus, WriteFile, LoadImage, RunContainerAndCollectOutput, ReadAll, Calls.reread,
      trainCommand, predictCommand, evalCommand, trainOkTrace, predictOkTrace, evalOkTrace,
      hs, hst] using h
  cases hr : ctx.RunContainerAndCollectOutput c.RunContainer with
  | error e =>
    have h := @TrainingStageRun.startFailed ctx task img paths dp c e hs hst hr
    simpa [trainingStage, runModelTraining, bind, Exec.bind, pure, Exec.pure, emit, goReturn, goPanic, repeatUntilSuccess,
      getTaskStatus, WriteFile, LoadImage, RunContainerAndCollectOutput, ReadAll, Calls.reread,
      trainCommand, predictCommand, evalCommand, trainOkTrace, predictOkTrace, evalOkTrace,
      hs, hst, hr] using h
  | ok rd =>
  cases he : rd.err with
  | some e =>
    have h := @TrainingStageRun.readFailed ctx task img paths dp c rd e hs hst hr he
    simpa [trainingStage, runModelTraining, bind, Exec.bind, pure, Exec.pure, emit, goReturn, goPanic, repeatUntilSuccess,
      getTaskStatus, WriteFile, LoadImage, RunContainerAndCollectOutput, ReadAll, Calls.reread,
      trainCommand, predictCommand, evalCommand, trainOkTrace, predictOkTrace, evalOkTrace,
      hs, hst, hr, he] using h
  | none =>
  have h := @TrainingStageRun.trained ctx task img paths dp c rd hs hst hr he
  simpa [trainingStage, runModelTraining, bind, Exec.bind, pure, Exec.pure, emit, goReturn, goPanic, repeatUntilSuccess,
      getTaskStatus, WriteFile, LoadImage, RunContainerAndCollectOutput, ReadAll, Calls.reread,
      trainCommand, predictCommand, evalCommand, trainOkTrace, predictOkTrace, evalOkTrace,
      hs, hst, hr, he] using h

theorem predictingStage_run (ctx : Context) (task : Task) (img : String)
    (paths : storage.TaskPaths) (dp : String) (c : Calls) :
    PredictingStageRun ctx task img paths dp c (predictingStage ctx task img paths dp c) := by
  by_cases hs : ctx.GetTaskByID c.GetTaskByID = TaskRunning
  swap
  · have h := @PredictingStageRun.notRunning ctx task img paths dp c hs
    simpa [predictingStage, runModelPrediction, bind, Exec.bind, pure, Exec.pure, emit, goReturn, goPanic, repeatUntilSuccess,
      getTaskStatus, WriteFile, LoadImage, RunContainerAndCollectOutput, ReadAll, Calls.reread,
      trainCommand, predictCommand, evalCommand, trainOkTrace, predictOkTrace, evalOkTrace,
      hs] using h
  by_cases hst : task.Stage = TaskStagePredicting
  swap
  · have h := @PredictingStageRun.skipped ctx task img paths dp c hs hst
    simpa [predictingStage, runModelPrediction, bind, Exec.bind, pure, Exec.pure, emit, goReturn, goPanic, repeatUntilSuccess,
      getTaskStatus, WriteFile, LoadImage, RunContainerAndCollectOutput, ReadAll, Calls.reread,
      trainCommand, predictCommand, evalCommand, trainOkTrace, predictOkTrace, evalOkTrace,
      hs, hst] using h
  cases hr : ctx.RunContainerAndCollectOutput c.RunContainer with
  | error e =>
    have h := @PredictingStageRun.trainStartFailed ctx task img paths dp c e hs hst hr
    simpa [predictingStage, runModelPrediction, bind, Exec.bind, pure, Exec.pure, emit, goReturn, goPanic, repeatUntilSuccess,
      getTaskStatus, WriteFile, LoadImage, RunContainerAndCollectOutput, ReadAll, Calls.reread,
      trainCommand, predictCommand, evalCommand, trainOkTrace, predictOkTrace, evalOkTrace,
      hs, hst, hr] using h
  | ok rd =>
  cases he : rd.err with
  | some e =>
    have h := @PredictingStageRun.trainReadFailed ctx task img paths dp c rd e hs hst hr he
    simpa [predictingStage, runModelPrediction, bind, Exec.bind, pure, Exec.pure, emit, goReturn, goPanic, repeatUntilSuccess,
      getTaskStatus, WriteFile, LoadImage, RunContainerAndCollectOutput, ReadAll, Calls.reread,
      trainCommand, predictCommand, evalCommand, trainOkTrace, predictOkTrace, evalOkTrace,
      hs, hst, hr, he] using h
  | none =>
  cases hr2 : ctx.RunContainerAndCollectOutput (c.RunContainer + 1) with
  | error e =>
    have h := @PredictingStageRun.valStartFailed ctx task img paths dp c rd e hs hst hr he hr2
    simpa [predictingStage, runModelPrediction, bind, Exec.bind, pure, Exec.pure, emit, goReturn, goPanic, repeatUntilSuccess,
      getTaskStatus, WriteFile, LoadImage, RunContainerAndCollectOutput, ReadAll, Calls.reread,
      trainCommand, predictCommand, evalCommand, trainOkTrace, predictOkTrace, evalOkTrace,
      hs, hst, hr, he, hr2] using h
  | ok rd2 =>
  cases he2 : rd2.err with
  | some e =>
    have h := @PredictingStageRun.valReadFailed ctx task img paths dp c rd rd2 e hs hst hr he hr2 he2
    simpa [predictingStage, runModelPrediction, bind, Exec.bind, pure, Exec.pure, emit, goReturn, goPanic, repeatUntilSuccess,
      getTaskStatus, WriteFile, LoadImage, RunContainerAndCollectOutput, ReadAll, Calls.reread,
      trainCommand, predictCommand, evalCommand, trainOkTrace, predictOkTrace, evalOkTrace,
      hs, hst, hr, he, hr2, he2] using h
  | none =>
  have h := @PredictingStageRun.predicted ctx task img paths dp c rd rd2 hs hst hr he hr2 he2
  simpa [predictingStage, runModelPrediction, bind, Exec.bind, pure, Exec.pure, emit, goReturn, goPanic, repeatUntilSuccess,
      getTaskStatus, WriteFile, LoadImage, RunContainerAndCollectOutput, ReadAll, Calls.reread,
      trainCommand, predictCommand, evalCommand, trainOkTrace, predictOkTrace, evalOkTrace,
      hs, hst, hr, he, hr2, he2] using h

theorem evaluatingStage_run (ctx : Context) (task : Task) (paths : storage.TaskPaths)
    (dp : String) (c : Calls) :
    EvaluatingStageRun ctx task paths dp c (evaluatingStage ctx task paths dp c) := by
  by_cases hs : ctx.GetTaskByID c.GetTaskByID = TaskRunning
  swap
  · have h := @EvaluatingStageRun.notRunning ctx task paths dp c hs
    simpa [evaluatingStage, runModelEvaluationAndGetQuality, bind, Exec.bind, pure, Exec.pure, emit, goReturn, goPanic, repeatUntilSuccess,
      getTaskStatus, WriteFile, LoadImage, RunContainerAndCollectOutput, ReadAll, Calls.reread,
      trainCommand, predictCommand, evalCommand, trainOkTrace, predictOkTrace, evalOkTrace,
      hs] using h
  by_cases hst : task.Stage = TaskStageEvaluating
  swap
  · have h := @EvaluatingStageRun.skipped ctx task paths dp c hs hst
    simpa [evaluatingStage, runModelEvaluationAndGetQuality, bind, Exec.bind, pure, Exec.pure, emit, goReturn, goPanic, repeatUntilSuccess,
      getTaskStatus, WriteFile, LoadImage, RunContainerAndCollectOutput, ReadAll, Calls.reread,
      trainCommand, predictCommand, evalCommand, trainOkTrace, predictOkTrace, evalOkTrace,
      hs, hst] using h
  cases hl : ctx.LoadImage c.LoadImage with
  | error e =>
    have h := @EvaluatingStageRun.loadFailed ctx task paths dp c e hs hst hl
    simpa [evaluatingStage, runModelEvaluationAndGetQuality, bind, Exec.bind, pure, Exec.pure, emit, goReturn, goPanic, repeatUntilSuccess,
      getTaskStatus, WriteFile, LoadImage, RunContainerAndCollectOutput, ReadAll, Calls.reread,
      trainCommand, predictCommand, evalCommand, trainOkTrace, predictOkTrace, evalOkTrace,
      hs, hst, hl] using h
  | ok name =>
  cases hr : ctx.RunContainerAndCollectOutput c.RunContainer with
  | error e =>
    have h := @EvaluatingStageRun.trainStartFailed ctx task paths dp c name e hs hst hl hr
    simpa [evaluatingStage, runModelEvaluationAndGetQuality, bind, Exec.bind, pure, Exec.pure, emit, goReturn, goPanic, repeatUntilSuccess,
      getTaskStatus, WriteFile, LoadImage, RunContainerAndCollectOutput, ReadAll, Calls.reread,
      trainCommand, predictCommand, evalCommand, trainOkTrace, predictOkTrace, evalOkTrace,
      hs, hst, hl, hr] using h
  | ok rd =>
  cases hlast : (scanLines rd).getLast? with
  | none =>
    have h := @EvaluatingStageRun.trainNoLines ctx task paths dp c name rd hs hst hl hr hlast
    simpa [evaluatingStage, runModelEvaluationAndGetQuality, bind, Exec.bind, pure, Exec.pure, emit, goReturn, goPanic, repeatUntilSuccess,
      getTaskStatus, WriteFile, LoadImage, RunContainerAndCollectOutput, ReadAll, Calls.reread,
      trainCommand, predictCommand, evalCommand, trainOkTrace, predictOkTrace, evalOkTrace,
      hs, hst, hl, hr, hlast] using h
  | some l =>
  cases hq : ctx.ParseFloat (TrimSpace l) with
  | error e =>
    have h := @EvaluatingStageRun.trainParseFailed ctx task paths dp c name rd l e hs hst hl hr hlast hq
    simpa [evaluatingStage, runModelEvaluationAndGetQuality, bind, Exec.bind, pure, Exec.pure, emit, goReturn, goPanic, repeatUntilSuccess,
      getTaskStatus, WriteFile, LoadImage, RunContainerAndCollectOutput, ReadAll, Calls.reread,
      trainCommand, predictCommand, evalCommand, trainOkTrace, predictOkTrace, evalOkTrace,
      hs, hst, hl, hr, hlast, hq] using h
  | ok q =>
  cases hw : ctx.WriteFile c.WriteFile with
  | some e =>
    have h := @EvaluatingStageRun.trainWriteFailed ctx task paths dp c name rd l q e hs hst hl hr hlast hq hw
    simpa [evaluatingStage, runModelEvaluationAndGetQuality, bind, Exec.bind, pure, Exec.pure, emit, goReturn, goPanic, repeatUntilSuccess,
      getTaskStatus, WriteFile, LoadImage, RunContainerAndCollectOutput, ReadAll, Calls.reread,
      trainCommand, predictCommand, evalCommand, trainOkTrace, predictOkTrace, evalOkTrace,
      hs, hst, hl, hr, hlast, hq, hw] using h
  | none =>
  cases hr2 : ctx.RunContainerAndCollectOutput (c.RunContainer + 1) with
  | error e =>
    have h := @EvaluatingStageRun.valStartFailed ctx task paths dp c name rd l q e hs hst hl hr hlast hq hw hr2
    simpa [evaluatingStage, runModelEvaluationAndGetQuality, bind, Exec.bind, pure, Exec.pure, emit, goReturn, goPanic, repeatUntilSuccess,
      getTaskStatus, WriteFile, LoadImage, RunContainerAndCollectOutput, ReadAll, Calls.reread,
      trainCommand, predictCommand, evalCommand, trainOkTrace, predictOkTrace, evalOkTrace,
      hs, hst, hl, hr, hlast, hq, hw, hr2] using h
  | ok rd2 =>
  cases hlast2 : (scanLines rd2).getLast? with
  | none =>
    have h := @EvaluatingStageRun.valNoLines ctx task paths dp c name rd l q rd2 hs hst hl hr hlast hq hw hr2 hlast2
    simpa [evaluatingStage, runModelEvaluationAndGetQuality, bind, Exec.bind, pure, Exec.pure, emit, goReturn, goPanic, repeatUntilSuccess,
      getTaskStatus, WriteFile, LoadImage, RunContainerAndCollectOutput, ReadAll, Calls.reread,
      trainCommand, predictCommand, evalCommand, trainOkTrace, predictOkTrace, evalOkTrace,
      hs, hst, hl, hr, hlast, hq, hw, hr2, hlast2] using h
  | some l2 =>
  cases hq2 : ctx.ParseFloat (TrimSpace l2) with
  | error e =>
    have h := @EvaluatingStageRun.valParseFailed ctx task paths dp c name rd l q rd2 l2 e hs hst hl hr hlast hq hw hr2 hlast2 hq2
    simpa [evaluatingStage, runModelEvaluationAndGetQuality, bind, Exec.bind, pure, Exec.pure, emit, goReturn, goPanic, repeatUntilSuccess,
      getTaskStatus, WriteFile, LoadImage, RunContainerAndCollectOutput, ReadAll, Calls.reread,
      trainCommand, predictCommand, evalCommand, trainOkTrace, predictOkTrace, evalOkTrace,
      hs, hst, hl, hr, hlast, hq, hw, hr2, hlast2, hq2] using h
  | ok q2 =>
  cases hw2 : ctx.WriteFile (c.WriteFile + 1) with
  | some e =>
    have h := @EvaluatingStageRun.valWriteFailed ctx task paths dp c name rd l q rd2 l2 q2 e hs hst hl hr hlast hq hw hr2 hlast2 hq2 hw2
    simpa [evaluatingStage, runModelEvaluationAndGetQuality, bind, Exec.bind, pure, Exec.pure, emit, goReturn, goPanic, repeatUntilSuccess,
      getTaskStatus, WriteFile, LoadImage, RunContainerAndCollectOutput, ReadAll, Calls.reread,
      trainCommand, predictCommand, evalCommand, trainOkTrace, predictOkTrace, evalOkTrace,
      hs, hst, hl, hr, hlast, hq, hw, hr2, hlast2, hq2, hw2] using h
  | none =>
  have h := @EvaluatingStageRun.evaluated ctx task paths dp c name rd l q rd2 l2 q2 hs hst hl hr hlast hq hw hr2 hlast2 hq2 hw2
  simpa [evaluatingStage, runModelEvaluationAndGetQuality, bind, Exec.bind, pure, Exec.pure, emit, goReturn, goPanic, repeatUntilSuccess,
      getTaskStatus, WriteFile, LoadImage, RunContainerAndCollectOutput, ReadAll, Calls.reread,
      trainCommand, predictCommand, evalCommand, trainOkTrace, predictOkTrace, evalOkTrace,
      hs, hst, hl, hr, hlast, hq, hw, hr2, hlast2, hq2, hw2] using h

theorem completeTask_run (ctx : Context) (task : Task) (c : Calls) :
    CompleteTaskRun ctx task c (completeTask ctx task c) := by
  by_cases hs : ctx.GetTaskByID c.GetTaskByID = TaskRunning
  swap
  · have h := @CompleteTaskRun.notRunning ctx task c hs
    simpa [completeTask, bind, Exec.bind, pure, Exec.pure, emit, goReturn, goPanic, repeatUntilSuccess,
      getTaskStatus, WriteFile, LoadImage, RunContainerAndCollectOutput, ReadAll, Calls.reread,
      trainCommand, predictCommand, evalCommand, trainOkTrace, predictOkTrace, evalOkTrace,
      hs] using h
  by_cases hst : task.Stage = TaskStageEnd
  swap
  · have h := @CompleteTaskRun.skipped ctx task c hs hst
    simpa [completeTask, bind, Exec.bind, pure, Exec.pure, emit, goReturn, goPanic, repeatUntilSuccess,
      getTaskStatus, WriteFile, LoadImage, RunContainerAndCollectOutput, ReadAll, Calls.reread,
      trainCommand, predictCommand, evalCommand, trainOkTrace, predictOkTrace, evalOkTrace,
      hs, hst] using h
  by_cases hm : (ctx.GetJobByID task.Job).MaxTasks > 0
  swap
  · have h := @CompleteTaskRun.unbounded ctx task c hs hst hm
    simpa [completeTask, bind, Exec.bind, pure, Exec.pure, emit, goReturn, goPanic, repeatUntilSuccess,
      getTaskStatus, WriteFile, LoadImage, RunContainerAndCollectOutput, ReadAll, Calls.reread,
      trainCommand, predictCommand, evalCommand, trainOkTrace, predictOkTrace, evalOkTrace,
      hs, hst, hm] using h
  by_cases hc : uint64 (ctx.CountTasks task.Job) ≥ (ctx.GetJobByID task.Job).MaxTasks
  swap
  · have h := @CompleteTaskRun.belowThreshold ctx task c hs hst hm hc
    simpa [completeTask, bind, Exec.bind, pure, Exec.pure, emit, goReturn, goPanic, repeatUntilSuccess,
      getTaskStatus, WriteFile, LoadImage, RunContainerAndCollectOutput, ReadAll, Calls.reread,
      trainCommand, predictCommand, evalCommand, trainOkTrace, predictOkTrace, evalOkTrace,
      hs, hst, hm, hc] using h
  have h := @CompleteTaskRun.jobCompleted ctx task c hs hst hm hc
  simpa [completeTask, bind, Exec.bind, pure, Exec.pure, emit, goReturn, goPanic, repeatUntilSuccess,
      getTaskStatus, WriteFile, LoadImage, RunContainerAndCollectOutput, ReadAll, Calls.reread,
      trainCommand, predictCommand, evalCommand, trainOkTrace, predictOkTrace, evalOkTrace,
      hs, hst, hm, hc] using h

/-! ## Stage commits along the run -/

theorem stageCommits_append (t1 t2 : List Event) :
    stageCommits (t1 ++ t2) = stageCommits t1 ++ stageCommits t2 := by
  induction t1 with
  | nil => rfl
  | cons e t ih => cases e <;> simp [stageCommits, ih]

theorem commitSequences_initial :
    ∀ s : TaskStage, ∀ cs ∈ commitSequences s, ignoreRepeatedEnd cs <+: successors s := by
  intro s
  cases s <;> decide

theorem nil_mem_commitSequences (s : TaskStage) : [] ∈ commitSequences s := by
  cases s <;> simp [commitSequences]

theorem stageCommits_fromCompleting (ctx : Context) (task : Task) (c : Calls) :
    stageCommits (fromCompleting ctx task c).trace = [] := by
  have hh := completeTask_run ctx task c
  generalize h : completeTask ctx task c = r at hh
  cases hh
  all_goals
    rw [fromCompleting, Exec.bind_next h, fromHandler_run]
    simp only [handlerTrace]
    split_ifs <;> simp [stageCommits]

theorem stageCommits_fromEvaluating (ctx : Context) (task : Task) (paths : storage.TaskPaths)
    (dp : String) (c : Calls) :
    stageCommits (fromEvaluating ctx task paths dp c).trace ∈ commitSequences task.Stage := by
  have hh := evaluatingStage_run ctx task paths dp c
  generalize h : evaluatingStage ctx task paths dp c = r at hh
  cases hh
  all_goals
    first
    | rw [fromEvaluating, Exec.bind_next h]
    | rw [fromEvaluating, Exec.bind_returned h]
    | rw [fromEvaluating, Exec.bind_panicked h]
  all_goals
    simp [stageCommits, stageCommits_append, stageCommits_fromCompleting, evalOkTrace,
      nil_mem_commitSequences]
  simp [*, commitSequences]

theorem stageCommits_fromPredicting (ctx : Context) (task : Task) (img : String)
    (paths : storage.TaskPaths) (dp : String) (c : Calls) :
    stageCommits (fromPredicting ctx task img paths dp c).trace ∈
      commitSequences task.Stage := by
  have hh := predictingStage_run ctx task img paths dp c
  generalize h : predictingStage ctx task img paths dp c = r at hh
  cases hh
  all_goals
    first
    | rw [fromPredicting, Exec.bind_next h]
    | rw [fromPredicting, Exec.bind_returned h]
  all_goals
    simp only [stageCommits, stageCommits_append, predictOkTrace, List.nil_append,
      List.append_nil, List.cons_append, nil_mem_commitSequences]
  · exact stageCommits_fromEvaluating ctx _ paths dp _
  · exact stageCommits_fromEvaluating ctx _ paths dp _
  · have ih := stageCommits_fromEvaluating ctx
      { task with Status := TaskRunning, Stage := TaskStageEvaluating } paths dp
      { c.reread with RunContainer := c.RunContainer + 2, WriteFile := c.WriteFile + 2 }
    simp only [commitSequences, List.mem_cons, List.mem_singleton, List.not_mem_nil,
      or_false] at ih
    rcases ih with ih | ih <;> simp [*, commitSequences]

theorem stageCommits_fromTraining (ctx : Context) (task : Task) (img : String)
    (paths : storage.TaskPaths) (dp : String) (c : Calls) :
    stageCommits (fromTraining ctx task img paths dp c).trace ∈
      commitSequences task.Stage := by
  have hh := trainingStage_run ctx task img paths dp c
  generalize h : trainingStage ctx task img paths dp c = r at hh
  cases hh
  all_goals
    first
    | rw [fromTraining, Exec.bind_next h]
    | rw [fromTraining, Exec.bind_returned h]
  all_goals
    simp only [stageCommits, stageCommits_append, trainOkTrace, List.nil_append,
      List.append_nil, List.cons_append, nil_mem_commitSequences]
  · exact stageCommits_fromPredicting ctx _ img paths dp _
  · exact stageCommits_fromPredicting ctx _ img paths dp _
  · have ih := stageCommits_fromPredicting ctx
      { task with Status := TaskRunning, Stage := TaskStagePredicting } img paths dp
      { c.reread with RunContainer := c.RunContainer + 1, WriteFile := c.WriteFile + 2 }
    simp only [commitSequences, List.mem_cons, List.mem_singleton, List.not_mem_nil,
      or_false] at ih
    rcases ih with ih | ih | ih <;> simp [*, commitSequences]

/-! ## The run of `TaskRunWorker` up to the first status re-read -/

theorem TaskRunWorker_run (ctx : Context) (task : Task) (c : Calls) :
    TaskRunWorkerRun ctx task c (TaskRunWorker ctx task c) := by
  rw [TaskRunWorker_eq]
  cases hd : ctx.GetDatasetPath task.Dataset with
  | error e =>
    have h := @TaskRunWorkerRun.datasetPathFailed ctx task c e hd
    simpa [bind, Exec.bind, pure, Exec.pure, emit, goPanic, repeatUntilSuccess, hd] using h
  | ok dp =>
  cases hp : ctx.GetAllTaskPaths task.ID with
  | error e =>
    have h := @TaskRunWorkerRun.taskPathsFailed ctx task c dp e hd hp
    simpa [bind, Exec.bind, pure, Exec.pure, emit, goPanic, repeatUntilSuccess, hd, hp] using h
  | ok paths =>
  by_cases hst : task.Stage = TaskStageEvaluating
  · have h := @TaskRunWorkerRun.resumedEvaluating ctx task c dp paths hd hp hst
    simpa [bind, Exec.bind, pure, Exec.pure, emit, goPanic, goReturn, repeatUntilSuccess, hd, hp,
      fromModelLoad, ensureModelLoaded, putInTrainingStage, hst] using h
  cases hl : ctx.LoadImage c.LoadImage with
  | error e =>
    have h := @TaskRunWorkerRun.modelLoadFailed ctx task c dp paths e hd hp hst hl
    simpa [bind, Exec.bind, pure, Exec.pure, emit, goPanic, goReturn, repeatUntilSuccess, hd, hp,
      fromModelLoad, ensureModelLoaded, putInTrainingStage, LoadImage, hst, hl] using h
  | ok name =>
  by_cases hb : task.Stage = TaskStageBegin
  · have h := @TaskRunWorkerRun.fromBegin ctx task c dp paths name hd hp hb hl
    simpa [bind, Exec.bind, pure, Exec.pure, emit, goPanic, goReturn, repeatUntilSuccess, hd, hp,
      fromModelLoad, ensureModelLoaded, putInTrainingStage, LoadImage, hst, hl, hb] using h
  · have h := @TaskRunWorkerRun.resumed ctx task c dp paths name hd hp hst hb hl
    simpa [bind, Exec.bind, pure, Exec.pure, emit, goPanic, goReturn, repeatUntilSuccess, hd, hp,
      fromModelLoad, ensureModelLoaded, putInTrainingStage, LoadImage, hst, hl, hb] using h

theorem stageCommits_TaskRunWorker (ctx : Context) (task : Task) (c : Calls) :
    stageCommits (TaskRunWorker ctx task c).trace ∈ commitSequences task.Stage := by
  have hh := TaskRunWorker_run ctx task c
  generalize TaskRunWorker ctx task c = r at hh
  cases hh
  all_goals
    simp only [stageCommits, stageCommits_append, List.nil_append, List.append_nil,
      List.cons_append, nil_mem_commitSequences]
  · rename_i dp paths name hd hp hst hl
    have ih := stageCommits_fromTraining ctx { task with Stage := TaskStageTraining } name
      paths dp { c with LoadImage := c.LoadImage + 1 }
    simp only [commitSequences, List.mem_cons, List.mem_singleton, List.not_mem_nil,
      or_false] at ih
    rcases ih with ih | ih | ih | ih <;> simp [*, commitSequences]
  · exact stageCommits_fromTraining ctx _ _ _ _ _
  · exact stageCommits_fromTraining ctx _ _ _ _ _

/-! ## Executors run in their own stage -/

theorem executorsInStage_split (pre post : List Event) (img : String) (cmd : List String) :
    ∀ cur : TaskStage,
      executorsInStage cur (pre ++ Event.RunContainerAndCollectOutput img cmd :: post) = true →
      executorStage cmd = some (currentStage cur pre) := by
  induction pre with
  | nil =>
    intro cur h
    simp [executorsInStage] at h
    simpa [currentStage] using h.1
  | cons e pre ih =>
    intro cur h
    cases e <;> simp [executorsInStage, currentStage] at h ⊢ <;>
      first
      | exact ih _ h
      | exact ih _ h.2

theorem executorsInStage_fromCompleting (ctx : Context) (task : Task) (c : Calls)
    (cur : TaskStage) :
    executorsInStage cur (fromCompleting ctx task c).trace = true := by
  have hh := completeTask_run ctx task c
  generalize h : completeTask ctx task c = r at hh
  cases hh
  all_goals
    rw [fromCompleting, Exec.bind_next h, fromHandler_run]
    simp only [handlerTrace]
    split_ifs <;> simp [executorsInStage]

theorem executorsInStage_fromEvaluating (ctx : Context) (task : Task)
    (paths : storage.TaskPaths) (dp : String) (c : Calls) (cur : TaskStage)
    (hcur : task.Stage = cur) :
    executorsInStage cur (fromEvaluating ctx task paths dp c).trace = true := by
  subst hcur
  have hh := evaluatingStage_run ctx task paths dp c
  generalize h : evaluatingStage ctx task paths dp c = r at hh
  cases hh
  all_goals
    first
    | rw [fromEvaluating, Exec.bind_next h]
    | rw [fromEvaluating, Exec.bind_returned h]
    | rw [fromEvaluating, Exec.bind_panicked h]
  all_goals
    simp [*, executorsInStage, executorStage, evalCommand, evalOkTrace,
      executorsInStage_fromCompleting]

theorem executorsInStage_fromPredicting (ctx : Context) (task : Task) (img : String)
    (paths : storage.TaskPaths) (dp : String) (c : Calls) (cur : TaskStage)
    (hcur : task.Stage = cur) :
    executorsInStage cur (fromPredicting ctx task img paths dp c).trace = true := by
  subst hcur
  have hh := predictingStage_run ctx task img paths dp c
  generalize h : predictingStage ctx task img paths dp c = r at hh
  cases hh
  all_goals
    first
    | rw [fromPredicting, Exec.bind_next h]
    | rw [fromPredicting, Exec.bind_returned h]
  all_goals
    simp [*, executorsInStage, executorStage, predictCommand, predictOkTrace]
  all_goals exact executorsInStage_fromEvaluating ctx _ _ _ _ _ rfl

theorem executorsInStage_fromTraining (ctx : Context) (task : Task) (img : String)
    (paths : storage.TaskPaths) (dp : String) (c : Calls) (cur : TaskStage)
    (hcur : task.Stage = cur) :
    executorsInStage cur (fromTraining ctx task img paths dp c).trace = true := by
  subst hcur
  have hh := trainingStage_run ctx task img paths dp c
  generalize h : trainingStage ctx task img paths dp c = r at hh
  cases hh
  all_goals
    first
    | rw [fromTraining, Exec.bind_next h]
    | rw [fromTraining, Exec.bind_returned h]
  all_goals
    simp [*, executorsInStage, executorStage, trainCommand, trainOkTrace]
  all_goals exact executorsInStage_fromPredicting ctx _ _ _ _ _ _ rfl

theorem executorsInStage_TaskRunWorker (ctx : Context) (task : Task) (c : Calls) :
    executorsInStage task.Stage (TaskRunWorker ctx task c).trace = true := by
  have hh := TaskRunWorker_run ctx task c
  generalize TaskRunWorker ctx task c = r at hh
  cases hh
  all_goals simp [executorsInStage]
  all_goals exact executorsInStage_fromTraining ctx _ _ _ _ _ _ rfl

/-! ## The run in which nothing fails and nobody intervenes -/

theorem taskWrites_append (t1 t2 : List Event) :
    taskWrites (t1 ++ t2) = taskWrites t1 ++ taskWrites t2 := by
  induction t1 with
  | nil => rfl
  | cons e t ih => cases e <;> simp [taskWrites, ih]

theorem executorCalls_append (t1 t2 : List Event) :
    executorCalls (t1 ++ t2) = executorCalls t1 ++ executorCalls t2 := by
  induction t1 with
  | nil => rfl
  | cons e t ih => cases e <;> simp [executorCalls, ih]

theorem fromCompleting_happy (ctx : Context) (task : Task) (c : Calls)
    (hs0 : ctx.GetTaskByID c.GetTaskByID = TaskRunning) (hst0 : task.Stage = TaskStageEnd) :
    (fromCompleting ctx task c).out = Outcome.next () ∧
    executorCalls (fromCompleting ctx task c).trace = [] ∧
    taskWrites (fromCompleting ctx task c).trace =
      [Event.UpdateTaskStatus task.ID TaskCompleted "",
       Event.UnlockTask task.ID ctx.ProcessID] := by
  have hh := completeTask_run ctx task c
  generalize h : completeTask ctx task c = r at hh
  cases hh
  all_goals
    rw [fromCompleting, Exec.bind_next h, fromHandler_run]
    simp_all [handlerTrace, taskWrites, executorCalls]

theorem fromEvaluating_happy (ctx : Context) (task : Task) (paths : storage.TaskPaths)
    (dp : String) (c : Calls) (name : String) (q qt : Float64)
    (hs0 : ctx.GetTaskByID c.GetTaskByID = TaskRunning)
    (hs1 : ctx.GetTaskByID (c.GetTaskByID + 1) = TaskRunning)
    (hst0 : task.Stage = TaskStageEvaluating)
    (hl0 : ctx.LoadImage c.LoadImage = Except.ok name)
    (he1 : evalScores ctx c.RunContainer c.WriteFile qt)
    (he2 : evalScores ctx (c.RunContainer + 1) (c.WriteFile + 1) q) :
    (fromEvaluating ctx task paths dp c).out = Outcome.next () ∧
    executorCalls (fromEvaluating ctx task paths dp c).trace =
      [(name, evalCommand ctx paths dp "train"), (name, evalCommand ctx paths dp "val")] ∧
    taskWrites (fromEvaluating ctx task paths dp c).trace =
      [Event.UpdateTask task.ID q qt,
       Event.UpdateTaskStage task.ID TaskStageEnd,
       Event.UpdateTaskStage task.ID TaskStageEnd,
       Event.UpdateTaskStatus task.ID TaskCompleted "",
       Event.UnlockTask task.ID ctx.ProcessID] := by
  obtain ⟨rd1, l1, hr1, hlast1, hq1, hw1⟩ := he1
  obtain ⟨rd2, l2, hr2, hlast2, hq2, hw2⟩ := he2
  have hh := evaluatingStage_run ctx task paths dp c
  generalize h : evaluatingStage ctx task paths dp c = r at hh
  cases hh
  case evaluated name' rd l q' rd2' l2' q2' hs hst hl hr hlast hq hw hr2' hlast2' hq2' hw2' =>
    rw [hl0] at hl
    rw [hr1] at hr
    rw [hr2] at hr2'
    cases hl
    cases hr
    cases hr2'
    rw [hlast1] at hlast
    rw [hlast2] at hlast2'
    cases hlast
    cases hlast2'
    rw [hq1] at hq
    rw [hq2] at hq2'
    cases hq
    cases hq2'
    have ih := fromCompleting_happy ctx
      { task with Status := TaskRunning, Stage := TaskStageEnd }
      { c.reread with LoadImage := c.LoadImage + 1, RunContainer := c.RunContainer + 2,
                      WriteFile := c.WriteFile + 2 } hs1 rfl
    rw [fromEvaluating, Exec.bind_next h]
    simp [ih, taskWrites, taskWrites_append, executorCalls, executorCalls_append, evalOkTrace]
  all_goals simp_all

theorem fromPredicting_happy (ctx : Context) (task : Task) (img : String)
    (paths : storage.TaskPaths) (dp : String) (c : Calls) (name : String) (q qt : Float64)
    (hs0 : ctx.GetTaskByID c.GetTaskByID = TaskRunning)
    (hs1 : ctx.GetTaskByID (c.GetTaskByID + 1) = TaskRunning)
    (hs2 : ctx.GetTaskByID (c.GetTaskByID + 2) = TaskRunning)
    (hst0 : task.Stage = TaskStagePredicting)
    (hp1 : stdoutRead ctx c.RunContainer) (hp2 : stdoutRead ctx (c.RunContainer + 1))
    (hl0 : ctx.LoadImage c.LoadImage = Except.ok name)
    (he1 : evalScores ctx (c.RunContainer + 2) (c.WriteFile + 2) qt)
    (he2 : evalScores ctx (c.RunContainer + 3) (c.WriteFile + 3) q) :
    (fromPredicting ctx task img paths dp c).out = Outcome.next () ∧
    executorCalls (fromPredicting ctx task img paths dp c).trace =
      [(img, predictCommand ctx paths dp "train"), (img, predictCommand ctx paths dp "val"),
       (name, evalCommand ctx paths dp "train"), (name, evalCommand ctx paths dp "val")] ∧
    taskWrites (fromPredicting ctx task img paths dp c).trace =
      [Event.UpdateTaskStage task.ID TaskStageEvaluating,
       Event.UpdateTask task.ID q qt,
       Event.UpdateTaskStage task.ID TaskStageEnd,
       Event.UpdateTaskStage task.ID TaskStageEnd,
       Event.UpdateTaskStatus task.ID TaskCompleted "",
       Event.UnlockTask task.ID ctx.ProcessID] := by
  obtain ⟨rd1, hr1, herr1⟩ := hp1
  obtain ⟨rd2, hr2, herr2⟩ := hp2
  have hh := predictingStage_run ctx task img paths dp c
  generalize h : predictingStage ctx task img paths dp c = r at hh
  cases hh
  case predicted rd rd2' hs hst hr he hr2' he2' =>
    have ih := fromEvaluating_happy ctx
      { task with Status := TaskRunning, Stage := TaskStageEvaluating } paths dp
      { c.reread with RunContainer := c.RunContainer + 2, WriteFile := c.WriteFile + 2 }
      name q qt hs1 hs2 rfl hl0 he1 he2
    rw [fromPredicting, Exec.bind_next h]
    simp [ih, taskWrites, taskWrites_append, executorCalls, executorCalls_append,
      predictOkTrace]
  all_goals simp_all

theorem fromTraining_happy (ctx : Context) (task : Task) (img : String)
    (paths : storage.TaskPaths) (dp : String) (c : Calls) (name : String) (q qt : Float64)
    (hs0 : ctx.GetTaskByID c.GetTaskByID = TaskRunning)
    (hs1 : ctx.GetTaskByID (c.GetTaskByID + 1) = TaskRunning)
    (hs2 : ctx.GetTaskByID (c.GetTaskByID + 2) = TaskRunning)
    (hs3 : ctx.GetTaskByID (c.GetTaskByID + 3) = TaskRunning)
    (hst0 : task.Stage = TaskStageTraining)
    (ht : stdoutRead ctx c.RunContainer)
    (hp1 : stdoutRead ctx (c.RunContainer + 1)) (hp2 : stdoutRead ctx (c.RunContainer + 2))
    (hl0 : ctx.LoadImage c.LoadImage = Except.ok name)
    (he1 : evalScores ctx (c.RunContainer + 3) (c.WriteFile + 4) qt)
    (he2 : evalScores ctx (c.RunContainer + 4) (c.WriteFile + 5) q) :
    (fromTraining ctx task img paths dp c).out = Outcome.next () ∧
    executorCalls (fromTraining ctx task img paths dp c).trace =
      [(img, trainCommand ctx paths dp),
       (img, predictCommand ctx paths dp "train"), (img, predictCommand ctx paths dp "val"),
       (name, evalCommand ctx paths dp "train"), (name, evalCommand ctx paths dp "val")] ∧
    taskWrites (fromTraining ctx task img paths dp c).trace =
      [Event.UpdateTaskStage task.ID TaskStagePredicting,
       Event.UpdateTaskStage task.ID TaskStageEvaluating,
       Event.UpdateTask task.ID q qt,
       Event.UpdateTaskStage task.ID TaskStageEnd,
       Event.UpdateTaskStage task.ID TaskStageEnd,
       Event.UpdateTaskStatus task.ID TaskCompleted "",
       Event.UnlockTask task.ID ctx.ProcessID] := by
  obtain ⟨rd0, hr0, herr0⟩ := ht
  have hh := trainingStage_run ctx task img paths dp c
  generalize h : trainingStage ctx task img paths dp c = r at hh
  cases hh
  case trained rd hs hst hr he =>
    have ih := fromPredicting_happy ctx
      { task with Status := TaskRunning, Stage := TaskStagePredicting } img paths dp
      { c.reread with RunContainer := c.RunContainer + 1, WriteFile := c.WriteFile + 2 }
      name q qt hs1 hs2 hs3 rfl hp1 hp2 hl0 he1 he2
    rw [fromTraining, Exec.bind_next h]
    simp [ih, taskWrites, taskWrites_append, executorCalls, executorCalls_append,
      trainOkTrace]
  all_goals simp_all

/-! ## The status re-reads along the run -/

theorem afterReread_split (pre post : List Event) (i : String) :
    ∀ k, rereads pre = k → afterReread k (pre ++ Event.GetTaskByID i :: post) = some post := by
  induction pre with
  | nil =>
    intro k hk
    simp [rereads] at hk
    subst hk
    simp [afterReread, isReread]
  | cons e pre ih =>
    intro k hk
    by_cases he : isReread e = true
    · simp only [rereads, List.countP_cons, he, if_true] at hk
      subst hk
      simpa [afterReread, he] using ih _ rfl
    · simp only [rereads, List.countP_cons, he] at hk
      simpa [afterReread, he] using ih _ (by simpa [rereads] using hk)

theorem afterReread_some (trace : List Event) :
    ∀ k post, afterReread k trace = some post →
      ∃ pre i, trace = pre ++ Event.GetTaskByID i :: post ∧ rereads pre = k := by
  induction trace with
  | nil => intro k post h; simp [afterReread] at h
  | cons e t ih =>
    intro k post h
    by_cases he : isReread e = true
    · cases e <;> simp [isReread] at he
      rename_i j
      cases k with
      | zero =>
        simp [afterReread, isReread] at h
        exact ⟨[], j, by simp [h], rfl⟩
      | succ k =>
        simp only [afterReread, isReread, if_true] at h
        obtain ⟨pre, i, h1, h2⟩ := ih k post h
        exact ⟨Event.GetTaskByID j :: pre, i, by simp [h1],
          by simp [rereads, isReread] at h2 ⊢; exact h2⟩
    · simp only [afterReread, he] at h
      obtain ⟨pre, i, h1, h2⟩ := ih k post (by simpa using h)
      exact ⟨e :: pre, i, by simp [h1], by simpa [rereads, he] using h2⟩

theorem afterReread_append_of_rereads_zero (t1 t2 : List Event) (h : rereads t1 = 0) (k : Nat) :
    afterReread k (t1 ++ t2) = afterReread k t2 := by
  induction t1 with
  | nil => rfl
  | cons e t ih =>
    by_cases he : isReread e = true
    · simp [rereads, he] at h
    · have h' : rereads t = 0 := by simpa [rereads, he] using h
      simpa [afterReread, he] using ih h'

theorem afterReread_of_rereads_zero (t : List Event) (h : rereads t = 0) (k : Nat) :
    afterReread k t = none := by
  simpa [afterReread] using afterReread_append_of_rereads_zero t [] h k

theorem afterReread_succ_cons (i : String) (t : List Event) (k : Nat) :
    afterReread (k + 1) (Event.GetTaskByID i :: t) = afterReread k t := by
  simp [afterReread, isReread]

theorem afterReread_zero_cons (i : String) (t : List Event) :
    afterReread 0 (Event.GetTaskByID i :: t) = some t := by
  simp [afterReread, isReread]

theorem fromCompleting_head (ctx : Context) (task : Task) (c : Calls) :
    ∃ rest, (fromCompleting ctx task c).trace = Event.GetTaskByID task.ID :: rest ∧
      rereads rest = 0 ∧ (fromCompleting ctx task c).out = Outcome.next () ∧
      (ctx.GetTaskByID c.GetTaskByID ≠ TaskRunning →
        rest = handlerTrace task.ID (ctx.GetTaskByID c.GetTaskByID) ++
          [Event.UnlockTask task.ID ctx.ProcessID]) ∧
      (ctx.GetTaskByID c.GetTaskByID = TaskRunning →
        (statusWrites rest = [TaskCompleted] ∨ statusWrites rest = []) ∧
        rest.getLast? = some (Event.UnlockTask task.ID ctx.ProcessID)) := by
  have hh := completeTask_run ctx task c
  generalize h : completeTask ctx task c = r at hh
  cases hh
  all_goals
    rw [fromCompleting, Exec.bind_next h, fromHandler_run]
  case notRunning hs =>
    refine ⟨_, rfl, ?_, rfl, fun _ => rfl, fun h' => absurd h' hs⟩
    simp only [handlerTrace]
    split_ifs <;> simp [rereads, isReread]
  all_goals
    refine ⟨_, rfl, ?_, rfl, ?_, ?_⟩
    · simp [handlerTrace, rereads, isReread]
    · intro h'
      exact absurd ‹ctx.GetTaskByID c.GetTaskByID = TaskRunning› h'
    · intro _
      simp [handlerTrace, statusWrites]

theorem fromEvaluating_head (ctx : Context) (task : Task) (paths : storage.TaskPaths)
    (dp : String) (c : Calls) :
    ∃ rest, (fromEvaluating ctx task paths dp c).trace = Event.GetTaskByID task.ID :: rest := by
  have hh := evaluatingStage_run ctx task paths dp c
  generalize h : evaluatingStage ctx task paths dp c = r at hh
  cases hh
  all_goals
    first
    | rw [fromEvaluating, Exec.bind_next h]
    | rw [fromEvaluating, Exec.bind_returned h]
    | rw [fromEvaluating, Exec.bind_panicked h]
  all_goals exact ⟨_, rfl⟩

theorem fromPredicting_head (ctx : Context) (task : Task) (img : String)
    (paths : storage.TaskPaths) (dp : String) (c : Calls) :
    ∃ rest, (fromPredicting ctx task img paths dp c).trace =
      Event.GetTaskByID task.ID :: rest := by
  have hh := predictingStage_run ctx task img paths dp c
  generalize h : predictingStage ctx task img paths dp c = r at hh
  cases hh
  all_goals
    first
    | rw [fromPredicting, Exec.bind_next h]
    | rw [fromPredicting, Exec.bind_returned h]
  all_goals exact ⟨_, rfl⟩

theorem afterReread_fromEvaluating (ctx : Context) (task : Task) (paths : storage.TaskPaths)
    (dp : String) (c : Calls) :
    (ctx.GetTaskByID c.GetTaskByID ≠ TaskRunning →
      (fromEvaluating ctx task paths dp c).trace =
        Event.GetTaskByID task.ID ::
          (fromCompleting ctx { task with Status := ctx.GetTaskByID c.GetTaskByID }
            c.reread).trace) ∧
    (∀ k post, afterReread (k + 1) (fromEvaluating ctx task paths dp c).trace = some post →
      ∃ task' c', afterReread k (fromCompleting ctx task' c').trace = some post ∧
        task'.ID = task.ID ∧ c'.GetTaskByID = c.GetTaskByID + 1) := by
  have hh := evaluatingStage_run ctx task paths dp c
  generalize h : evaluatingStage ctx task paths dp c = r at hh
  cases hh
  all_goals
    first
    | rw [fromEvaluating, Exec.bind_next h]
    | rw [fromEvaluating, Exec.bind_returned h]
    | rw [fromEvaluating, Exec.bind_panicked h]
  all_goals
    refine ⟨fun h' => ?_, fun k post hk => ?_⟩
  all_goals
    first
    | rfl
    | exact absurd ‹ctx.GetTaskByID c.GetTaskByID = TaskRunning› h'
    | skip
  all_goals
    simp [evalOkTrace, afterReread, isReread] at hk
  all_goals exact ⟨_, _, hk, rfl, rfl⟩

theorem fromTraining_head (ctx : Context) (task : Task) (img : String)
    (paths : storage.TaskPaths) (dp : String) (c : Calls) :
    ∃ rest, (fromTraining ctx task img paths dp c).trace =
      Event.GetTaskByID task.ID :: rest := by
  have hh := trainingStage_run ctx task img paths dp c
  generalize h : trainingStage ctx task img paths dp c = r at hh
  cases hh
  all_goals
    first
    | rw [fromTraining, Exec.bind_next h]
    | rw [fromTraining, Exec.bind_returned h]
  all_goals exact ⟨_, rfl⟩

theorem afterReread_fromPredicting (ctx : Context) (task : Task) (img : String)
    (paths : storage.TaskPaths) (dp : String) (c : Calls) :
    (ctx.GetTaskByID c.GetTaskByID ≠ TaskRunning →
      (fromPredicting ctx task img paths dp c).trace =
        Event.GetTaskByID task.ID ::
          (fromEvaluating ctx { task with Status := ctx.GetTaskByID c.GetTaskByID } paths dp
            c.reread).trace) ∧
    (∀ k post, afterReread (k + 1) (fromPredicting ctx task img paths dp c).trace = some post →
      ∃ task' c', afterReread k (fromEvaluating ctx task' paths dp c').trace = some post ∧
        task'.ID = task.ID ∧ c'.GetTaskByID = c.GetTaskByID + 1) := by
  have hh := predictingStage_run ctx task img paths dp c
  generalize h : predictingStage ctx task img paths dp c = r at hh
  cases hh
  all_goals
    first
    | rw [fromPredicting, Exec.bind_next h]
    | rw [fromPredicting, Exec.bind_returned h]
  all_goals
    refine ⟨fun h' => ?_, fun k post hk => ?_⟩
  all_goals
    first
    | rfl
    | exact absurd ‹ctx.GetTaskByID c.GetTaskByID = TaskRunning› h'
    | skip
  all_goals
    simp [predictOkTrace, afterReread, isReread] at hk
  all_goals exact ⟨_, _, hk, rfl, rfl⟩

theorem afterReread_fromTraining (ctx : Context) (task : Task) (img : String)
    (paths : storage.TaskPaths) (dp : String) (c : Calls) :
    (ctx.GetTaskByID c.GetTaskByID ≠ TaskRunning →
      (fromTraining ctx task img paths dp c).trace =
        Event.GetTaskByID task.ID ::
          (fromPredicting ctx { task with Status := ctx.GetTaskByID c.GetTaskByID } img paths
            dp c.reread).trace) ∧
    (∀ k post, afterReread (k + 1) (fromTraining ctx task img paths dp c).trace = some post →
      ∃ task' c', afterReread k (fromPredicting ctx task' img paths dp c').trace = some post ∧
        task'.ID = task.ID ∧ c'.GetTaskByID = c.GetTaskByID + 1) := by
  have hh := trainingStage_run ctx task img paths dp c
  generalize h : trainingStage ctx task img paths dp c = r at hh
  cases hh
  all_goals
    first
    | rw [fromTraining, Exec.bind_next h]
    | rw [fromTraining, Exec.bind_returned h]
  all_goals
    refine ⟨fun h' => ?_, fun k post hk => ?_⟩
  all_goals
    first
    | rfl
    | exact absurd ‹ctx.GetTaskByID c.GetTaskByID = TaskRunning› h'
    | skip
  all_goals
    simp [trainOkTrace, afterReread, isReread] at hk
  all_goals exact ⟨_, _, hk, rfl, rfl⟩

theorem afterReread_TaskRunWorker (ctx : Context) (task : Task) (c : Calls) (k : Nat)
    (post : List Event) (hk : afterReread k (TaskRunWorker ctx task c).trace = some post) :
    ∃ task' img paths dp c', afterReread k (fromTraining ctx task' img paths dp c').trace =
        some post ∧ task'.ID = task.ID ∧ c'.GetTaskByID = c.GetTaskByID := by
  have hh := TaskRunWorker_run ctx task c
  generalize TaskRunWorker ctx task c = r at hh hk
  cases hh
  all_goals
    simp [afterReread, isReread] at hk
  all_goals exact ⟨_, _, _, _, _, hk, rfl, rfl⟩

/-! ## Skipped stages -/

theorem SkipsProp_fromCompleting (ctx : Context) (task : Task) (c : Calls) :
    SkipsProp ctx task.ID c.GetTaskByID 1 (fromCompleting ctx task c).trace := by
  obtain ⟨rest, htrace, hrest, -, hnr, -⟩ := fromCompleting_head ctx task c
  intro k post hk
  rw [htrace] at hk
  cases k with
  | zero =>
    rw [afterReread_zero_cons] at hk
    cases hk
    refine ⟨by decide, fun hs => ⟨fun h => absurd h (by decide), fun _ => ?_⟩⟩
    exact hnr hs
  | succ k =>
    rw [afterReread_succ_cons, afterReread_of_rereads_zero _ hrest] at hk
    cases hk

theorem SkipsProp_step (ctx : Context) (id : String) (g m : Nat) (trace : List Event)
    (hm : 0 < m)
    (hzero : ctx.GetTaskByID g ≠ TaskRunning →
      ∃ rest, trace = Event.GetTaskByID id :: Event.GetTaskByID id :: rest)
    (hsucc : ∀ k post, afterReread (k + 1) trace = some post →
      ∃ t, afterReread k t = some post ∧ SkipsProp ctx id (g + 1) m t) :
    SkipsProp ctx id g (m + 1) trace := by
  intro k post hk
  cases k with
  | zero =>
    refine ⟨Nat.succ_pos _, fun hs => ⟨fun _ => ?_, fun h => ?_⟩⟩
    · obtain ⟨rest, hrest⟩ := hzero hs
      rw [hrest, afterReread_zero_cons] at hk
      cases hk
      exact ⟨rest, rfl⟩
    · omega
  | succ k =>
    obtain ⟨t, ht, hprop⟩ := hsucc k post hk
    obtain ⟨hlt, hrest⟩ := hprop k post ht
    refine ⟨Nat.succ_lt_succ hlt, fun hs => ?_⟩
    have hidx : g + 1 + k = g + (k + 1) := by omega
    rw [hidx] at hrest
    obtain ⟨h1, h2⟩ := hrest hs
    exact ⟨fun h => h1 (by omega), fun h => h2 (by omega)⟩

theorem SkipsProp_fromEvaluating (ctx : Context) (task : Task) (paths : storage.TaskPaths)
    (dp : String) (c : Calls) :
    SkipsProp ctx task.ID c.GetTaskByID 2 (fromEvaluating ctx task paths dp c).trace := by
  obtain ⟨hz, hs⟩ := afterReread_fromEvaluating ctx task paths dp c
  refine SkipsProp_step ctx task.ID c.GetTaskByID 1 _ (by decide) (fun hnr => ?_)
    (fun k post hk => ?_)
  · obtain ⟨rest, hrest, -⟩ := fromCompleting_head ctx
      { task with Status := ctx.GetTaskByID c.GetTaskByID } c.reread
    exact ⟨rest, by rw [hz hnr, hrest]⟩
  · obtain ⟨task', c', h1, h2, h3⟩ := hs k post hk
    refine ⟨_, h1, ?_⟩
    have := SkipsProp_fromCompleting ctx task' c'
    rwa [h2, h3] at this

theorem SkipsProp_fromPredicting (ctx : Context) (task : Task) (img : String)
    (paths : storage.TaskPaths) (dp : String) (c : Calls) :
    SkipsProp ctx task.ID c.GetTaskByID 3 (fromPredicting ctx task img paths dp c).trace := by
  obtain ⟨hz, hs⟩ := afterReread_fromPredicting ctx task img paths dp c
  refine SkipsProp_step ctx task.ID c.GetTaskByID 2 _ (by decide) (fun hnr => ?_)
    (fun k post hk => ?_)
  · obtain ⟨rest, hrest⟩ := fromEvaluating_head ctx
      { task with Status := ctx.GetTaskByID c.GetTaskByID } paths dp c.reread
    exact ⟨rest, by rw [hz hnr, hrest]⟩
  · obtain ⟨task', c', h1, h2, h3⟩ := hs k post hk
    refine ⟨_, h1, ?_⟩
    have := SkipsProp_fromEvaluating ctx task' paths dp c'
    rwa [h2, h3] at this

theorem SkipsProp_fromTraining (ctx : Context) (task : Task) (img : String)
    (paths : storage.TaskPaths) (dp : String) (c : Calls) :
    SkipsProp ctx task.ID c.GetTaskByID 4 (fromTraining ctx task img paths dp c).trace := by
  obtain ⟨hz, hs⟩ := afterReread_fromTraining ctx task img paths dp c
  refine SkipsProp_step ctx task.ID c.GetTaskByID 3 _ (by decide) (fun hnr => ?_)
    (fun k post hk => ?_)
  · obtain ⟨rest, hrest⟩ := fromPredicting_head ctx
      { task with Status := ctx.GetTaskByID c.GetTaskByID } img paths dp c.reread
    exact ⟨rest, by rw [hz hnr, hrest]⟩
  · obtain ⟨task', c', h1, h2, h3⟩ := hs k post hk
    refine ⟨_, h1, ?_⟩
    have := SkipsProp_fromPredicting ctx task' img paths dp c'
    rwa [h2, h3] at this

theorem SkipsProp_TaskRunWorker (ctx : Context) (task : Task) (c : Calls) :
    SkipsProp ctx task.ID c.GetTaskByID 4 (TaskRunWorker ctx task c).trace := by
  intro k post hk
  obtain ⟨task', img, paths, dp, c', h1, h2, h3⟩ := afterReread_TaskRunWorker ctx task c k post hk
  have := SkipsProp_fromTraining ctx task' img paths dp c'
  rw [h2, h3] at this
  exact this k post h1

theorem afterReread_next (trace : List Event) (k : Nat) (i : String) (post : List Event)
    (h : afterReread k trace = some (Event.GetTaskByID i :: post)) :
    afterReread (k + 1) trace = some post := by
  obtain ⟨pre, j, h1, h2⟩ := afterReread_some trace k _ h
  have h3 : trace = (pre ++ [Event.GetTaskByID j]) ++ Event.GetTaskByID i :: post := by
    simp [h1]
  rw [h3]
  exact afterReread_split _ _ _ _ (by simp [rereads, isReread] at h2 ⊢; exact h2)

theorem SkipsProp_honoured (ctx : Context) (id : String) (g : Nat) (trace : List Event)
    (st : TaskStatus) (hst : st ≠ TaskRunning) (hP : SkipsProp ctx id g 4 trace) :
    ∀ d k, k + d = 3 → ∀ post, afterReread k trace = some post →
      (∀ j, k ≤ j → j < 4 → ctx.GetTaskByID (g + j) = st) →
      afterReread 3 trace = some (handlerTrace id st ++ [Event.UnlockTask id ctx.ProcessID]) := by
  intro d
  induction d with
  | zero =>
    intro k hk post hpost hall
    have hk3 : k = 3 := by omega
    subst hk3
    have hs := hall 3 (le_refl _) (by decide)
    obtain ⟨-, h2⟩ := hP 3 post hpost
    have h3 := (h2 (by rw [hs]; exact hst)).2 rfl
    rw [hs] at h3
    rw [hpost, h3]
  | succ d ih =>
    intro k hk post hpost hall
    have hs := hall k (le_refl _) (by omega)
    obtain ⟨-, h2⟩ := hP k post hpost
    obtain ⟨post', hpost'⟩ := (h2 (by rw [hs]; exact hst)).1 (by omega)
    rw [hpost'] at hpost
    exact ih (k + 1) (by omega) post' (afterReread_next _ _ _ _ hpost)
      (fun j hj1 hj2 => hall j (by omega) hj2)

theorem afterReread_three_TaskRunWorker (ctx : Context) (task : Task) (c : Calls)
    (post : List Event) (hk : afterReread 3 (TaskRunWorker ctx task c).trace = some post) :
    rereads post = 0 ∧
    (ctx.GetTaskByID (c.GetTaskByID + 3) ≠ TaskRunning →
      post = handlerTrace task.ID (ctx.GetTaskByID (c.GetTaskByID + 3)) ++
        [Event.UnlockTask task.ID ctx.ProcessID]) ∧
    (ctx.GetTaskByID (c.GetTaskByID + 3) = TaskRunning →
      (statusWrites post = [TaskCompleted] ∨ statusWrites post = []) ∧
      post.getLast? = some (Event.UnlockTask task.ID ctx.ProcessID)) := by
  obtain ⟨t1, img, paths, dp, c1, h1, hid1, hc1⟩ := afterReread_TaskRunWorker ctx task c 3 post hk
  obtain ⟨t2, c2, h2, hid2, hc2⟩ := (afterReread_fromTraining ctx t1 img paths dp c1).2 2 post h1
  obtain ⟨t3, c3, h3, hid3, hc3⟩ := (afterReread_fromPredicting ctx t2 img paths dp c2).2 1 post h2
  obtain ⟨t4, c4, h4, hid4, hc4⟩ := (afterReread_fromEvaluating ctx t3 paths dp c3).2 0 post h3
  obtain ⟨rest, htrace, hrest, -, hnr, hr⟩ := fromCompleting_head ctx t4 c4
  rw [htrace, afterReread_zero_cons] at h4
  cases h4
  have hidx : c4.GetTaskByID = c.GetTaskByID + 3 := by omega
  have hid : t4.ID = task.ID := by rw [hid4, hid3, hid2, hid1]
  rw [hidx, hid] at hnr hr
  exact ⟨hrest, hnr, hr⟩

/-! ## Failures -/

theorem quietAfterError_split (pre post : List Event) (e : Event) (he : isErrorWrite e = true)
    (h : quietAfterError (pre ++ e :: post) = true) : ∀ ev ∈ post, ev = Event.Close := by
  induction pre with
  | nil =>
    simp only [List.nil_append, quietAfterError, he, if_true, List.all_eq_true] at h
    intro ev hev
    have := h ev hev
    cases ev <;> simp [isClose] at this ⊢
  | cons x pre ih =>
    by_cases hx : isErrorWrite x = true
    · simp only [List.cons_append, quietAfterError, hx, if_true, List.all_eq_true] at h
      have := h e (by simp)
      cases e <;> simp [isClose, isErrorWrite] at this he
    · simp only [List.cons_append, quietAfterError, hx] at h
      exact ih (by simpa using h)

theorem loadFailuresHandled_of_loads_zero (ctx : Context) (id : String) (t : List Event)
    (h : loads t = 0) : ∀ n, loadFailuresHandled ctx id n t := by
  induction t with
  | nil => intro n; simp [loadFailuresHandled]
  | cons e t ih =>
    intro n
    by_cases he : isLoad e = true
    · simp [loads, he] at h
    · have h' : loads t = 0 := by simpa [loads, he] using h
      simpa [loadFailuresHandled, he] using ih h' n

theorem loadFailuresHandled_split (ctx : Context) (id : String) (pre post : List Event)
    (path err : String) :
    ∀ n, loadFailuresHandled ctx id n (pre ++ Event.LoadImage path :: post) →
      ctx.LoadImage (n + loads pre) = Except.error err →
      ∃ m, post = [Event.WriteError m err, Event.UpdateTaskStatus id TaskError err] := by
  induction pre with
  | nil =>
    intro n h herr
    simp only [loads, List.countP_nil, Nat.add_zero] at herr
    simpa [loadFailuresHandled, isLoad, herr] using h
  | cons x pre ih =>
    intro n h herr
    by_cases hx : isLoad x = true
    · have hidx : n + loads (x :: pre) = n + 1 + loads pre := by
        simp [loads, hx]; omega
      rw [hidx] at herr
      simp only [List.cons_append, loadFailuresHandled, hx, if_true] at h
      cases hn : ctx.LoadImage n with
      | error e' =>
        rw [hn] at h
        obtain ⟨m, hm⟩ := h
        exfalso
        have hmem : Event.LoadImage path ∈
            [Event.WriteError m e', Event.UpdateTaskStatus id TaskError e'] := by
          rw [← hm]; simp
        simp at hmem
      | ok v =>
        rw [hn] at h
        exact ih _ h herr
    · have hidx : n + loads (x :: pre) = n + loads pre := by
        simp [loads, hx]
      rw [hidx] at herr
      simp only [List.cons_append, loadFailuresHandled, hx] at h
      exact ih _ (by simpa using h) herr

theorem quietAfterError_of_no_error (t : List Event) (h : t.any isErrorWrite = false) :
    quietAfterError t = true := by
  induction t with
  | nil => rfl
  | cons e t ih =>
    simp only [List.any_cons, Bool.or_eq_false_iff] at h
    simp [quietAfterError, h.1, ih h.2]

theorem FailProp_fromCompleting (ctx : Context) (task : Task) (c : Calls) :
    (fromCompleting ctx task c).trace.any isErrorWrite = false ∧
    loads (fromCompleting ctx task c).trace = 0 := by
  have hh := completeTask_run ctx task c
  generalize h : completeTask ctx task c = r at hh
  cases hh
  all_goals
    rw [fromCompleting, Exec.bind_next h, fromHandler_run]
    simp only [handlerTrace]
    split_ifs <;> simp [isErrorWrite, loads, isLoad]

theorem FailProp_fromEvaluating (ctx : Context) (task : Task) (paths : storage.TaskPaths)
    (dp : String) (c : Calls) (id : String) (n : Nat) (hid : task.ID = id)
    (hn : c.LoadImage = n) :
    FailProp (fromEvaluating ctx task paths dp c) ∧
    loadFailuresHandled ctx id n (fromEvaluating ctx task paths dp c).trace := by
  subst hid hn
  have hh := evaluatingStage_run ctx task paths dp c
  generalize h : evaluatingStage ctx task paths dp c = r at hh
  cases hh
  all_goals
    first
    | rw [fromEvaluating, Exec.bind_next h]
    | rw [fromEvaluating, Exec.bind_returned h]
    | rw [fromEvaluating, Exec.bind_panicked h]
  all_goals
    simp [*, FailProp, quietAfterError, isErrorWrite, isClose, isQualityWrite, evalOkTrace,
      loadFailuresHandled, isLoad, (FailProp_fromCompleting ctx _ _).1,
      quietAfterError_of_no_error _ (FailProp_fromCompleting ctx _ _).1,
      loadFailuresHandled_of_loads_zero ctx _ _ (FailProp_fromCompleting ctx _ _).2]

theorem quietAfterError_append (A T : List Event) (hA : A.any isErrorWrite = false) :
    quietAfterError (A ++ T) = quietAfterError T := by
  induction A with
  | nil => rfl
  | cons e A ih =>
    simp only [List.any_cons, Bool.or_eq_false_iff] at hA
    simp [quietAfterError, hA.1, ih hA.2]

theorem FailProp_prepend (A : List Event) (r : Run Unit) (hA1 : A.any isErrorWrite = false)
    (hA2 : A.all (fun e => !isQualityWrite e) = true) (hr : FailProp r) :
    FailProp ⟨r.out, r.calls, A ++ r.trace⟩ := by
  obtain ⟨h1, h2⟩ := hr
  refine ⟨by rw [quietAfterError_append A _ hA1]; exact h1, fun h => ?_⟩
  simp only [List.any_append, hA1, Bool.false_or] at h
  obtain ⟨h3, h4⟩ := h2 h
  exact ⟨h3, by simp only [List.all_append, hA2, h4, Bool.and_self]⟩

theorem loadFailuresHandled_prepend (ctx : Context) (id : String) (A T : List Event)
    (hA : loads A = 0) (n : Nat) (h : loadFailuresHandled ctx id n T) :
    loadFailuresHandled ctx id n (A ++ T) := by
  induction A with
  | nil => exact h
  | cons e A ih =>
    by_cases he : isLoad e = true
    · simp [loads, he] at hA
    · have h' : loads A = 0 := by simpa [loads, he] using hA
      simpa [loadFailuresHandled, he] using ih h'

theorem FailProp_fromPredicting (ctx : Context) (task : Task) (img : String)
    (paths : storage.TaskPaths) (dp : String) (c : Calls) (id : String) (n : Nat)
    (hid : task.ID = id) (hn : c.LoadImage = n) :
    FailProp (fromPredicting ctx task img paths dp c) ∧
    loadFailuresHandled ctx id n (fromPredicting ctx task img paths dp c).trace := by
  subst hid hn
  have hh := predictingStage_run ctx task img paths dp c
  generalize h : predictingStage ctx task img paths dp c = r at hh
  cases hh
  all_goals
    first
    | rw [fromPredicting, Exec.bind_next h]
    | rw [fromPredicting, Exec.bind_returned h]
  case notRunning | skipped | predicted =>
    exact ⟨FailProp_prepend _ _ (by simp [isErrorWrite, predictOkTrace])
        (by simp [isQualityWrite, predictOkTrace])
        (FailProp_fromEvaluating ctx _ paths dp _ _ _ (by rfl) (by rfl)).1,
      loadFailuresHandled_prepend ctx _ _ _ (by simp [loads, isLoad, predictOkTrace]) _
        (FailProp_fromEvaluating ctx _ paths dp _ _ _ (by rfl) (by rfl)).2⟩
  all_goals
    simp [FailProp, quietAfterError, isErrorWrite, isClose, isQualityWrite, predictOkTrace,
      loadFailuresHandled, isLoad]

theorem FailProp_fromTraining (ctx : Context) (task : Task) (img : String)
    (paths : storage.TaskPaths) (dp : String) (c : Calls) (id : String) (n : Nat)
    (hid : task.ID = id) (hn : c.LoadImage = n) :
    FailProp (fromTraining ctx task img paths dp c) ∧
    loadFailuresHandled ctx id n (fromTraining ctx task img paths dp c).trace := by
  subst hid hn
  have hh := trainingStage_run ctx task img paths dp c
  generalize h : trainingStage ctx task img paths dp c = r at hh
  cases hh
  all_goals
    first
    | rw [fromTraining, Exec.bind_next h]
    | rw [fromTraining, Exec.bind_returned h]
  case notRunning | skipped | trained =>
    exact ⟨FailProp_prepend _ _ (by simp [isErrorWrite, trainOkTrace])
        (by simp [isQualityWrite, trainOkTrace])
        (FailProp_fromPredicting ctx _ img paths dp _ _ _ (by rfl) (by rfl)).1,
      loadFailuresHandled_prepend ctx _ _ _ (by simp [loads, isLoad, trainOkTrace]) _
        (FailProp_fromPredicting ctx _ img paths dp _ _ _ (by rfl) (by rfl)).2⟩
  all_goals
    simp [FailProp, quietAfterError, isErrorWrite, isClose, isQualityWrite, trainOkTrace,
      loadFailuresHandled, isLoad]

theorem FailProp_TaskRunWorker (ctx : Context) (task : Task) (c : Calls) :
    FailProp (TaskRunWorker ctx task c) ∧
    loadFailuresHandled ctx task.ID c.LoadImage (TaskRunWorker ctx task c).trace := by
  have hh := TaskRunWorker_run ctx task c
  generalize TaskRunWorker ctx task c = r at hh
  cases hh
  case resumedEvaluating dp paths hd hp hst =>
    exact ⟨FailProp_prepend _ _ (by simp [isErrorWrite]) (by simp [isQualityWrite])
        (FailProp_fromTraining ctx _ _ paths dp _ _ _ (by rfl) (by rfl)).1,
      loadFailuresHandled_prepend ctx _ _ _ (by simp [loads, isLoad]) _
        (FailProp_fromTraining ctx _ _ paths dp _ _ _ (by rfl) (by rfl)).2⟩
  case fromBegin dp paths name hd hp hst hl =>
    refine ⟨FailProp_prepend _ _ (by simp [isErrorWrite]) (by simp [isQualityWrite])
        (FailProp_fromTraining ctx _ _ paths dp _ _ _ (by rfl) (by rfl)).1, ?_⟩
    have ih := (FailProp_fromTraining ctx { task with Stage := TaskStageTraining } name paths dp
      { c with LoadImage := c.LoadImage + 1 } task.ID (c.LoadImage + 1) rfl rfl).2
    simpa [loadFailuresHandled, isLoad, hl] using ih
  case resumed dp paths name hd hp hst hb hl =>
    refine ⟨FailProp_prepend _ _ (by simp [isErrorWrite]) (by simp [isQualityWrite])
        (FailProp_fromTraining ctx _ _ paths dp _ _ _ (by rfl) (by rfl)).1, ?_⟩
    have ih := (FailProp_fromTraining ctx task name paths dp
      { c with LoadImage := c.LoadImage + 1 } task.ID (c.LoadImage + 1) rfl rfl).2
    simpa [loadFailuresHandled, isLoad, hl] using ih
  all_goals
    simp [*, FailProp, quietAfterError, isErrorWrite, isClose, isQualityWrite,
      loadFailuresHandled, isLoad]

/-! ## The reaper -/

theorem split_unique {α : Type} (p : α → Bool) :
    ∀ (a a' b b' : List α) (x x' : α), a ++ x :: b = a' ++ x' :: b' →
      p x = true → p x' = true → (∀ y ∈ a, p y = false) → (∀ y ∈ b, p y = false) →
      a = a' ∧ x = x' ∧ b = b' := by
  intro a
  induction a with
  | nil =>
    intro a' b b' x x' h hx hx' _ hb
    cases a' with
    | nil =>
      simp only [List.nil_append, List.cons.injEq] at h
      exact ⟨rfl, h.1, h.2⟩
    | cons y a' =>
      simp only [List.nil_append, List.cons_append, List.cons.injEq] at h
      have : p x' = false := hb x' (by rw [h.2]; simp)
      rw [hx'] at this
      cases this
  | cons z a ih =>
    intro a' b b' x x' h hx hx' ha hb
    cases a' with
    | nil =>
      simp only [List.nil_append, List.cons_append, List.cons.injEq] at h
      have : p z = false := ha z (by simp)
      rw [h.1, hx'] at this
      cases this
    | cons y a' =>
      simp only [List.cons_append, List.cons.injEq] at h
      obtain ⟨h1, h2, h3⟩ := ih a' b b' x x' h.2 hx hx'
        (fun w hw => ha w (by simp [hw])) hb
      exact ⟨by rw [h.1, h1], h2, h3⟩

theorem reaperTail_no_completed (ctx : Context) (job : String) :
    (reaperTail ctx job).all (fun e => !isCompletedWrite e) = true := by
  unfold reaperTail
  split_ifs <;> simp [isCompletedWrite]

theorem ReaperProp_prepend (ctx : Context) (id job : String) (A T : List Event)
    (hA1 : A.all (fun e => !isCompletedWrite e) = true)
    (hA2 : A.all (fun e => !isReaperCall e) = true) (h : ReaperProp ctx id job T) :
    ReaperProp ctx id job (A ++ T) := by
  rcases h with ⟨h1, h2⟩ | ⟨pre, h1, h2, h3⟩
  · left
    exact ⟨by simp only [List.all_append, hA1, h1, Bool.and_self],
      by simp only [List.all_append, hA2, h2, Bool.and_self]⟩
  · right
    refine ⟨A ++ pre, by rw [h1]; simp only [List.append_assoc], ?_, ?_⟩
    · simp only [List.all_append, hA1, h2, Bool.and_self]
    · simp only [List.all_append, hA2, h3, Bool.and_self]

theorem ReaperProp_fromCompleting (ctx : Context) (task : Task) (c : Calls) (id job : String)
    (hid : task.ID = id) (hjob : task.Job = job) :
    ReaperProp ctx id job (fromCompleting ctx task c).trace := by
  subst hid hjob
  have hh := completeTask_run ctx task c
  generalize h : completeTask ctx task c = r at hh
  cases hh
  all_goals
    rw [fromCompleting, Exec.bind_next h, fromHandler_run]
  case notRunning hs =>
    left
    simp only [handlerTrace]
    split_ifs <;> simp [isCompletedWrite, isReaperCall]
  case skipped hs hst =>
    left
    simp [handlerTrace, isCompletedWrite, isReaperCall]
  all_goals
    right
    refine ⟨[Event.GetTaskByID task.ID], ?_, by simp [isCompletedWrite],
      by simp [isReaperCall]⟩
    simp [*, handlerTrace, reaperTail]

theorem ReaperProp_fromEvaluating (ctx : Context) (task : Task) (paths : storage.TaskPaths)
    (dp : String) (c : Calls) (id job : String) (hid : task.ID = id) (hjob : task.Job = job) :
    ReaperProp ctx id job (fromEvaluating ctx task paths dp c).trace := by
  subst hid hjob
  have hh := evaluatingStage_run ctx task paths dp c
  generalize h : evaluatingStage ctx task paths dp c = r at hh
  cases hh
  all_goals
    first
    | rw [fromEvaluating, Exec.bind_next h]
    | rw [fromEvaluating, Exec.bind_returned h]
    | rw [fromEvaluating, Exec.bind_panicked h]
  case notRunning | skipped | evaluated =>
    exact ReaperProp_prepend ctx _ _ _ _ (by simp [isCompletedWrite, evalOkTrace])
      (by simp [isReaperCall, evalOkTrace])
      (ReaperProp_fromCompleting ctx _ _ _ _ (by rfl) (by rfl))
  all_goals
    left
    simp [isCompletedWrite, isReaperCall, evalOkTrace]

theorem ReaperProp_fromPredicting (ctx : Context) (task : Task) (img : String)
    (paths : storage.TaskPaths) (dp : String) (c : Calls) (id job : String)
    (hid : task.ID = id) (hjob : task.Job = job) :
    ReaperProp ctx id job (fromPredicting ctx task img paths dp c).trace := by
  subst hid hjob
  have hh := predictingStage_run ctx task img paths dp c
  generalize h : predictingStage ctx task img paths dp c = r at hh
  cases hh
  all_goals
    first
    | rw [fromPredicting, Exec.bind_next h]
    | rw [fromPredicting, Exec.bind_returned h]
  case notRunning | skipped | predicted =>
    exact ReaperProp_prepend ctx _ _ _ _ (by simp [isCompletedWrite, predictOkTrace])
      (by simp [isReaperCall, predictOkTrace])
      (ReaperProp_fromEvaluating ctx _ paths dp _ _ _ (by rfl) (by rfl))
  all_goals
    left
    simp [isCompletedWrite, isReaperCall, predictOkTrace]

theorem ReaperProp_fromTraining (ctx : Context) (task : Task) (img : String)
    (paths : storage.TaskPaths) (dp : String) (c : Calls) (id job : String)
    (hid : task.ID = id) (hjob : task.Job = job) :
    ReaperProp ctx id job (fromTraining ctx task img paths dp c).trace := by
  subst hid hjob
  have hh := trainingStage_run ctx task img paths dp c
  generalize h : trainingStage ctx task img paths dp c = r at hh
  cases hh
  all_goals
    first
    | rw [fromTraining, Exec.bind_next h]
    | rw [fromTraining, Exec.bind_returned h]
  case notRunning | skipped | trained =>
    exact ReaperProp_prepend ctx _ _ _ _ (by simp [isCompletedWrite, trainOkTrace])
      (by simp [isReaperCall, trainOkTrace])
      (ReaperProp_fromPredicting ctx _ img paths dp _ _ _ (by rfl) (by rfl))
  all_goals
    left
    simp [isCompletedWrite, isReaperCall, trainOkTrace]

theorem ReaperProp_TaskRunWorker (ctx : Context) (task : Task) (c : Calls) :
    ReaperProp ctx task.ID task.Job (TaskRunWorker ctx task c).trace := by
  have hh := TaskRunWorker_run ctx task c
  generalize TaskRunWorker ctx task c = r at hh
  cases hh
  case fromBegin | resumed | resumedEvaluating =>
    exact ReaperProp_prepend ctx _ _ _ _ (by simp [isCompletedWrite])
      (by simp [isReaperCall])
      (ReaperProp_fromTraining ctx _ _ _ _ _ _ _ (by rfl) (by rfl))
  all_goals
    left
    simp [isCompletedWrite, isReaperCall]

/-! ## The quality write -/

theorem runModelEvaluationAndGetQuality_ok (ctx : Context) (task : Task) (img : String)
    (paths : storage.TaskPaths) (dp : String) (subdir : String) (c : Calls) (rd : Stdout)
    (l : String) (q : Float64)
    (hr : ctx.RunContainerAndCollectOutput c.RunContainer = Except.ok rd)
    (hlast : (scanLines rd).getLast? = some l)
    (hq : ctx.ParseFloat (TrimSpace l) = Except.ok q)
    (hw : ctx.WriteFile c.WriteFile = none) :
    runModelEvaluationAndGetQuality ctx task img paths dp subdir c =
      ⟨Outcome.next (q, none),
       { c with RunContainer := c.RunContainer + 1, WriteFile := c.WriteFile + 1 },
       evalOkTrace ctx img paths dp subdir rd⟩ := by
  simp [runModelEvaluationAndGetQuality, bind, Exec.bind, pure, Exec.pure, emit, goPanic,
    repeatUntilSuccess, RunContainerAndCollectOutput, WriteFile, hr, evalCommand, hlast, hq, hw,
    evalOkTrace]

theorem evalOkTrace_quiet (ctx : Context) (img : String) (paths : storage.TaskPaths)
    (dp subdir : String) (rd : Stdout) :
    (∀ ev ∈ evalOkTrace ctx img paths dp subdir rd, isQualityWrite ev = false) ∧
    stageCommits (evalOkTrace ctx img paths dp subdir rd) = [] := by
  simp [evalOkTrace, isQualityWrite, stageCommits]

theorem no_quality_fromCompleting (ctx : Context) (task : Task) (c : Calls) :
    ∀ ev ∈ (fromCompleting ctx task c).trace, isQualityWrite ev = false := by
  have hh := completeTask_run ctx task c
  generalize h : completeTask ctx task c = r at hh
  cases hh
  all_goals
    rw [fromCompleting, Exec.bind_next h, fromHandler_run]
    simp only [handlerTrace]
    split_ifs <;> simp [isQualityWrite]

theorem QualityShape_prepend (ctx : Context) (id : String) (A T : List Event)
    (hA1 : ∀ ev ∈ A, isQualityWrite ev = false) (hA2 : TaskStageEnd ∉ stageCommits A)
    (h : QualityShape ctx id T) : QualityShape ctx id (A ++ T) := by
  rcases h with ⟨h1, h2⟩ | ⟨pre, post, t, name, paths, dp, c1, q, qt, h1, h2, h3, h4, h5, h6, h7⟩
  · left
    refine ⟨fun ev hev => ?_, ?_⟩
    · rcases List.mem_append.mp hev with h | h
      · exact hA1 ev h
      · exact h1 ev h
    · rw [stageCommits_append]
      simp [hA2, h2]
  · right
    refine ⟨A ++ pre, post, t, name, paths, dp, c1, q, qt, h1, h2, h3, ?_, ?_, ?_, h7⟩
    · rw [h4]
      simp only [List.append_assoc]
    · intro ev hev
      rw [List.append_assoc] at hev
      rcases List.mem_append.mp hev with h | h
      · exact hA1 ev h
      · exact h5 ev h
    · rw [List.append_assoc, stageCommits_append]
      simp [hA2, h6]

theorem QualityShape_fromEvaluating (ctx : Context) (task : Task) (paths : storage.TaskPaths)
    (dp : String) (c : Calls) (id : String) (hid : task.ID = id) :
    QualityShape ctx id (fromEvaluating ctx task paths dp c).trace := by
  subst hid
  have hh := evaluatingStage_run ctx task paths dp c
  generalize h : evaluatingStage ctx task paths dp c = r at hh
  cases hh
  all_goals
    first
    | rw [fromEvaluating, Exec.bind_next h]
    | rw [fromEvaluating, Exec.bind_returned h]
    | rw [fromEvaluating, Exec.bind_panicked h]
  case evaluated name rd l q rd2 l2 q2 hs hst hl hr hlast hq hw hr2 hlast2 hq2 hw2 =>
    right
    have e1 := runModelEvaluationAndGetQuality_ok ctx
      { task with Status := TaskRunning } name paths dp "train"
      { c.reread with LoadImage := c.LoadImage + 1 } rd l q hr hlast hq hw
    have e2 := runModelEvaluationAndGetQuality_ok ctx
      { task with Status := TaskRunning } name paths dp "val"
      { c.reread with LoadImage := c.LoadImage + 1, RunContainer := c.RunContainer + 1,
                      WriteFile := c.WriteFile + 1 } rd2 l2 q2 hr2 hlast2 hq2 hw2
    refine ⟨[Event.GetTaskByID task.ID, Event.WriteInfo "MODEL EVALUATING STARTED",
        Event.LoadImage (ctx.getModuleImagePath task.Objective ModuleObjective)],
      Event.WriteInfo "MODEL EVALUATING COMPLETED" ::
        Event.UpdateTaskStage task.ID TaskStageEnd ::
        (fromCompleting ctx { task with Stage := TaskStageEnd, Status := TaskRunning }
          { c.reread with LoadImage := c.LoadImage + 1, RunContainer := c.RunContainer + 2,
                          WriteFile := c.WriteFile + 2 }).trace,
      { task with Status := TaskRunning }, name, paths, dp,
      { c.reread with LoadImage := c.LoadImage + 1 }, q2, q, rfl, ?_, ?_, ?_, ?_, ?_, ?_⟩
    · rw [e1]
    · rw [e1]
      exact congrArg Run.out e2
    · rw [e1]
      have e2' : (runModelEvaluationAndGetQuality ctx { task with Status := TaskRunning } name
          paths dp "val"
          { c.reread with LoadImage := c.LoadImage + 1, RunContainer := c.RunContainer + 1,
                          WriteFile := c.WriteFile + 1 }).trace =
          evalOkTrace ctx name paths dp "val" rd2 := congrArg Run.trace e2
      simp only [List.append_assoc, List.cons_append, List.nil_append]
      erw [e2']
    · rw [e1]
      erw [congrArg Run.trace e2]
      simp [isQualityWrite, evalOkTrace]
    · rw [e1]
      erw [congrArg Run.trace e2]
      simp [stageCommits, stageCommits_append, evalOkTrace]
    · intro ev hev
      simp only [List.mem_cons] at hev
      rcases hev with rfl | rfl | hev
      · rfl
      · rfl
      · exact no_quality_fromCompleting ctx _ _ ev hev
  case notRunning | skipped =>
    left
    simp [isQualityWrite, stageCommits, stageCommits_append, stageCommits_fromCompleting]
    exact no_quality_fromCompleting ctx _ _
  all_goals
    left
    simp [isQualityWrite, stageCommits, stageCommits_append, evalOkTrace]

theorem QualityShape_fromPredicting (ctx : Context) (task : Task) (img : String)
    (paths : storage.TaskPaths) (dp : String) (c : Calls) (id : String) (hid : task.ID = id) :
    QualityShape ctx id (fromPredicting ctx task img paths dp c).trace := by
  subst hid
  have hh := predictingStage_run ctx task img paths dp c
  generalize h : predictingStage ctx task img paths dp c = r at hh
  cases hh
  all_goals
    first
    | rw [fromPredicting, Exec.bind_next h]
    | rw [fromPredicting, Exec.bind_returned h]
  case notRunning | skipped | predicted =>
    exact QualityShape_prepend ctx _ _ _ (by simp [isQualityWrite, predictOkTrace])
      (by simp [stageCommits, stageCommits_append, predictOkTrace])
      (QualityShape_fromEvaluating ctx _ paths dp _ _ (by rfl))
  all_goals
    left
    simp [isQualityWrite, stageCommits, stageCommits_append, predictOkTrace]

theorem QualityShape_fromTraining (ctx : Context) (task : Task) (img : String)
    (paths : storage.TaskPaths) (dp : String) (c : Calls) (id : String) (hid : task.ID = id) :
    QualityShape ctx id (fromTraining ctx task img paths dp c).trace := by
  subst hid
  have hh := trainingStage_run ctx task img paths dp c
  generalize h : trainingStage ctx task img paths dp c = r at hh
  cases hh
  all_goals
    first
    | rw [fromTraining, Exec.bind_next h]
    | rw [fromTraining, Exec.bind_returned h]
  case notRunning | skipped | trained =>
    exact QualityShape_prepend ctx _ _ _ (by simp [isQualityWrite, trainOkTrace])
      (by simp [stageCommits, stageCommits_append, trainOkTrace])
      (QualityShape_fromPredicting ctx _ img paths dp _ _ (by rfl))
  all_goals
    left
    simp [isQualityWrite, stageCommits, stageCommits_append, trainOkTrace]

theorem QualityShape_TaskRunWorker (ctx : Context) (task : Task) (c : Calls) :
    QualityShape ctx task.ID (TaskRunWorker ctx task c).trace := by
  have hh := TaskRunWorker_run ctx task c
  generalize TaskRunWorker ctx task c = r at hh
  cases hh
  case fromBegin | resumed | resumedEvaluating =>
    exact QualityShape_prepend ctx _ _ _ (by simp [isQualityWrite])
      (by simp [stageCommits])
      (QualityShape_fromTraining ctx _ _ _ _ _ _ (by rfl))
  all_goals
    left
    simp [isQualityWrite, stageCommits]

theorem completedInEnd_split (pre post : List Event) (id msg : String) :
    ∀ cur : TaskStage,
      completedInEnd cur (pre ++ Event.UpdateTaskStatus id TaskCompleted msg :: post) = true →
      currentStage cur pre = TaskStageEnd := by
  induction pre with
  | nil =>
    intro cur h
    simp [completedInEnd] at h
    simpa [currentStage] using h.1
  | cons e pre ih =>
    intro cur h
    cases e
    case UpdateTaskStatus i s m =>
      cases s <;> simp [completedInEnd, currentStage] at h ⊢ <;>
        first
        | exact ih _ h
        | exact ih _ h.2
    all_goals
      simp [completedInEnd, currentStage] at h ⊢
      exact ih _ h

theorem qualityBeforeCompleted_split (pre post : List Event) (id msg : String) :
    ∀ written : Bool,
      qualityBeforeCompleted written
        (pre ++ Event.UpdateTaskStatus id TaskCompleted msg :: post) = true →
      written = true ∨ ∃ ev ∈ pre, isQualityWrite ev = true := by
  induction pre with
  | nil =>
    intro w h
    simp [qualityBeforeCompleted] at h
    exact Or.inl h.1
  | cons e pre ih =>
    intro w h
    cases e
    case UpdateTaskStatus i s m =>
      cases s <;> simp [qualityBeforeCompleted] at h <;>
        first
        | exact Or.inl h.1
        | (rcases ih _ h with h1 | ⟨ev, h1, h2⟩
           · exact Or.inl h1
           · exact Or.inr ⟨ev, List.mem_cons_of_mem _ h1, h2⟩)
    case UpdateTask i q qt =>
      exact Or.inr ⟨_, List.mem_cons_self _ _, rfl⟩
    all_goals
      simp [qualityBeforeCompleted] at h
      rcases ih _ h with h1 | ⟨ev, h1, h2⟩
      · exact Or.inl h1
      · exact Or.inr ⟨ev, List.mem_cons_of_mem _ h1, h2⟩

theorem completed_fromCompleting (ctx : Context) (task : Task) (c : Calls)
    (cur : TaskStage) (written : Bool) (hcur : task.Stage = cur)
    (hw : task.Stage = TaskStageEnd → written = true) :
    completedInEnd cur (fromCompleting ctx task c).trace = true ∧
    qualityBeforeCompleted written (fromCompleting ctx task c).trace = true := by
  subst hcur
  have hh := completeTask_run ctx task c
  generalize h : completeTask ctx task c = r at hh
  cases hh
  all_goals
    rw [fromCompleting, Exec.bind_next h, fromHandler_run]
    simp only [handlerTrace]
    split_ifs <;> simp [*, completedInEnd, qualityBeforeCompleted]

theorem completed_fromEvaluating (ctx : Context) (task : Task)
    (paths : storage.TaskPaths) (dp : String) (c : Calls) (cur : TaskStage) (written : Bool)
    (hcur : task.Stage = cur) (hw : task.Stage = TaskStageEnd → written = true) :
    completedInEnd cur (fromEvaluating ctx task paths dp c).trace = true ∧
    qualityBeforeCompleted written (fromEvaluating ctx task paths dp c).trace = true := by
  subst hcur
  have hh := evaluatingStage_run ctx task paths dp c
  generalize h : evaluatingStage ctx task paths dp c = r at hh
  cases hh
  all_goals
    first
    | rw [fromEvaluating, Exec.bind_next h]
    | rw [fromEvaluating, Exec.bind_returned h]
    | rw [fromEvaluating, Exec.bind_panicked h]
  case evaluated =>
    simp only [completedInEnd, qualityBeforeCompleted, evalOkTrace, List.append_assoc,
      List.cons_append, List.nil_append]
    exact completed_fromCompleting ctx _ _ _ _ rfl (fun _ => rfl)
  case notRunning | skipped =>
    simp only [completedInEnd, qualityBeforeCompleted, List.append_assoc,
      List.cons_append, List.nil_append]
    exact completed_fromCompleting ctx _ _ _ _ rfl hw
  all_goals
    simp [completedInEnd, qualityBeforeCompleted, evalOkTrace]

theorem completed_fromPredicting (ctx : Context) (task : Task) (img : String)
    (paths : storage.TaskPaths) (dp : String) (c : Calls) (cur : TaskStage) (written : Bool)
    (hcur : task.Stage = cur) (hw : task.Stage = TaskStageEnd → written = true) :
    completedInEnd cur (fromPredicting ctx task img paths dp c).trace = true ∧
    qualityBeforeCompleted written (fromPredicting ctx task img paths dp c).trace = true := by
  subst hcur
  have hh := predictingStage_run ctx task img paths dp c
  generalize h : predictingStage ctx task img paths dp c = r at hh
  cases hh
  all_goals
    first
    | rw [fromPredicting, Exec.bind_next h]
    | rw [fromPredicting, Exec.bind_returned h]
  case predicted =>
    simp only [completedInEnd, qualityBeforeCompleted, predictOkTrace, List.append_assoc,
      List.cons_append, List.nil_append]
    exact completed_fromEvaluating ctx _ _ _ _ _ _ rfl (by simp)
  case notRunning | skipped =>
    simp only [completedInEnd, qualityBeforeCompleted, List.append_assoc,
      List.cons_append, List.nil_append]
    exact completed_fromEvaluating ctx _ _ _ _ _ _ rfl hw
  all_goals
    simp [completedInEnd, qualityBeforeCompleted, predictOkTrace]

theorem completed_fromTraining (ctx : Context) (task : Task) (img : String)
    (paths : storage.TaskPaths) (dp : String) (c : Calls) (cur : TaskStage) (written : Bool)
    (hcur : task.Stage = cur) (hw : task.Stage = TaskStageEnd → written = true) :
    completedInEnd cur (fromTraining ctx task img paths dp c).trace = true ∧
    qualityBeforeCompleted written (fromTraining ctx task img paths dp c).trace = true := by
  subst hcur
  have hh := trainingStage_run ctx task img paths dp c
  generalize h : trainingStage ctx task img paths dp c = r at hh
  cases hh
  all_goals
    first
    | rw [fromTraining, Exec.bind_next h]
    | rw [fromTraining, Exec.bind_returned h]
  case trained =>
    simp only [completedInEnd, qualityBeforeCompleted, trainOkTrace, List.append_assoc,
      List.cons_append, List.nil_append]
    exact completed_fromPredicting ctx _ _ _ _ _ _ _ rfl (by simp)
  case notRunning | skipped =>
    simp only [completedInEnd, qualityBeforeCompleted, List.append_assoc,
      List.cons_append, List.nil_append]
    exact completed_fromPredicting ctx _ _ _ _ _ _ _ rfl hw
  all_goals
    simp [completedInEnd, qualityBeforeCompleted, trainOkTrace]

theorem completed_TaskRunWorker (ctx : Context) (task : Task) (c : Calls) :
    completedInEnd task.Stage (TaskRunWorker ctx task c).trace = true ∧
    qualityBeforeCompleted (decide (task.Stage = TaskStageEnd))
      (TaskRunWorker ctx task c).trace = true := by
  have hh := TaskRunWorker_run ctx task c
  generalize TaskRunWorker ctx task c = r at hh
  cases hh
  case fromBegin =>
    simp only [completedInEnd, qualityBeforeCompleted, List.append_assoc,
      List.cons_append, List.nil_append]
    exact completed_fromTraining ctx _ _ _ _ _ _ _ rfl (by simp)
  case resumed | resumedEvaluating =>
    simp only [completedInEnd, qualityBeforeCompleted, List.append_assoc,
      List.cons_append, List.nil_append]
    exact completed_fromTraining ctx _ _ _ _ _ _ _ rfl (by simp)
  all_goals
    simp [completedInEnd, qualityBeforeCompleted]

/-! ## C1: the lock after a failure -/

/-- C1 (the code departs from the claim). When the model image fails to load,
`TaskRunWorker` writes status=error and returns at once: the last registry
operation of the run is that status write, and `UnlockTask` is never issued. -/
theorem C1_load_failure_keeps_lock :
    (TaskRunWorker missingImageContext freshTask Calls.start).out = Outcome.returned ∧
    (TaskRunWorker missingImageContext freshTask Calls.start).trace =
      [Event.UpdateTaskStatus "t1" TaskRunning "",
       Event.GetDatasetPath "d1",
       Event.GetAllTaskPaths "t1",
       Event.LoadImage "/images/m1",
       Event.WriteError "MODEL LOAD ERROR" "no such image",
       Event.UpdateTaskStatus "t1" TaskError "no such image"] ∧
    Event.UnlockTask "t1" "worker-1" ∉
      (TaskRunWorker missingImageContext freshTask Calls.start).trace := by
  decide


/-! ## C2: the happy path -/

/-- C2. Happy path: a task enters `TaskRunWorker` at stage begin, the storage
paths are found, every status re-read returns running, both images load, the
train and predict executors succeed and the evaluators return the scores
`qt` (split train) and `q` (split val).  Then the run reaches its end, the
containers are started in the order train, predict(train), predict(val),
eval(train), eval(val), and the writes to the task are, in order:
status=running, stage=training, stage=predicting, stage=evaluating, the
quality update, stage=end twice, status=completed, and the unlock. -/
theorem C2_happy_path (ctx : Context) (task : Task) (c : Calls) (dp : String)
    (paths : storage.TaskPaths) (name oname : String) (q qt : Float64)
    (hstage : task.Stage = TaskStageBegin)
    (hd : ctx.GetDatasetPath task.Dataset = Except.ok dp)
    (hp : ctx.GetAllTaskPaths task.ID = Except.ok paths)
    (hrunning : ∀ k, k < 4 → ctx.GetTaskByID (c.GetTaskByID + k) = TaskRunning)
    (hmodel : ctx.LoadImage c.LoadImage = Except.ok name)
    (hobjective : ctx.LoadImage (c.LoadImage + 1) = Except.ok oname)
    (htrain : stdoutRead ctx c.RunContainer)
    (hpredict1 : stdoutRead ctx (c.RunContainer + 1))
    (hpredict2 : stdoutRead ctx (c.RunContainer + 2))
    (heval1 : evalScores ctx (c.RunContainer + 3) (c.WriteFile + 4) qt)
    (heval2 : evalScores ctx (c.RunContainer + 4) (c.WriteFile + 5) q) :
    (TaskRunWorker ctx task c).out = Outcome.next () ∧
    executorCalls (TaskRunWorker ctx task c).trace =
      [(name, trainCommand ctx paths dp),
       (name, predictCommand ctx paths dp "train"), (name, predictCommand ctx paths dp "val"),
       (oname, evalCommand ctx paths dp "train"), (oname, evalCommand ctx paths dp "val")] ∧
    taskWrites (TaskRunWorker ctx task c).trace =
      [Event.UpdateTaskStatus task.ID TaskRunning "",
       Event.UpdateTaskStage task.ID TaskStageTraining,
       Event.UpdateTaskStage task.ID TaskStagePredicting,
       Event.UpdateTaskStage task.ID TaskStageEvaluating,
       Event.UpdateTask task.ID q qt,
       Event.UpdateTaskStage task.ID TaskStageEnd,
       Event.UpdateTaskStage task.ID TaskStageEnd,
       Event.UpdateTaskStatus task.ID TaskCompleted "",
       Event.UnlockTask task.ID ctx.ProcessID] := by
  have hh := TaskRunWorker_run ctx task c
  generalize TaskRunWorker ctx task c = r at hh
  cases hh
  case fromBegin dp' paths' name' hd' hp' hst hl =>
    rw [hd] at hd'
    rw [hp] at hp'
    rw [hmodel] at hl
    cases hd'
    cases hp'
    cases hl
    have ih := fromTraining_happy ctx { task with Stage := TaskStageTraining } name paths dp
      { c with LoadImage := c.LoadImage + 1 } oname q qt
      (by simpa using hrunning 0 (by decide)) (hrunning 1 (by decide))
      (hrunning 2 (by decide)) (hrunning 3 (by decide)) rfl htrain hpredict1 hpredict2
      hobjective heval1 heval2
    simp [ih, taskWrites, taskWrites_append, executorCalls, executorCalls_append]
  all_goals simp_all

theorem C2_happy_path_witness :
    (TaskRunWorker healthyContext freshTask Calls.start).out = Outcome.next () ∧
    executorCalls (TaskRunWorker healthyContext freshTask Calls.start).trace =
      [("image", ["train", "--data", "/mnt/data/d1/train", "--conf",
          "/mnt/t/config/config.json", "--output", "/mnt/t/parameters"]),
       ("image", ["predict", "--data", "/mnt/data/d1/train", "--memory", "/mnt/t/parameters",
          "--output", "/mnt/t/predictions/train"]),
       ("image", ["predict", "--data", "/mnt/data/d1/val", "--memory", "/mnt/t/parameters",
          "--output", "/mnt/t/predictions/val"]),
       ("image", ["eval", "--actual", "/mnt/data/d1/train", "--predicted",
          "/mnt/t/predictions/train"]),
       ("image", ["eval", "--actual", "/mnt/data/d1/val", "--predicted",
          "/mnt/t/predictions/val"])] ∧
    taskWrites (TaskRunWorker healthyContext freshTask Calls.start).trace =
      [Event.UpdateTaskStatus "t1" TaskRunning "",
       Event.UpdateTaskStage "t1" TaskStageTraining,
       Event.UpdateTaskStage "t1" TaskStagePredicting,
       Event.UpdateTaskStage "t1" TaskStageEvaluating,
       Event.UpdateTask "t1" score09 score09,
       Event.UpdateTaskStage "t1" TaskStageEnd,
       Event.UpdateTaskStage "t1" TaskStageEnd,
       Event.UpdateTaskStatus "t1" TaskCompleted "",
       Event.UnlockTask "t1" "worker-1"] :=
  C2_happy_path healthyContext freshTask Calls.start "/data/d1"
    ⟨"/t/config", "/t/parameters", "/t/predictions", "/t/evaluations", "/t/logs"⟩
    "image" "image" score09 score09 rfl rfl rfl (fun _ _ => rfl) rfl rfl
    ⟨⟨"epoch 1\n0.9\n", none⟩, rfl, rfl⟩ ⟨⟨"epoch 1\n0.9\n", none⟩, rfl, rfl⟩
    ⟨⟨"epoch 1\n0.9\n", none⟩, rfl, rfl⟩
    ⟨⟨"epoch 1\n0.9\n", none⟩, "0.9", rfl, by decide, by rfl, rfl⟩
    ⟨⟨"epoch 1\n0.9\n", none⟩, "0.9", rfl, by decide, by rfl, rfl⟩

/-! ## C3: monotonic progression -/

/-- C3. Monotonic progression: in every run of `TaskRunWorker`, for every
entry stage, the stage values committed with `UpdateTaskStage`, taken in order
and ignoring the immediate repetition of end, are the first successors of the
entry stage in begin, training, predicting, evaluating, end; every container
is started while the driver's current stage is the stage of its executor; and
a task claimed again at stage training, when the storage paths are found, the
images load, all re-reads return running and all executors succeed, re-runs
training and completes. -/
theorem C3_monotonic_progression (ctx : Context) (task : Task) (c : Calls) :
    ignoreRepeatedEnd (stageCommits (TaskRunWorker ctx task c).trace) <+:
      successors task.Stage ∧
    (∀ (pre post : List Event) (img : String) (cmd : List String),
      (TaskRunWorker ctx task c).trace =
        pre ++ Event.RunContainerAndCollectOutput img cmd :: post →
      executorStage cmd = some (currentStage task.Stage pre)) ∧
    (∀ (dp : String) (paths : storage.TaskPaths) (name oname : String) (q qt : Float64),
      task.Stage = TaskStageTraining →
      ctx.GetDatasetPath task.Dataset = Except.ok dp →
      ctx.GetAllTaskPaths task.ID = Except.ok paths →
      (∀ k, k < 4 → ctx.GetTaskByID (c.GetTaskByID + k) = TaskRunning) →
      ctx.LoadImage c.LoadImage = Except.ok name →
      ctx.LoadImage (c.LoadImage + 1) = Except.ok oname →
      stdoutRead ctx c.RunContainer →
      stdoutRead ctx (c.RunContainer + 1) →
      stdoutRead ctx (c.RunContainer + 2) →
      evalScores ctx (c.RunContainer + 3) (c.WriteFile + 4) qt →
      evalScores ctx (c.RunContainer + 4) (c.WriteFile + 5) q →
      (TaskRunWorker ctx task c).out = Outcome.next () ∧
      executorCalls (TaskRunWorker ctx task c).trace =
        [(name, trainCommand ctx paths dp),
         (name, predictCommand ctx paths dp "train"),
         (name, predictCommand ctx paths dp "val"),
         (oname, evalCommand ctx paths dp "train"),
         (oname, evalCommand ctx paths dp "val")] ∧
      taskWrites (TaskRunWorker ctx task c).trace =
        [Event.UpdateTaskStatus task.ID TaskRunning "",
         Event.UpdateTaskStage task.ID TaskStagePredicting,
         Event.UpdateTaskStage task.ID TaskStageEvaluating,
         Event.UpdateTask task.ID q qt,
         Event.UpdateTaskStage task.ID TaskStageEnd,
         Event.UpdateTaskStage task.ID TaskStageEnd,
         Event.UpdateTaskStatus task.ID TaskCompleted "",
         Event.UnlockTask task.ID ctx.ProcessID]) := by
  refine ⟨commitSequences_initial _ _ (stageCommits_TaskRunWorker ctx task c), ?_, ?_⟩
  · intro pre post img cmd hsplit
    have hall := executorsInStage_TaskRunWorker ctx task c
    rw [hsplit] at hall
    exact executorsInStage_split pre post img cmd _ hall
  · intro dp paths name oname q qt hstage hd hp hrunning hmodel hobjective htrain hpredict1
      hpredict2 heval1 heval2
    have hh := TaskRunWorker_run ctx task c
    generalize TaskRunWorker ctx task c = r at hh
    cases hh
    case resumed dp' paths' name' hd' hp' hst hb hl =>
      rw [hd] at hd'
      rw [hp] at hp'
      rw [hmodel] at hl
      cases hd'
      cases hp'
      cases hl
      have ih := fromTraining_happy ctx task name paths dp
        { c with LoadImage := c.LoadImage + 1 } oname q qt
        (by simpa using hrunning 0 (by decide)) (hrunning 1 (by decide))
        (hrunning 2 (by decide)) (hrunning 3 (by decide)) hstage htrain hpredict1 hpredict2
        hobjective heval1 heval2
      simp [ih, taskWrites, taskWrites_append, executorCalls, executorCalls_append]
    all_goals simp_all

theorem C3_monotonic_progression_witness :
    (TaskRunWorker healthyContext reclaimedTask Calls.start).out = Outcome.next () ∧
    executorCalls (TaskRunWorker healthyContext reclaimedTask Calls.start).trace =
      [("image", trainCommand healthyContext healthyPaths "/data/d1"),
       ("image", predictCommand healthyContext healthyPaths "/data/d1" "train"),
       ("image", predictCommand healthyContext healthyPaths "/data/d1" "val"),
       ("image", evalCommand healthyContext healthyPaths "/data/d1" "train"),
       ("image", evalCommand healthyContext healthyPaths "/data/d1" "val")] ∧
    taskWrites (TaskRunWorker healthyContext reclaimedTask Calls.start).trace =
      [Event.UpdateTaskStatus "t1" TaskRunning "",
       Event.UpdateTaskStage "t1" TaskStagePredicting,
       Event.UpdateTaskStage "t1" TaskStageEvaluating,
       Event.UpdateTask "t1" score09 score09,
       Event.UpdateTaskStage "t1" TaskStageEnd,
       Event.UpdateTaskStage "t1" TaskStageEnd,
       Event.UpdateTaskStatus "t1" TaskCompleted "",
       Event.UnlockTask "t1" "worker-1"] :=
  (C3_monotonic_progression healthyContext reclaimedTask Calls.start).2.2 "/data/d1"
    healthyPaths "image" "image" score09 score09 rfl rfl rfl (fun _ _ => rfl) rfl rfl
    ⟨⟨"epoch 1\n0.9\n", none⟩, rfl, rfl⟩ ⟨⟨"epoch 1\n0.9\n", none⟩, rfl, rfl⟩
    ⟨⟨"epoch 1\n0.9\n", none⟩, rfl, rfl⟩
    ⟨⟨"epoch 1\n0.9\n", none⟩, "0.9", rfl, by decide, by rfl, rfl⟩
    ⟨⟨"epoch 1\n0.9\n", none⟩, "0.9", rfl, by decide, by rfl, rfl⟩

/-! ## C4: failures short-circuit the pipeline -/

theorem runModelTraining_error (ctx : Context) (task : Task) (img : String)
    (paths : storage.TaskPaths) (dp : String) (c : Calls) (e : String)
    (he : (runModelTraining ctx task img paths dp c).out = Outcome.next (some e)) :
    taskWrites (runModelTraining ctx task img paths dp c).trace =
      [Event.UpdateTaskStatus task.ID TaskError e] := by
  rcases runModelTraining_cases ctx task img paths dp c with
    ⟨e', -, h⟩ | ⟨rd, e', -, -, h⟩ | ⟨rd, -, -, h⟩
  all_goals
    rw [h] at he ⊢
    simp [taskWrites, trainOkTrace] at he ⊢
  all_goals exact he

theorem runModelPrediction_error (ctx : Context) (task : Task) (img : String)
    (paths : storage.TaskPaths) (dp : String) (subdir : String) (c : Calls) (e : String)
    (he : (runModelPrediction ctx task img paths dp subdir c).out = Outcome.next (some e)) :
    taskWrites (runModelPrediction ctx task img paths dp subdir c).trace =
      [Event.UpdateTaskStatus task.ID TaskError e] := by
  rcases runModelPrediction_cases ctx task img paths dp subdir c with
    ⟨e', -, h⟩ | ⟨rd, e', -, -, h⟩ | ⟨rd, -, -, h⟩
  all_goals
    rw [h] at he ⊢
    simp [taskWrites, predictOkTrace] at he ⊢
  all_goals exact he

theorem runModelEvaluationAndGetQuality_error (ctx : Context) (task : Task) (img : String)
    (paths : storage.TaskPaths) (dp : String) (subdir : String) (c : Calls) (q : Float64)
    (e : String)
    (he : (runModelEvaluationAndGetQuality ctx task img paths dp subdir c).out =
      Outcome.next (q, some e)) :
    taskWrites (runModelEvaluationAndGetQuality ctx task img paths dp subdir c).trace =
      [Event.UpdateTaskStatus task.ID TaskError e] := by
  rcases runModelEvaluationAndGetQuality_cases ctx task img paths dp subdir c with
    ⟨e', -, h⟩ | ⟨rd, -, -, h⟩ | ⟨rd, l, e', -, -, -, h⟩ | ⟨rd, l, q', e', -, -, -, -, h⟩ |
    ⟨rd, l, q', -, -, -, -, h⟩
  all_goals
    rw [h] at he ⊢
    simp [taskWrites, evalOkTrace] at he ⊢
  all_goals exact he.2

/-- C4. Failure short-circuit.  An executor that returns an error has written
status=error with that error's message, and this is its only write to the
task.  In every run of `TaskRunWorker`: an image load that fails is followed
by the error log and the write of status=error with the load error as
message, and by nothing else; and after any write of status=error the driver
calls nothing but the deferred close of the container's stdout (no executor,
no stage commit, no quality write, no status write, no unlock), it has
returned, and it wrote no quality before either. -/
theorem C4_failure_short_circuit (ctx : Context) (task : Task) (c : Calls) :
    (∀ (img : String) (paths : storage.TaskPaths) (dp : String) (c1 : Calls) (e : String),
      (runModelTraining ctx task img paths dp c1).out = Outcome.next (some e) →
      taskWrites (runModelTraining ctx task img paths dp c1).trace =
        [Event.UpdateTaskStatus task.ID TaskError e]) ∧
    (∀ (img : String) (paths : storage.TaskPaths) (dp subdir : String) (c1 : Calls)
      (e : String),
      (runModelPrediction ctx task img paths dp subdir c1).out = Outcome.next (some e) →
      taskWrites (runModelPrediction ctx task img paths dp subdir c1).trace =
        [Event.UpdateTaskStatus task.ID TaskError e]) ∧
    (∀ (img : String) (paths : storage.TaskPaths) (dp subdir : String) (c1 : Calls)
      (q : Float64) (e : String),
      (runModelEvaluationAndGetQuality ctx task img paths dp subdir c1).out =
        Outcome.next (q, some e) →
      taskWrites (runModelEvaluationAndGetQuality ctx task img paths dp subdir c1).trace =
        [Event.UpdateTaskStatus task.ID TaskError e]) ∧
    (∀ (pre post : List Event) (path e : String),
      (TaskRunWorker ctx task c).trace = pre ++ Event.LoadImage path :: post →
      ctx.LoadImage (c.LoadImage + loads pre) = Except.error e →
      ∃ m, post = [Event.WriteError m e, Event.UpdateTaskStatus task.ID TaskError e]) ∧
    (∀ (pre post : List Event) (id msg : String),
      (TaskRunWorker ctx task c).trace =
        pre ++ Event.UpdateTaskStatus id TaskError msg :: post →
      (∀ ev ∈ post, ev = Event.Close) ∧
      (TaskRunWorker ctx task c).out = Outcome.returned ∧
      (∀ ev ∈ pre, isQualityWrite ev = false)) := by
  refine ⟨fun img paths dp c1 e => runModelTraining_error ctx task img paths dp c1 e,
    fun img paths dp subdir c1 e => runModelPrediction_error ctx task img paths dp subdir c1 e,
    fun img paths dp subdir c1 q e =>
      runModelEvaluationAndGetQuality_error ctx task img paths dp subdir c1 q e, ?_, ?_⟩
  · intro pre post path e hsplit herr
    have h := (FailProp_TaskRunWorker ctx task c).2
    rw [hsplit] at h
    exact loadFailuresHandled_split ctx task.ID pre post path e _ h herr
  · intro pre post id msg hsplit
    obtain ⟨h1, h2⟩ := (FailProp_TaskRunWorker ctx task c).1
    rw [hsplit] at h1 h2
    obtain ⟨h3, h4⟩ := h2 (by simp [isErrorWrite])
    refine ⟨quietAfterError_split pre post _ (by simp [isErrorWrite]) h1, h3, ?_⟩
    intro ev hev
    have := (List.all_eq_true.mp h4) ev (by simp [hev])
    simpa using this

theorem C4_failure_short_circuit_witness :
    ∃ m, ((TaskRunWorker missingImageContext freshTask Calls.start).trace).drop 4 =
      [Event.WriteError m "no such image",
       Event.UpdateTaskStatus "t1" TaskError "no such image"] :=
  (C4_failure_short_circuit missingImageContext freshTask Calls.start).2.2.2.1
    (((TaskRunWorker missingImageContext freshTask Calls.start).trace).take 3)
    (((TaskRunWorker missingImageContext freshTask Calls.start).trace).drop 4)
    "/images/m1" "no such image" (by decide) (by rfl)

/-! ## C5: the handler for external intervention -/

/-- C5. External intervention: in every run of `TaskRunWorker` that reaches the
fourth status re-read, what follows that re-read is decided by the status
read: the write of terminated and the unlock if it is terminating, the write
of paused and the unlock if it is pausing, the unlock alone for any other
status that is not running, and for running at most the write of completed;
the unlock is always the last call.  Hence, if from some re-check reached by
the run onward every re-read returns terminating (or pausing), the run ends
with the write of terminated (or paused) followed by the unlock. -/
theorem C5_external_intervention (ctx : Context) (task : Task) (c : Calls) :
    (∀ (pre post : List Event) (i : String),
      (TaskRunWorker ctx task c).trace = pre ++ Event.GetTaskByID i :: post →
      rereads pre = 3 →
      (ctx.GetTaskByID (c.GetTaskByID + 3) = TaskTerminating →
        post = [Event.UpdateTaskStatus task.ID TaskTerminated "",
                Event.UnlockTask task.ID ctx.ProcessID]) ∧
      (ctx.GetTaskByID (c.GetTaskByID + 3) = TaskPausing →
        post = [Event.UpdateTaskStatus task.ID TaskPaused "",
                Event.UnlockTask task.ID ctx.ProcessID]) ∧
      (ctx.GetTaskByID (c.GetTaskByID + 3) ≠ TaskRunning →
        ctx.GetTaskByID (c.GetTaskByID + 3) ≠ TaskTerminating →
        ctx.GetTaskByID (c.GetTaskByID + 3) ≠ TaskPausing →
        post = [Event.UnlockTask task.ID ctx.ProcessID]) ∧
      (ctx.GetTaskByID (c.GetTaskByID + 3) = TaskRunning →
        statusWrites post = [TaskCompleted] ∨ statusWrites post = []) ∧
      post.getLast? = some (Event.UnlockTask task.ID ctx.ProcessID)) ∧
    (∀ (pre post : List Event) (i : String),
      (TaskRunWorker ctx task c).trace = pre ++ Event.GetTaskByID i :: post →
      ((∀ j, rereads pre ≤ j → j < 4 →
          ctx.GetTaskByID (c.GetTaskByID + j) = TaskTerminating) →
        ∃ pre', (TaskRunWorker ctx task c).trace =
          pre' ++ [Event.UpdateTaskStatus task.ID TaskTerminated "",
                   Event.UnlockTask task.ID ctx.ProcessID]) ∧
      ((∀ j, rereads pre ≤ j → j < 4 →
          ctx.GetTaskByID (c.GetTaskByID + j) = TaskPausing) →
        ∃ pre', (TaskRunWorker ctx task c).trace =
          pre' ++ [Event.UpdateTaskStatus task.ID TaskPaused "",
                   Event.UnlockTask task.ID ctx.ProcessID])) := by
  constructor
  · intro pre post i hsplit hpre
    have hk := afterReread_split pre post i 3 hpre
    rw [← hsplit] at hk
    obtain ⟨-, hnr, hr⟩ := afterReread_three_TaskRunWorker ctx task c post hk
    refine ⟨fun hs => ?_, fun hs => ?_, fun h1 h2 h3 => ?_, fun hs => (hr hs).1, ?_⟩
    · have := hnr (by rw [hs]; decide)
      simpa [hs, handlerTrace] using this
    · have := hnr (by rw [hs]; decide)
      simpa [hs, handlerTrace] using this
    · have := hnr h1
      simpa [h2, h3, handlerTrace] using this
    · by_cases hs : ctx.GetTaskByID (c.GetTaskByID + 3) = TaskRunning
      · exact (hr hs).2
      · rw [hnr hs]
        simp
  · intro pre post i hsplit
    have hk := afterReread_split pre post i _ rfl
    rw [← hsplit] at hk
    have hP := SkipsProp_TaskRunWorker ctx task c
    have hlt := (hP _ _ hk).1
    constructor
    · intro hall
      have h3 := SkipsProp_honoured ctx task.ID c.GetTaskByID _ TaskTerminating (by decide) hP
        (3 - rereads pre) (rereads pre) (by omega) post hk hall
      obtain ⟨pre', j, h4, -⟩ := afterReread_some _ _ _ h3
      exact ⟨pre' ++ [Event.GetTaskByID j], by simpa [handlerTrace] using h4⟩
    · intro hall
      have h3 := SkipsProp_honoured ctx task.ID c.GetTaskByID _ TaskPausing (by decide) hP
        (3 - rereads pre) (rereads pre) (by omega) post hk hall
      obtain ⟨pre', j, h4, -⟩ := afterReread_some _ _ _ h3
      exact ⟨pre' ++ [Event.GetTaskByID j], by simpa [handlerTrace] using h4⟩

theorem C5_external_intervention_witness :
    ∃ pre', (TaskRunWorker terminatingContext freshTask Calls.start).trace =
      pre' ++ [Event.UpdateTaskStatus "t1" TaskTerminated "",
               Event.UnlockTask "t1" "worker-1"] :=
  ((C5_external_intervention terminatingContext freshTask Calls.start).2
    (((TaskRunWorker terminatingContext freshTask Calls.start).trace).take 13)
    (((TaskRunWorker terminatingContext freshTask Calls.start).trace).drop 14)
    "t1" (by decide)).1
    (fun j hj _ => by
      have h1 : rereads
          (((TaskRunWorker terminatingContext freshTask Calls.start).trace).take 13) = 1 := by
        decide
      rw [h1] at hj
      have h2 : j ≠ 0 := by omega
      simp [terminatingContext, Calls.start, h2])

/-! ## C6: a stage is skipped, not failed -/

/-- C6. Stage skipped, not failed: at each status re-check of `TaskRunWorker`
(there are at most four), if the status read is not running, then the next
call after one of the first three re-checks is the next re-check, and after
the fourth re-check only the handler (the write of terminated or of paused,
or nothing) and the unlock follow: no executor, no image load, no stage
commit, no quality write, no status error and no status completed. -/
theorem C6_stage_skipped (ctx : Context) (task : Task) (c : Calls) (pre post : List Event)
    (i : String)
    (hsplit : (TaskRunWorker ctx task c).trace = pre ++ Event.GetTaskByID i :: post)
    (hstatus : ctx.GetTaskByID (c.GetTaskByID + rereads pre) ≠ TaskRunning) :
    rereads pre < 4 ∧
    (rereads pre < 3 → ∃ post', post = Event.GetTaskByID task.ID :: post') ∧
    (rereads pre = 3 →
      post = handlerTrace task.ID (ctx.GetTaskByID (c.GetTaskByID + 3)) ++
        [Event.UnlockTask task.ID ctx.ProcessID]) := by
  have hk := afterReread_split pre post i _ rfl
  rw [← hsplit] at hk
  obtain ⟨hlt, h⟩ := SkipsProp_TaskRunWorker ctx task c _ _ hk
  obtain ⟨h1, h2⟩ := h hstatus
  refine ⟨hlt, fun h3 => h1 (by omega), fun h3 => ?_⟩
  have := h2 (by omega)
  rwa [h3] at this

theorem C6_stage_skipped_witness :
    ∃ post', ((TaskRunWorker terminatingContext freshTask Calls.start).trace).drop 14 =
      Event.GetTaskByID "t1" :: post' :=
  (C6_stage_skipped terminatingContext freshTask Calls.start
    (((TaskRunWorker terminatingContext freshTask Calls.start).trace).take 13)
    (((TaskRunWorker terminatingContext freshTask Calls.start).trace).drop 14)
    "t1" (by decide) (by decide)).2.1 (by decide)

/-- C7: in every run of the driver the quality write `UpdateTask` is issued at
most once. When it is issued, it comes right after the evaluator calls for
split train and for split val have both returned a score with a `nil` error,
it carries the score for val as quality and the score for train as
quality-train, and the very next event is the first commit of stage end; a
run without a quality write commits no stage end. Every write of
status=completed happens while the current stage is end, and either the task
entered the run at stage end or the quality write precedes it in the run. -/
theorem C7_quality_write (context : Context) (task : Task) (c : Calls) :
    QualityShape context task.ID (TaskRunWorker context task c).trace ∧
    (TaskRunWorker context task c).trace.countP isQualityWrite ≤ 1 ∧
    ∀ (pre post : List Event) (id msg : String),
      (TaskRunWorker context task c).trace =
        pre ++ Event.UpdateTaskStatus id TaskCompleted msg :: post →
      currentStage task.Stage pre = TaskStageEnd ∧
      (task.Stage = TaskStageEnd ∨ ∃ ev ∈ pre, isQualityWrite ev = true) := by
  have hs := QualityShape_TaskRunWorker context task c
  have hc := completed_TaskRunWorker context task c
  refine ⟨hs, ?_, ?_⟩
  · rcases hs with ⟨h1, _⟩ | ⟨pre, post, t, name, paths, dp, c1, q, qt, _, _, _, h4, h5, _, h7⟩
    · have h0 : (TaskRunWorker context task c).trace.countP isQualityWrite = 0 :=
        List.countP_eq_zero.mpr (fun ev hev => by simp [h1 ev hev])
      omega
    · have h0 : (pre ++
          ((runModelEvaluationAndGetQuality context t name paths dp "train" c1).trace ++
           (runModelEvaluationAndGetQuality context t name paths dp "val"
             (runModelEvaluationAndGetQuality context t name paths dp "train"
               c1).calls).trace)).countP isQualityWrite = 0 :=
        List.countP_eq_zero.mpr (fun ev hev => by simp [h5 ev hev])
      have h0' : post.countP isQualityWrite = 0 :=
        List.countP_eq_zero.mpr (fun ev hev => by simp [h7 ev hev])
      rw [h4, List.countP_append, h0, List.countP_cons, List.countP_cons, h0']
      simp [isQualityWrite]
  · intro pre post id msg h
    rw [h] at hc
    refine ⟨completedInEnd_split pre post id msg _ hc.1, ?_⟩
    rcases qualityBeforeCompleted_split pre post id msg _ hc.2 with h1 | h1
    · exact Or.inl (by simpa using h1)
    · exact Or.inr h1

/-! ## C8: the reaper threshold -/

/-- C8. Reaper threshold: let the count of completed tasks returned by the
registry be a count (not negative, within `int`).  In every run of
`TaskRunWorker`, what follows a write of status=completed is exactly: the
completion log, the fetch of the owning job, then, when `MaxTasks` is
positive, the count of the completed tasks of the job, then, when moreover
the count is at least `MaxTasks`, the write of job status completed followed
by the bulk terminate (and the log), and last the unlock; no reaper call
comes before the write of status=completed, and a run that does not write
status=completed makes no reaper call at all. -/
theorem C8_reaper_threshold (ctx : Context) (task : Task) (c : Calls)
    (hcount : 0 ≤ ctx.CountTasks task.Job) (hint : ctx.CountTasks task.Job < 2 ^ 63) :
    (∀ (pre post : List Event) (id msg : String),
      (TaskRunWorker ctx task c).trace =
        pre ++ Event.UpdateTaskStatus id TaskCompleted msg :: post →
      (∀ ev ∈ pre, isReaperCall ev = false) ∧
      post =
        [Event.WriteInfo "TASK COMPLETED", Event.GetJobByID task.Job] ++
        (if 0 < (ctx.GetJobByID task.Job).MaxTasks then
          Event.CountTasks task.Job TaskCompleted ::
            (if ((ctx.GetJobByID task.Job).MaxTasks : Int) ≤ ctx.CountTasks task.Job then
              [Event.UpdateJob task.Job JobCompleted, Event.TerminateRunningTasks task.Job,
               Event.WriteInfo "JOB COMPLETED"]
            else [])
        else []) ++
        [Event.UnlockTask task.ID ctx.ProcessID]) ∧
    ((∀ ev ∈ (TaskRunWorker ctx task c).trace, isCompletedWrite ev = false) →
      ∀ ev ∈ (TaskRunWorker ctx task c).trace, isReaperCall ev = false) := by
  have huint : uint64 (ctx.CountTasks task.Job) ≥ (ctx.GetJobByID task.Job).MaxTasks ↔
      ((ctx.GetJobByID task.Job).MaxTasks : Int) ≤ ctx.CountTasks task.Job := by
    unfold uint64
    have h1 : ctx.CountTasks task.Job % 2 ^ 64 = ctx.CountTasks task.Job :=
      Int.emod_eq_of_lt hcount (by omega)
    rw [h1]
    omega
  have hP := ReaperProp_TaskRunWorker ctx task c
  constructor
  · intro pre post id msg hsplit
    rcases hP with ⟨h1, -⟩ | ⟨pre0, h1, h2, h3⟩
    · exfalso
      rw [hsplit] at h1
      simp [isCompletedWrite] at h1
    · rw [hsplit] at h1
      have hpost : ∀ y ∈ [Event.WriteInfo "TASK COMPLETED", Event.GetJobByID task.Job] ++
          reaperTail ctx task.Job ++ [Event.UnlockTask task.ID ctx.ProcessID],
          isCompletedWrite y = false := by
        intro y hy
        simp only [List.mem_append, List.mem_cons, List.mem_singleton, List.not_mem_nil,
          or_false] at hy
        rcases hy with ((rfl | rfl) | hy) | rfl
        · rfl
        · rfl
        · have := List.all_eq_true.mp (reaperTail_no_completed ctx task.Job) y hy
          simpa using this
        · rfl
      obtain ⟨e1, -, e3⟩ := split_unique isCompletedWrite pre0 pre _ post _ _ h1.symm rfl
        (by simp [isCompletedWrite])
        (fun y hy => by simpa using List.all_eq_true.mp h2 y hy) hpost
      subst e1
      refine ⟨fun ev hev => by simpa using List.all_eq_true.mp h3 ev hev, ?_⟩
      rw [← e3]
      simp only [reaperTail, huint, gt_iff_lt]
  · intro hno ev hev
    rcases hP with ⟨-, h2⟩ | ⟨pre0, h1, -, -⟩
    · simpa using List.all_eq_true.mp h2 ev hev
    · exfalso
      have := hno (Event.UpdateTaskStatus task.ID TaskCompleted "") (by rw [h1]; simp)
      simp [isCompletedWrite] at this

theorem C8_reaper_threshold_witness :
    ((TaskRunWorker healthyContext freshTask Calls.start).trace).drop 38 =
      [Event.WriteInfo "TASK COMPLETED", Event.GetJobByID "j1",
       Event.CountTasks "j1" TaskCompleted, Event.UpdateJob "j1" JobCompleted,
       Event.TerminateRunningTasks "j1", Event.WriteInfo "JOB COMPLETED",
       Event.UnlockTask "t1" "worker-1"] :=
  ((C8_reaper_threshold healthyContext freshTask Calls.start (by decide) (by decide)).1
    (((TaskRunWorker healthyContext freshTask Calls.start).trace).take 37)
    (((TaskRunWorker healthyContext freshTask Calls.start).trace).drop 38)
    "t1" "" (by decide)).2

/-! ## C9: an evaluator that prints nothing -/

/-- C9 (the code departs from the claim). When the objective container starts
and prints no line, `runModelEvaluationAndGetQuality` panics on indexing the
last line: it neither returns an error nor sets the task's status to error. -/
theorem C9_empty_output_panics :
    (runModelEvaluationAndGetQuality silentContext freshTask "image" healthyPaths "/data/d1"
        "val" Calls.start).out =
      Outcome.panicked "runtime error: index out of range [-1]" ∧
    (runModelEvaluationAndGetQuality silentContext freshTask "image" healthyPaths "/data/d1"
        "val" Calls.start).trace =
      [Event.RunContainerAndCollectOutput "image"
         ["eval", "--actual", "/mnt/data/d1/val", "--predicted", "/mnt/t/predictions/val"],
       Event.Close] := by
  decide

/-! ## C10: failures of the executors -/

/-- C10 (the code departs from the claim). When reading the stdout of the
objective container fails after the line `0.9`, the evaluator returns the
score 0.9 with a `nil` error and never sets the task's status to error, while
`runModelTraining` and `runModelPrediction` on the same stdout set the status
to error and return the read error. -/
theorem C10_evaluator_ignores_read_error :
    (runModelEvaluationAndGetQuality brokenPipeContext freshTask "image" healthyPaths
        "/data/d1" "val" Calls.start).out = Outcome.next (score09, none) ∧
    (runModelEvaluationAndGetQuality brokenPipeContext freshTask "image" healthyPaths
        "/data/d1" "val" Calls.start).trace =
      [Event.RunContainerAndCollectOutput "image"
         ["eval", "--actual", "/mnt/data/d1/val", "--predicted", "/mnt/t/predictions/val"],
       Event.WriteFile "/t/evaluations/evals.val.log" "",
       Event.Close] ∧
    (runModelTraining brokenPipeContext freshTask "image" healthyPaths "/data/d1"
        Calls.start).out = Outcome.next (some "read: broken pipe") ∧
    (runModelPrediction brokenPipeContext freshTask "image" healthyPaths "/data/d1" "val"
        Calls.start).out = Outcome.next (some "read: broken pipe") ∧
    Event.UpdateTaskStatus "t1" TaskError "read: broken pipe" ∈
      (runModelPrediction brokenPipeContext freshTask "image" healthyPaths "/data/d1" "val"
        Calls.start).trace := by
  decide

/-! ## The scanner on an output given by its lines -/

theorem splitLines_line (l rest : List Char) (h : '\n' ∉ l) :
    ∀ cur, splitLines (l ++ '\n' :: rest) cur = (cur.reverse ++ l) :: splitLines rest [] := by
  induction l with
  | nil =>
    intro cur
    simp [splitLines]
  | cons a l ih =>
    intro cur
    have ha : a ≠ '\n' := fun e => h (by simp [e])
    have hl : '\n' ∉ l := fun e => h (List.mem_cons_of_mem _ e)
    simp [splitLines, ha, ih hl]

theorem splitLines_rest (l : List Char) (h : '\n' ∉ l) :
    ∀ cur, splitLines l cur = if cur.reverse ++ l = [] then [] else [cur.reverse ++ l] := by
  induction l with
  | nil =>
    intro cur
    simp [splitLines]
  | cons a l ih =>
    intro cur
    have ha : a ≠ '\n' := fun e => h (by simp [e])
    have hl : '\n' ∉ l := fun e => h (List.mem_cons_of_mem _ e)
    simp [splitLines, ha, ih hl]

theorem outputLines_cons (line : String) (lines : List String) (rest : String) :
    outputLines (line :: lines) rest = line :: outputLines lines rest := by
  unfold outputLines
  split_ifs <;> rfl

theorem splitLines_outputText (lines : List String) (rest : String)
    (hl : ∀ l ∈ lines, '\n' ∉ l.toList) (hr : '\n' ∉ rest.toList) :
    splitLines (outputText lines rest).toList [] =
      (outputLines lines rest).map String.toList := by
  induction lines with
  | nil =>
    rw [outputText, splitLines_rest _ hr]
    unfold outputLines
    by_cases h : rest = ""
    · subst h
      simp
    · have h' : rest.data ≠ [] := fun e => h (String.ext e)
      simp [h, h']
  | cons l lines ih =>
    have h1 : '\n' ∉ l.toList := hl l (List.mem_cons_self _ _)
    have h2 := ih (fun x hx => hl x (List.mem_cons_of_mem _ hx))
    have e : (outputText (l :: lines) rest).toList =
        l.toList ++ '\n' :: (outputText lines rest).toList := by
      simp [outputText, String.toList]
    rw [e, splitLines_line _ _ h1, h2, outputLines_cons]
    simp

theorem scanLines_outputText (lines : List String) (rest : String) (err : Option String)
    (hl : ∀ l ∈ lines, '\n' ∉ l.toList ∧ l.utf8ByteSize < MaxScanTokenSize)
    (hr : '\n' ∉ rest.toList ∧ rest.utf8ByteSize < MaxScanTokenSize) :
    scanLines ⟨outputText lines rest, err⟩ =
      (outputLines lines rest).map (fun l => String.mk (dropCR l.toList)) := by
  have hshort : ∀ l ∈ outputLines lines rest, l.utf8ByteSize < MaxScanTokenSize := by
    intro l hmem
    unfold outputLines at hmem
    split_ifs at hmem
    · exact (hl l hmem).2
    · rcases List.mem_append.mp hmem with h | h
      · exact (hl l h).2
      · rw [List.mem_singleton.mp h]
        exact hr.2
  unfold scanLines
  rw [splitLines_outputText lines rest (fun l h => (hl l h).1) hr.1]
  have ht : List.takeWhile
      (fun l => decide ((String.mk l).utf8ByteSize < MaxScanTokenSize))
      ((outputLines lines rest).map String.toList) =
      (outputLines lines rest).map String.toList := by
    rw [List.takeWhile_eq_self_iff]
    intro x hx
    obtain ⟨l, hmem, rfl⟩ := List.mem_map.mp hx
    simpa using hshort l hmem
  rw [ht, List.map_map]
  rfl

theorem dropWhile_isSpace_concat (l : List Char) (a : Char) (ha : isSpace a = true) :
    ((l ++ [a]).dropWhile isSpace).reverse.dropWhile isSpace =
      (l.dropWhile isSpace).reverse.dropWhile isSpace := by
  induction l with
  | nil => simp [List.dropWhile, ha]
  | cons b l ih =>
    by_cases hb : isSpace b = true
    · simpa [List.dropWhile, hb] using ih
    · simp [List.dropWhile, hb, ha]

theorem TrimSpace_dropCR (l : List Char) :
    TrimSpace (String.mk (dropCR l)) = TrimSpace (String.mk l) := by
  unfold dropCR
  split_ifs with h
  · obtain ⟨ys, rfl⟩ := List.getLast?_eq_some_iff.mp h
    unfold TrimSpace
    simp only [String.toList, List.dropLast_concat]
    rw [dropWhile_isSpace_concat ys '\r' (by decide)]
  · rfl

theorem utf8Len_replicate (n : Nat) : String.utf8Len (List.replicate n 'a') = n := by
  induction n with
  | zero => rfl
  | succ n ih =>
    rw [List.replicate_succ, String.utf8Len_cons, ih]
    rfl

theorem scanLines_longLineOutput (err : Option String) :
    scanLines ⟨longLineOutput, err⟩ = ["0.5"] := by
  have hn : '\n' ∉ longLine.toList := by
    intro h
    have := List.eq_of_mem_replicate h
    exact absurd this (by decide)
  have hsplit := splitLines_outputText ["0.5", longLine, "0.9"] ""
    (by
      intro l hmem
      simp only [List.mem_cons, List.mem_singleton, List.not_mem_nil, or_false] at hmem
      rcases hmem with rfl | rfl | rfl
      · decide
      · exact hn
      · decide)
    (by decide)
  have hlong : ¬ (String.mk longLine.toList).utf8ByteSize < MaxScanTokenSize := by
    show ¬ String.utf8Len (List.replicate 65536 'a') < MaxScanTokenSize
    rw [utf8Len_replicate]
    decide
  have hshort : (String.mk "0.5".toList).utf8ByteSize < MaxScanTokenSize := by decide
  unfold scanLines longLineOutput
  rw [hsplit]
  simp only [outputLines, if_true, List.map_cons, List.map_nil]
  rw [List.takeWhile_cons_of_pos (by simpa using hshort),
    List.takeWhile_cons_of_neg (by simpa using hlong)]
  decide

/-! ## C11: the line the score is parsed from -/

/-- C11 (the claim fails as stated). When the objective container prints `0.9`
followed by an empty line, the scanner delivers the two lines `0.9` and the
empty line; the last line that is not empty is `0.9` and parses to 0.9, but
the evaluator parses the last line, the empty one: it writes status=error and
returns the parse error with the score 0. -/
theorem C11_trailing_blank_line_fails :
    scanLines ⟨"0.9\n\n", none⟩ = ["0.9", ""] ∧
    lastNonEmptyLine (scanLines ⟨"0.9\n\n", none⟩) = some "0.9" ∧
    trailingBlankContext.ParseFloat (TrimSpace "0.9") = Except.ok score09 ∧
    (runModelEvaluationAndGetQuality trailingBlankContext freshTask "image" healthyPaths
        "/data/d1" "val" Calls.start).out =
      Outcome.next (Float64.zero, some "strconv.ParseFloat: invalid syntax") ∧
    (runModelEvaluationAndGetQuality trailingBlankContext freshTask "image" healthyPaths
        "/data/d1" "val" Calls.start).trace =
      [Event.RunContainerAndCollectOutput "image"
         ["eval", "--actual", "/mnt/data/d1/val", "--predicted", "/mnt/t/predictions/val"],
       Event.WriteError "OBJECTIVE QUALITY PARSE ERROR" "strconv.ParseFloat: invalid syntax",
       Event.UpdateTaskStatus "t1" TaskError "strconv.ParseFloat: invalid syntax",
       Event.Close] := by
  refine ⟨by decide, by decide, by rfl, by decide, by decide⟩

/-- The evaluator returns the score `q` with a `nil` error exactly when the
container started, the scanner delivered at least one line, the last line it
delivered parses to `q` after trimming surrounding white space, and the
evaluation log was written. -/
theorem score_iff_last_scanned_line (context : Context) (task : Task) (img : String)
    (paths : storage.TaskPaths) (dp subdir : String) (c : Calls) (q : Float64) :
    (runModelEvaluationAndGetQuality context task img paths dp subdir c).out =
        Outcome.next (q, none) ↔
      ∃ outReader lastLine,
        context.RunContainerAndCollectOutput c.RunContainer = Except.ok outReader ∧
        (scanLines outReader).getLast? = some lastLine ∧
        context.ParseFloat (TrimSpace lastLine) = Except.ok q ∧
        context.WriteFile c.WriteFile = none := by
  constructor
  · intro h
    cases hr : context.RunContainerAndCollectOutput c.RunContainer with
    | error e =>
      simp [runModelEvaluationAndGetQuality, bind, Exec.bind, pure, Exec.pure, emit, goPanic,
        repeatUntilSuccess, RunContainerAndCollectOutput, WriteFile, hr] at h
    | ok rd =>
      cases hl : (scanLines rd).getLast? with
      | none =>
        simp [runModelEvaluationAndGetQuality, bind, Exec.bind, pure, Exec.pure, emit, goPanic,
          repeatUntilSuccess, RunContainerAndCollectOutput, WriteFile, hr, hl] at h
      | some l =>
        cases hq : context.ParseFloat (TrimSpace l) with
        | error e =>
          simp [runModelEvaluationAndGetQuality, bind, Exec.bind, pure, Exec.pure, emit, goPanic,
            repeatUntilSuccess, RunContainerAndCollectOutput, WriteFile, hr, hl, hq] at h
        | ok q' =>
          cases hw : context.WriteFile c.WriteFile with
          | some e =>
            simp [runModelEvaluationAndGetQuality, bind, Exec.bind, pure, Exec.pure, emit,
              goPanic, repeatUntilSuccess, RunContainerAndCollectOutput, WriteFile, hr, hl, hq,
              hw] at h
          | none =>
            simp [runModelEvaluationAndGetQuality, bind, Exec.bind, pure, Exec.pure, emit,
              goPanic, repeatUntilSuccess, RunContainerAndCollectOutput, WriteFile, hr, hl, hq,
              hw] at h
            subst h
            exact ⟨rd, l, rfl, hl, hq, rfl⟩
  · rintro ⟨rd, l, hr, hl, hq, hw⟩
    rw [runModelEvaluationAndGetQuality_ok context task img paths dp subdir c rd l q hr hl hq hw]

/-- C11 (amended). Let the output of the objective container be read to its
end and be made of lines that are each shorter than 64 KiB: the text is
`lines`, each ended by a newline, followed by `rest` without a newline.  Then
`runModelEvaluationAndGetQuality` returns the score `q` with a `nil` error
exactly when the output has a last line (empty or not, `rest` when it is not
empty), that line parses to `q` after trimming surrounding white space, and
the evaluation log was written. -/
theorem C11_score_from_last_line (context : Context) (task : Task) (img : String)
    (paths : storage.TaskPaths) (dp subdir : String) (c : Calls) (lines : List String)
    (rest : String) (q : Float64)
    (hstart : context.RunContainerAndCollectOutput c.RunContainer =
      Except.ok ⟨outputText lines rest, none⟩)
    (hlines : ∀ l ∈ lines, '\n' ∉ l.toList ∧ l.utf8ByteSize < MaxScanTokenSize)
    (hrest : '\n' ∉ rest.toList ∧ rest.utf8ByteSize < MaxScanTokenSize) :
    (runModelEvaluationAndGetQuality context task img paths dp subdir c).out =
        Outcome.next (q, none) ↔
      ∃ lastLine, (outputLines lines rest).getLast? = some lastLine ∧
        context.ParseFloat (TrimSpace lastLine) = Except.ok q ∧
        context.WriteFile c.WriteFile = none := by
  rw [score_iff_last_scanned_line]
  constructor
  · rintro ⟨rd, l, hr, hl, hq, hw⟩
    rw [hstart] at hr
    cases hr
    rw [scanLines_outputText lines rest none hlines hrest, List.getLast?_map] at hl
    cases hlast : (outputLines lines rest).getLast? with
    | none =>
      rw [hlast] at hl
      cases hl
    | some l0 =>
      rw [hlast] at hl
      simp only [Option.map_some', Option.some.injEq] at hl
      subst hl
      rw [TrimSpace_dropCR] at hq
      exact ⟨l0, rfl, hq, hw⟩
  · rintro ⟨l0, hlast, hq, hw⟩
    refine ⟨⟨outputText lines rest, none⟩, String.mk (dropCR l0.toList), hstart, ?_, ?_, hw⟩
    · rw [scanLines_outputText lines rest none hlines hrest, List.getLast?_map, hlast]
      rfl
    · rw [TrimSpace_dropCR]
      exact hq

theorem C11_score_from_last_line_witness :
    (runModelEvaluationAndGetQuality healthyContext freshTask "image" healthyPaths "/data/d1"
        "val" Calls.start).out = Outcome.next (score09, none) :=
  (C11_score_from_last_line healthyContext freshTask "image" healthyPaths "/data/d1" "val"
    Calls.start ["epoch 1", "0.9"] "" score09 (by rfl) (by decide) (by decide)).mpr
    ⟨"0.9", by decide, by rfl, rfl⟩

/-! ## C12: the content of the evaluation log -/

/-- The evaluation log over the lines the scanner delivered: when the objective
container starts and the scanner delivers n ≥ 1 lines, then, if the last of
them parses as a float, the only file `runModelEvaluationAndGetQuality` writes
is `evals.<split>.log` in the evaluations directory, holding the first n-1
delivered lines in order joined by single newlines (nothing when n = 1); and
if it does not parse, the evaluator writes no file at all. -/
theorem evaluationLog_of_scanned_lines (context : Context) (task : Task) (img : String)
    (paths : storage.TaskPaths) (dp subdir : String) (c : Calls) (outReader : Stdout)
    (lastLine : String)
    (hstart : context.RunContainerAndCollectOutput c.RunContainer = Except.ok outReader)
    (hlast : (scanLines outReader).getLast? = some lastLine) :
    (∀ q, context.ParseFloat (TrimSpace lastLine) = Except.ok q →
      fileWrites (runModelEvaluationAndGetQuality context task img paths dp subdir c).trace =
        [(context.Join paths.Evaluations ("evals." ++ subdir ++ ".log"),
          String.intercalate "\n"
            ((scanLines outReader).take ((scanLines outReader).length - 1)))] ∧
      ((scanLines outReader).length = 1 →
        fileWrites (runModelEvaluationAndGetQuality context task img paths dp subdir c).trace =
          [(context.Join paths.Evaluations ("evals." ++ subdir ++ ".log"), "")])) ∧
    (∀ e, context.ParseFloat (TrimSpace lastLine) = Except.error e →
      fileWrites (runModelEvaluationAndGetQuality context task img paths dp subdir c).trace =
        []) := by
  constructor
  · intro q hq
    have hw : fileWrites
        (runModelEvaluationAndGetQuality context task img paths dp subdir c).trace =
        [(context.Join paths.Evaluations ("evals." ++ subdir ++ ".log"),
          String.intercalate "\n"
            ((scanLines outReader).take ((scanLines outReader).length - 1)))] := by
      rw [← List.dropLast_eq_take]
      cases hw : context.WriteFile c.WriteFile <;>
        simp [runModelEvaluationAndGetQuality, bind, Exec.bind, pure, Exec.pure, emit, goPanic,
          repeatUntilSuccess, RunContainerAndCollectOutput, WriteFile, hstart, hlast, hq, hw,
          fileWrites]
    refine ⟨hw, fun hn => ?_⟩
    rw [hw, hn]
    rfl
  · intro e hq
    simp [runModelEvaluationAndGetQuality, bind, Exec.bind, pure, Exec.pure, emit, goPanic,
      repeatUntilSuccess, RunContainerAndCollectOutput, WriteFile, hstart, hlast, hq,
      fileWrites]

/-- C12 (the code departs from the claim). The objective container prints
three lines: `0.5`, a line of 65536 bytes, and `0.9`; the final line `0.9`
parses.  The scanner stops at the long line and the evaluator does not look at
its error: it takes `0.5` for the final line, returns the score 0.5 with a
`nil` error, writes no status, and writes an empty `evals.val.log` instead of
the first two lines. -/
theorem C12_long_line_truncates_log :
    longLineOutput = outputText ["0.5", longLine, "0.9"] "" ∧
    longLine.utf8ByteSize = 65536 ∧
    longLineContext.ParseFloat (TrimSpace "0.9") = Except.ok score09 ∧
    scanLines ⟨longLineOutput, none⟩ = ["0.5"] ∧
    (runModelEvaluationAndGetQuality longLineContext freshTask "image" healthyPaths "/data/d1"
        "val" Calls.start).out = Outcome.next (score05, none) ∧
    fileWrites (runModelEvaluationAndGetQuality longLineContext freshTask "image" healthyPaths
        "/data/d1" "val" Calls.start).trace = [("/t/evaluations/evals.val.log", "")] ∧
    taskWrites (runModelEvaluationAndGetQuality longLineContext freshTask "image" healthyPaths
        "/data/d1" "val" Calls.start).trace = [] := by
  have hrun := runModelEvaluationAndGetQuality_ok longLineContext freshTask "image"
    healthyPaths "/data/d1" "val" Calls.start ⟨longLineOutput, none⟩ "0.5" score05 rfl
    (by rw [scanLines_longLineOutput]; rfl) (by rfl) rfl
  refine ⟨rfl, utf8Len_replicate 65536, by rfl, scanLines_longLineOutput none, ?_, ?_, ?_⟩
  · rw [hrun]
  · rw [hrun]
    simp only [evalOkTrace, scanLines_longLineOutput, fileWrites]
    decide
  · rw [hrun]
    simp only [evalOkTrace, taskWrites]

/-! ## C13: the argv of the executors -/

/-- C13. Argv shapes: whatever the collaborators answer, each executor starts
exactly one container, on the image it was given, with the argv of the
specification: `train --data mnt+join(d,train) --conf mnt+join(p.Config,
config.json) --output mnt+p.Parameters`, `predict --data mnt+join(d,s)
--memory mnt+p.Parameters --output mnt+join(p.Predictions,s)` and `eval
--actual mnt+join(d,s) --predicted mnt+join(p.Predictions,s)`, where `mnt+` is
string concatenation with `modules.MntPrefix`.  Hence the `--memory` of
predict is the `--output` of train, and the `--predicted` of eval is the
`--output` of predict for the same split. -/
theorem C13_argv_shapes (context : Context) (task : Task) (img : String)
    (p : storage.TaskPaths) (d s : String) (c : Calls) :
    executorCalls (runModelTraining context task img p d c).trace =
      [(img, ["train", "--data", context.MntPrefix ++ context.Join d "train",
              "--conf", context.MntPrefix ++ context.Join p.Config "config.json",
              "--output", context.MntPrefix ++ p.Parameters])] ∧
    executorCalls (runModelPrediction context task img p d s c).trace =
      [(img, ["predict", "--data", context.MntPrefix ++ context.Join d s,
              "--memory", context.MntPrefix ++ p.Parameters,
              "--output", context.MntPrefix ++ context.Join p.Predictions s])] ∧
    executorCalls (runModelEvaluationAndGetQuality context task img p d s c).trace =
      [(img, ["eval", "--actual", context.MntPrefix ++ context.Join d s,
              "--predicted", context.MntPrefix ++ context.Join p.Predictions s])] ∧
    (∀ c1 c2 train predict eval,
      executorCalls (runModelTraining context task img p d c).trace = [(img, train)] →
      executorCalls (runModelPrediction context task img p d s c1).trace = [(img, predict)] →
      executorCalls (runModelEvaluationAndGetQuality context task img p d s c2).trace =
        [(img, eval)] →
      predict.get? 4 = train.get? 6 ∧ eval.get? 4 = predict.get? 6) := by
  have h1 : ∀ k : Calls, executorCalls (runModelTraining context task img p d k).trace =
      [(img, ["train", "--data", context.MntPrefix ++ context.Join d "train",
              "--conf", context.MntPrefix ++ context.Join p.Config "config.json",
              "--output", context.MntPrefix ++ p.Parameters])] := by
    intro k
    rcases runModelTraining_cases context task img p d k with
      ⟨e, -, h⟩ | ⟨rd, e, -, -, h⟩ | ⟨rd, -, -, h⟩ <;>
      rw [h] <;> simp [executorCalls, trainCommand, trainOkTrace]
  have h2 : ∀ k : Calls, executorCalls (runModelPrediction context task img p d s k).trace =
      [(img, ["predict", "--data", context.MntPrefix ++ context.Join d s,
              "--memory", context.MntPrefix ++ p.Parameters,
              "--output", context.MntPrefix ++ context.Join p.Predictions s])] := by
    intro k
    rcases runModelPrediction_cases context task img p d s k with
      ⟨e, -, h⟩ | ⟨rd, e, -, -, h⟩ | ⟨rd, -, -, h⟩ <;>
      rw [h] <;> simp [executorCalls, predictCommand, predictOkTrace]
  have h3 : ∀ k : Calls,
      executorCalls (runModelEvaluationAndGetQuality context task img p d s k).trace =
      [(img, ["eval", "--actual", context.MntPrefix ++ context.Join d s,
              "--predicted", context.MntPrefix ++ context.Join p.Predictions s])] := by
    intro k
    cases hr : context.RunContainerAndCollectOutput k.RunContainer with
    | error e =>
      simp [runModelEvaluationAndGetQuality, bind, Exec.bind, pure, Exec.pure, emit, goPanic,
        repeatUntilSuccess, RunContainerAndCollectOutput, WriteFile, hr, executorCalls]
    | ok rd =>
      cases hl : (scanLines rd).getLast? with
      | none =>
        simp [runModelEvaluationAndGetQuality, bind, Exec.bind, pure, Exec.pure, emit, goPanic,
          repeatUntilSuccess, RunContainerAndCollectOutput, WriteFile, hr, hl, executorCalls]
      | some l =>
        cases hq : context.ParseFloat (TrimSpace l) with
        | error e =>
          simp [runModelEvaluationAndGetQuality, bind, Exec.bind, pure, Exec.pure, emit, goPanic,
            repeatUntilSuccess, RunContainerAndCollectOutput, WriteFile, hr, hl, hq,
            executorCalls]
        | ok q =>
          cases hw : context.WriteFile k.WriteFile <;>
            simp [runModelEvaluationAndGetQuality, bind, Exec.bind, pure, Exec.pure, emit,
              goPanic, repeatUntilSuccess, RunContainerAndCollectOutput, WriteFile, hr, hl, hq,
              hw, executorCalls]
  refine ⟨h1 c, h2 c, h3 c, ?_⟩
  intro c1 c2 train predict eval e1 e2 e3
  rw [h1] at e1
  rw [h2] at e2
  rw [h3] at e3
  simp only [List.cons.injEq, Prod.mk.injEq, true_and, and_true] at e1 e2 e3
  subst e1 e2 e3
  exact ⟨rfl, rfl⟩

/-! ## C14: when the model image is loaded -/

/-- C14 (the code departs from the claim). For a task claimed at stage end
`TaskRunWorker` does load the model image, and when the load fails it marks
the task error and returns, although no stage that needs the model is left to
run; with the image in place the same task is only marked completed. -/
theorem C14_model_loaded_at_stage_end :
    (TaskRunWorker missingImageContext finishedTask Calls.start).out = Outcome.returned ∧
    (TaskRunWorker missingImageContext finishedTask Calls.start).trace =
      [Event.UpdateTaskStatus "t1" TaskRunning "",
       Event.GetDatasetPath "d1",
       Event.GetAllTaskPaths "t1",
       Event.LoadImage "/images/m1",
       Event.WriteError "MODEL LOAD ERROR" "no such image",
       Event.UpdateTaskStatus "t1" TaskError "no such image"] ∧
    executorCalls (TaskRunWorker healthyContext finishedTask Calls.start).trace = [] ∧
    taskWrites (TaskRunWorker healthyContext finishedTask Calls.start).trace =
      [Event.UpdateTaskStatus "t1" TaskRunning "",
       Event.UpdateTaskStatus "t1" TaskCompleted "",
       Event.UnlockTask "t1" "worker-1"] := by
  decide

/-! ## C15: file writes that fail -/

/-- C15 (the code departs from the claim). When no file can be written,
`runModelTraining` and `runModelPrediction` still return `nil`, and the driver
commits the stages predicting and evaluating without `config.json` and the
logs on disk; only the evaluator panics on its failed write. -/
theorem C15_write_failure_ignored :
    (runModelTraining fullDiskContext freshTask "image" healthyPaths "/data/d1"
        Calls.start).out = Outcome.next none ∧
    (runModelTraining fullDiskContext freshTask "image" healthyPaths "/data/d1"
        Calls.start).trace =
      [Event.WriteFile "/t/config/config.json" "lr=0.1",
       Event.RunContainerAndCollectOutput "image"
         ["train", "--data", "/mnt/data/d1/train", "--conf", "/mnt/t/config/config.json",
          "--output", "/mnt/t/parameters"],
       Event.WriteFile "/t/logs/train.log" "epoch 1\n0.9\n",
       Event.Close] ∧
    (runModelPrediction fullDiskContext freshTask "image" healthyPaths "/data/d1" "val"
        Calls.start).out = Outcome.next none ∧
    (runModelEvaluationAndGetQuality fullDiskContext freshTask "image" healthyPaths "/data/d1"
        "val" Calls.start).out = Outcome.panicked "no space left on device" ∧
    stageCommits (TaskRunWorker fullDiskContext freshTask Calls.start).trace =
      [TaskStageTraining, TaskStagePredicting, TaskStageEvaluating] ∧
    (TaskRunWorker fullDiskContext freshTask Calls.start).out =
      Outcome.panicked "no space left on device" := by
  decide

/-! ## C16: one iteration of the listener -/

/-- C16. Listener iteration: an iteration of the loop of `TaskRunListener`
starts with `LockTask(status = scheduled, ProcessID)`.  When a task is
claimed, the iteration sets the process status to working, runs
`TaskRunWorker` on the claimed task from the counters it has, and, once the
driver has returned (by its end or by a `return`), sets the process status to
idle; a panic of the driver is the panic of the iteration.  When the cause of
the error is not-found, the iteration only sleeps.  On any other error it
panics with that error, having called nothing else. -/
theorem C16_listener_iteration (context : Context) (c : Calls) :
    (∀ task : Task,
      (TaskRunListenerIteration context (Except.ok task) c).trace =
        [Event.LockTask TaskScheduled context.ProcessID,
         Event.SetProcessStatus context.ProcessID ProcWorking,
         Event.Printf "TASK FOUND FOR EXECUTION"] ++
        (TaskRunWorker context task c).trace ++
        (match (TaskRunWorker context task c).out with
         | Outcome.panicked _ => []
         | _ => [Event.SetProcessStatus context.ProcessID ProcIdle]) ∧
      (TaskRunListenerIteration context (Except.ok task) c).out =
        (match (TaskRunWorker context task c).out with
         | Outcome.panicked e => Outcome.panicked e
         | _ => Outcome.next ())) ∧
    (∀ msg : String,
      (TaskRunListenerIteration context (Except.error ⟨msg, true⟩) c).trace =
        [Event.LockTask TaskScheduled context.ProcessID, Event.Sleep] ∧
      (TaskRunListenerIteration context (Except.error ⟨msg, true⟩) c).out =
        Outcome.next ()) ∧
    (∀ msg : String,
      (TaskRunListenerIteration context (Except.error ⟨msg, false⟩) c).trace =
        [Event.LockTask TaskScheduled context.ProcessID] ∧
      (TaskRunListenerIteration context (Except.error ⟨msg, false⟩) c).out =
        Outcome.panicked msg) := by
  refine ⟨fun task => ?_, fun msg => ?_, fun msg => ?_⟩
  · generalize hw : TaskRunWorker context task c = r
    obtain ⟨out, c1, t1⟩ := r
    cases out <;>
      simp [TaskRunListenerIteration, bind, Exec.bind, emit, repeatUntilSuccess, callMethod, hw]
  · simp [TaskRunListenerIteration, bind, Exec.bind, emit, goPanic]
  · simp [TaskRunListenerIteration, bind, Exec.bind, emit, goPanic]

/-! ## The image of the model executors -/

theorem modelCallsUse_split (pre post : List Event) (image : String) (command : List String)
    (name : Option String)
    (h : modelCallsUse name
      (pre ++ Event.RunContainerAndCollectOutput image command :: post) = true)
    (hc : isModelCommand command = true) : some image = name := by
  induction pre with
  | nil =>
    simp [modelCallsUse, hc] at h
    simpa using h.1
  | cons e pre ih =>
    cases e <;> simp [modelCallsUse] at h <;>
      first
      | exact ih h
      | exact ih h.2

theorem split_after (p : Event → Bool) (A T pre post : List Event) (e : Event)
    (h : A ++ T = pre ++ e :: post) (hA : ∀ x ∈ A, p x = false) (he : p e = true) :
    ∃ pre', pre = A ++ pre' ∧ T = pre' ++ e :: post := by
  induction A generalizing pre with
  | nil => exact ⟨pre, rfl, h⟩
  | cons a A ih =>
    cases pre with
    | nil =>
      simp only [List.cons_append, List.nil_append, List.cons.injEq] at h
      have := hA a (List.mem_cons_self _ _)
      rw [h.1, he] at this
      cases this
    | cons b pre =>
      simp only [List.cons_append, List.cons.injEq] at h
      obtain ⟨pre', h1, h2⟩ := ih pre h.2 (fun x hx => hA x (List.mem_cons_of_mem _ hx))
      exact ⟨pre', by rw [h.1, h1]; rfl, h2⟩

theorem modelCallsUse_fromCompleting (ctx : Context) (task : Task) (c : Calls)
    (name : Option String) :
    modelCallsUse name (fromCompleting ctx task c).trace = true := by
  have hh := completeTask_run ctx task c
  generalize h : completeTask ctx task c = r at hh
  cases hh
  all_goals
    rw [fromCompleting, Exec.bind_next h, fromHandler_run]
    simp only [handlerTrace]
    split_ifs <;> simp [modelCallsUse]

theorem modelCallsUse_fromEvaluating (ctx : Context) (task : Task)
    (paths : storage.TaskPaths) (dp : String) (c : Calls) (name : Option String) :
    modelCallsUse name (fromEvaluating ctx task paths dp c).trace = true := by
  have hh := evaluatingStage_run ctx task paths dp c
  generalize h : evaluatingStage ctx task paths dp c = r at hh
  cases hh
  all_goals
    first
    | rw [fromEvaluating, Exec.bind_next h]
    | rw [fromEvaluating, Exec.bind_returned h]
    | rw [fromEvaluating, Exec.bind_panicked h]
  all_goals
    simp [modelCallsUse, isModelCommand, evalCommand, evalOkTrace,
      modelCallsUse_fromCompleting]

theorem modelCallsUse_fromPredicting (ctx : Context) (task : Task) (img : String)
    (paths : storage.TaskPaths) (dp : String) (c : Calls) (name : Option String)
    (hname : task.Stage = TaskStagePredicting → name = some img) :
    modelCallsUse name (fromPredicting ctx task img paths dp c).trace = true := by
  have hh := predictingStage_run ctx task img paths dp c
  generalize h : predictingStage ctx task img paths dp c = r at hh
  cases hh
  all_goals
    first
    | rw [fromPredicting, Exec.bind_next h]
    | rw [fromPredicting, Exec.bind_returned h]
  all_goals
    simp [*, modelCallsUse, isModelCommand, predictCommand, predictOkTrace,
      modelCallsUse_fromEvaluating]

theorem modelCallsUse_fromTraining (ctx : Context) (task : Task) (img : String)
    (paths : storage.TaskPaths) (dp : String) (c : Calls) (name : Option String)
    (hname : task.Stage = TaskStageTraining ∨ task.Stage = TaskStagePredicting →
      name = some img) :
    modelCallsUse name (fromTraining ctx task img paths dp c).trace = true := by
  have hh := trainingStage_run ctx task img paths dp c
  generalize h : trainingStage ctx task img paths dp c = r at hh
  cases hh
  all_goals
    first
    | rw [fromTraining, Exec.bind_next h]
    | rw [fromTraining, Exec.bind_returned h]
  case notRunning | skipped =>
    simp only [modelCallsUse, List.cons_append, List.nil_append]
    exact modelCallsUse_fromPredicting ctx _ _ _ _ _ _ (fun hp => hname (Or.inr hp))
  case trained rd hs hst hr he =>
    have hn := hname (Or.inl hst)
    simp only [hn, modelCallsUse, isModelCommand, trainCommand, trainOkTrace, List.cons_append,
      List.nil_append, List.append_assoc, List.head?_cons, decide_True, Bool.or_true,
      Bool.true_and]
    exact modelCallsUse_fromPredicting ctx _ _ _ _ _ _ (fun _ => rfl)
  all_goals
    have hn := hname (Or.inl (by assumption))
    simp [hn, modelCallsUse, isModelCommand, trainCommand, trainOkTrace]

/-! ## C17: the model image name -/

/-- C17. The unloaded model image name is never used: in every run of
`TaskRunWorker`, whenever a container is started with the argv of the train
or of the predict executor, the task did not enter at stage evaluating, the
load of the model image was issued earlier in the run and succeeded, and the
container is started on the image name that load returned.  Hence a task
entering at stage evaluating starts no train and no predict container. -/
theorem C17_model_image_name (context : Context) (task : Task) (c : Calls) :
    (∀ (pre post : List Event) (image : String) (command : List String),
      (TaskRunWorker context task c).trace =
        pre ++ Event.RunContainerAndCollectOutput image command :: post →
      isModelCommand command = true →
      task.Stage ≠ TaskStageEvaluating ∧
      context.LoadImage c.LoadImage = Except.ok image ∧
      Event.LoadImage (context.getModuleImagePath task.Model ModuleModel) ∈ pre) ∧
    (task.Stage = TaskStageEvaluating →
      ∀ (image : String) (command : List String),
        Event.RunContainerAndCollectOutput image command ∈
          (TaskRunWorker context task c).trace →
        isModelCommand command = false) := by
  have key : ∀ (pre post : List Event) (image : String) (command : List String),
      (TaskRunWorker context task c).trace =
        pre ++ Event.RunContainerAndCollectOutput image command :: post →
      isModelCommand command = true →
      task.Stage ≠ TaskStageEvaluating ∧
      context.LoadImage c.LoadImage = Except.ok image ∧
      Event.LoadImage (context.getModuleImagePath task.Model ModuleModel) ∈ pre := by
    intro pre post image command hsplit hcmd
    have hh := TaskRunWorker_run context task c
    generalize TaskRunWorker context task c = r at hh hsplit
    cases hh
    case fromBegin dp paths name hd hp' hst hl =>
      obtain ⟨pre', h1, h2⟩ := split_after isContainerStart _ _ pre post _ hsplit
        (by simp [isContainerStart]) rfl
      have hu := modelCallsUse_fromTraining context { task with Stage := TaskStageTraining }
        name paths dp { c with LoadImage := c.LoadImage + 1 } (some name) (fun _ => rfl)
      rw [h2] at hu
      have hi := modelCallsUse_split pre' post image command _ hu hcmd
      simp only [Option.some.injEq] at hi
      subst hi
      refine ⟨by rw [hst]; decide, hl, ?_⟩
      rw [h1]
      simp
    case resumed dp paths name hd hp' hst hb hl =>
      obtain ⟨pre', h1, h2⟩ := split_after isContainerStart _ _ pre post _ hsplit
        (by simp [isContainerStart]) rfl
      have hu := modelCallsUse_fromTraining context task name paths dp
        { c with LoadImage := c.LoadImage + 1 } (some name) (fun _ => rfl)
      rw [h2] at hu
      have hi := modelCallsUse_split pre' post image command _ hu hcmd
      simp only [Option.some.injEq] at hi
      subst hi
      refine ⟨hst, hl, ?_⟩
      rw [h1]
      simp
    case resumedEvaluating dp paths hd hp' hst =>
      obtain ⟨pre', h1, h2⟩ := split_after isContainerStart _ _ pre post _ hsplit
        (by simp [isContainerStart]) rfl
      have hu := modelCallsUse_fromTraining context task "" paths dp c none
        (fun h => by rcases h with h | h <;> rw [hst] at h <;> cases h)
      rw [h2] at hu
      have hi := modelCallsUse_split pre' post image command _ hu hcmd
      cases hi
    all_goals
      exfalso
      have hm : Event.RunContainerAndCollectOutput image command ∈
          pre ++ Event.RunContainerAndCollectOutput image command :: post := by simp
      rw [← hsplit] at hm
      simp at hm
  refine ⟨key, fun hst image command hmem => ?_⟩
  obtain ⟨pre, post, hsplit⟩ := List.append_of_mem hmem
  cases hc : isModelCommand command with
  | false => rfl
  | true => exact absurd hst (key pre post image command hsplit hc).1

theorem C17_model_image_name_witness :
    freshTask.Stage ≠ TaskStageEvaluating ∧
    healthyContext.LoadImage Calls.start.LoadImage = Except.ok "image" ∧
    Event.LoadImage (healthyContext.getModuleImagePath freshTask.Model ModuleModel) ∈
      ((TaskRunWorker healthyContext freshTask Calls.start).trace).take 8 :=
  (C17_model_image_name healthyContext freshTask Calls.start).1
    (((TaskRunWorker healthyContext freshTask Calls.start).trace).take 8)
    (((TaskRunWorker healthyContext freshTask Calls.start).trace).drop 9)
    "image"
    ["train", "--data", "/mnt/data/d1/train", "--conf", "/mnt/t/config/config.json",
     "--output", "/mnt/t/parameters"]
    (by rfl) (by rfl)

end workers
